import Mathlib

/-!
# IPU3 ImgU driver: slot pool, dummy buffers, dispatcher and completion path

A shallow embedding of `ipu3-css-pool.c` and of the buffer paths of `ipu3.c`.

* Arrays are total maps from indices (`Nat → _`); the only array access of the
  embedded code whose index is not reduced modulo the array size or bounded by
  a loop (the write of `ipu3_css_pool_put`) is guarded explicitly.
* `long` is the 64-bit two's-complement type of the kernel build; the
  subtraction of `ipu3_css_pool_check` is reduced with `wrap_long`.
* `IPU3_CSS_POOL_SIZE` lives in a header that is not part of the sources at
  hand; every pool function takes it as the parameter `N`.
-/

set_option maxRecDepth 20000

namespace Ipu3

/-! ## Machine constants -/

/-- LONG_MAX of the 64-bit `long`. -/
def LONG_MAX : Int := 2 ^ 63 - 1

/-- LONG_MIN of the 64-bit `long`. -/
def LONG_MIN : Int := -(2 ^ 63)

/-- INT_MIN of the 32-bit `int`, the "never used" generation. -/
def INT_MIN : Int := -(2 ^ 31)

/-- Errno value ENOSPC. -/
def ENOSPC : Int := 28

/-- Errno value ENOMEM. -/
def ENOMEM : Int := 12

/-- Errno value EBUSY. -/
def EBUSY : Int := 16

/-- Errno value EAGAIN. -/
def EAGAIN : Int := 11

/-- Errno value EINVAL. -/
def EINVAL : Int := 22

/-- Reduction of an integer to the value range of `long` (two's complement). -/
def wrap_long (x : Int) : Int := (x + 2 ^ 63) % 2 ^ 64 - 2 ^ 63

/-- The values a `long` can hold. -/
def is_long (x : Int) : Prop := LONG_MIN ≤ x ∧ x ≤ LONG_MAX

instance (x : Int) : Decidable (is_long x) := by
  unfold is_long; infer_instance

/-! ## Slot pool (`ipu3-css-pool.c`) -/

/-- The `struct ipu3_css_map`: a mapped region; `vaddr = none` is the NULL pointer. -/
structure ipu3_css_map where
  size : Nat
  vaddr : Option Nat
  daddr : Nat
deriving DecidableEq, Repr

/-- The `static const struct ipu3_css_map null_map = { 0 }` of `ipu3_css_pool_last`. -/
def null_map : ipu3_css_map := { size := 0, vaddr := none, daddr := 0 }

/-- One element of `pool->entry[]`. -/
structure ipu3_css_pool_entry where
  param : ipu3_css_map
  framenum : Int
deriving DecidableEq, Repr

/-- The `struct ipu3_css_pool`: the slots and the cursor `last`. The cursor is a natural
number; its index arithmetic is exact for every cursor up to the capacity, the range the code
keeps it in. -/
structure ipu3_css_pool where
  entry : Nat → ipu3_css_pool_entry
  last : Nat

/-- The assignment `pool->entry[i].framenum = v`. -/
def set_framenum (pool : ipu3_css_pool) (i : Nat) (v : Int) : ipu3_css_pool :=
  { entry := Function.update pool.entry i { param := (pool.entry i).param, framenum := v },
    last := pool.last }

/-- An assignment to (fields of) `pool->entry[i].param`. -/
def set_param (pool : ipu3_css_pool) (i : Nat) (m : ipu3_css_map) : ipu3_css_pool :=
  { entry := Function.update pool.entry i { param := m, framenum := (pool.entry i).framenum },
    last := pool.last }

/-- Modelled from the spec: `ipu3_dmamap_free` is declared in `ipu3-dmamap.h` and defined
elsewhere; the region is released, leaving the map without a mapping. -/
def ipu3_dmamap_free (map : ipu3_css_map) : ipu3_css_map :=
  { map with vaddr := none }

/-- The loop of `ipu3_css_pool_cleanup` over the slots `i, i+1, ...` (`rem` of them). -/
def ipu3_css_pool_cleanup_from : Nat → Nat → ipu3_css_pool → ipu3_css_pool
  | 0, _, pool => pool
  | rem + 1, i, pool =>
    ipu3_css_pool_cleanup_from rem (i + 1)
      (set_param pool i (ipu3_dmamap_free (pool.entry i).param))

/-- `ipu3_css_pool_cleanup`: free the region of every slot. -/
def ipu3_css_pool_cleanup (N : Nat) (pool : ipu3_css_pool) : ipu3_css_pool :=
  ipu3_css_pool_cleanup_from N 0 pool

/-- The `for` loop of `ipu3_css_pool_init` over the slots `i, i+1, ...` (`rem` of them);
`alloc i size` is the outcome of `ipu3_dmamap_alloc` for slot `i` (`none`: NULL).
The result is `Except.error` with the pool at the `goto fail`. -/
def ipu3_css_pool_init_from (alloc : Nat → Int → Option ipu3_css_map) (size : Int) :
    Nat → Nat → ipu3_css_pool → Except ipu3_css_pool ipu3_css_pool
  | 0, _, pool => .ok pool
  | rem + 1, i, pool =>
    let pool1 := set_framenum pool i INT_MIN
    if size = 0 then
      ipu3_css_pool_init_from alloc size rem (i + 1)
        (set_param pool1 i { (pool1.entry i).param with vaddr := none })
    else
      match alloc i size with
      | none => .error pool1
      | some m => ipu3_css_pool_init_from alloc size rem (i + 1) (set_param pool1 i m)

/-- `ipu3_css_pool_init`: returns 0 and the initialised pool, or `-ENOMEM` and the
cleaned-up pool. -/
def ipu3_css_pool_init (N : Nat) (alloc : Nat → Int → Option ipu3_css_map)
    (pool : ipu3_css_pool) (size : Int) : Int × ipu3_css_pool :=
  match ipu3_css_pool_init_from alloc size N 0 pool with
  | .ok p => (0, { p with last := N })
  | .error p => (-ENOMEM, ipu3_css_pool_cleanup N p)

/-- The age `diff` computed by `ipu3_css_pool_check` for frame number `framenum` against a
slot generation `gen`: the `long` difference, plus `LONG_MAX` when negative. -/
def ipu3_css_pool_diff (framenum gen : Int) : Int :=
  let diff := wrap_long (framenum - gen)
  if diff < 0 then diff + LONG_MAX else diff

/-- `ipu3_css_pool_check`: the slot after the cursor when it is old enough, else `-ENOSPC`. -/
def ipu3_css_pool_check (N : Nat) (pool : ipu3_css_pool) (framenum : Int) : Int :=
  let n := (pool.last + 1) % N
  let diff := ipu3_css_pool_diff framenum (pool.entry n).framenum
  if diff > (N : Int) then (n : Int) else -ENOSPC

/-- `ipu3_css_pool_get`: the return value and the pool afterwards. -/
def ipu3_css_pool_get (N : Nat) (pool : ipu3_css_pool) (framenum : Int) :
    Int × ipu3_css_pool :=
  let n := ipu3_css_pool_check N pool framenum
  if n < 0 then (n, pool)
  else
    (n, { set_framenum pool n.toNat framenum with last := n.toNat })

/-- `ipu3_css_pool_put`. The C function writes `entry[last]` unguarded; the write is inside
the array only when `last < N`, and the embedding is defined (`some`) exactly then. -/
def ipu3_css_pool_put (N : Nat) (pool : ipu3_css_pool) : Option ipu3_css_pool :=
  if pool.last < N then
    some { set_framenum pool pool.last INT_MIN with last := (pool.last + N - 1) % N }
  else none

/-- What `ipu3_css_pool_last` can return: the address of the shared `null_map` or of the
region of slot `i`. -/
inductive ipu3_css_map_ref where
  | null_map
  | entry_param (i : Nat)
deriving DecidableEq, Repr

/-- `ipu3_css_pool_last`: the slot `n` positions behind the cursor. -/
def ipu3_css_pool_last (N : Nat) (pool : ipu3_css_pool) (n : Nat) : ipu3_css_map_ref :=
  let i := (pool.last + N - n) % N
  if (pool.entry i).framenum < 0 then .null_map else .entry_param i

/-- A call on the pool, for sequences of calls. -/
inductive pool_call where
  | get (framenum : Int)
  | put
deriving DecidableEq, Repr

/-- Run a sequence of calls; `none` when a `put` falls outside the array. -/
def pool_run (N : Nat) : List pool_call → ipu3_css_pool → Option ipu3_css_pool
  | [], pool => some pool
  | .get f :: cs, pool => pool_run N cs (ipu3_css_pool_get N pool f).2
  | .put :: cs, pool =>
    match ipu3_css_pool_put N pool with
    | some p => pool_run N cs p
    | none => none

/-- A call passes a `long` frame number. -/
def pool_call.typed : pool_call → Bool
  | .get f => decide (is_long f)
  | .put => true

/-- A pool whose slots hold nothing yet, the argument handed to `ipu3_css_pool_init`. -/
def blank_pool : ipu3_css_pool :=
  { entry := fun _ => { param := null_map, framenum := 0 }, last := 0 }

/-- The pool of capacity 4 right after a successful `ipu3_css_pool_init` with `size == 0`. -/
def fresh_pool4 : ipu3_css_pool :=
  (ipu3_css_pool_init 4 (fun _ _ => none) blank_pool 0).2

/-- The pool of capacity 4 after `get` for the frames 10, 11, 12, 13. -/
def aged_pool4 : ipu3_css_pool :=
  (ipu3_css_pool_get 4 (ipu3_css_pool_get 4 (ipu3_css_pool_get 4
    (ipu3_css_pool_get 4 fresh_pool4 10).2 11).2 12).2 13).2

/-- The pool of capacity 4 after a first `get` for frame number -1. -/
def negative_pool4 : ipu3_css_pool :=
  (ipu3_css_pool_get 4 fresh_pool4 (-1)).2

/-- The frame number reached `k` steps after `g` by a counter that runs up to `LONG_MAX` and
then wraps to 0. -/
def frame_after (g : Int) (k : Nat) : Int := (g + (k : Int)) % 2 ^ 63

/-- Pool states reachable from a successful `ipu3_css_pool_init` by `get`/`put` calls. -/
def pool_reachable (N : Nat) (pool : ipu3_css_pool) : Prop :=
  ∃ (alloc : Nat → Int → Option ipu3_css_map) (pool0 : ipu3_css_pool) (size : Int)
    (cs : List pool_call),
    (ipu3_css_pool_init N alloc pool0 size).1 = 0 ∧ cs.all pool_call.typed = true ∧
    pool_run N cs (ipu3_css_pool_init N alloc pool0 size).2 = some pool


/-! ## Buffers, nodes and queues (`ipu3.c`)

The headers `ipu3.h` and `ipu3-css.h` are not among the sources at hand. The constants and
record types below are the ones `ipu3.c` names; their values follow the order in which the
specification lists the queues, and the external functions of the CSS and V4L2 layers are
parameters (`css_env`). -/

/-- IMGU_MAX_QUEUE_DEPTH, `(2 + 2)`. -/
def IMGU_MAX_QUEUE_DEPTH : Nat := 2 + 2

/-- Modelled from the spec: node identifier of the input node (header `ipu3.h` missing). -/
def IMGU_NODE_IN : Nat := 0

/-- Modelled from the spec: node identifier of the parameters node. -/
def IMGU_NODE_PARAMS : Nat := 1

/-- Modelled from the spec: node identifier of the output node. -/
def IMGU_NODE_OUT : Nat := 2

/-- Modelled from the spec: node identifier of the viewfinder node. -/
def IMGU_NODE_VF : Nat := 3

/-- Modelled from the spec: node identifier of the postview node. -/
def IMGU_NODE_PV : Nat := 4

/-- Modelled from the spec: node identifier of the 3A-statistics node. -/
def IMGU_NODE_STAT_3A : Nat := 5

/-- Modelled from the spec: node identifier of the DVS-statistics node. -/
def IMGU_NODE_STAT_DVS : Nat := 6

/-- Modelled from the spec: the number of caller-visible nodes, 7. -/
def IMGU_NODE_NUM : Nat := 7

/-- Modelled from the spec: hardware queue of input frames (header `ipu3-css.h` missing). -/
def IPU3_CSS_QUEUE_IN : Nat := 0

/-- Modelled from the spec: hardware queue of parameters. -/
def IPU3_CSS_QUEUE_PARAMS : Nat := 1

/-- Modelled from the spec: hardware queue of output frames. -/
def IPU3_CSS_QUEUE_OUT : Nat := 2

/-- Modelled from the spec: hardware queue shared by viewfinder and postview. -/
def IPU3_CSS_QUEUE_VF : Nat := 3

/-- Modelled from the spec: hardware queue of 3A statistics. -/
def IPU3_CSS_QUEUE_STAT_3A : Nat := 4

/-- Modelled from the spec: hardware queue of DVS statistics. -/
def IPU3_CSS_QUEUE_STAT_DVS : Nat := 5

/-- Modelled from the spec: the number of hardware queue identities, 6. -/
def IPU3_CSS_QUEUES : Nat := 6

/-- Modelled from the spec: the states of a buffer, NEW, QUEUED, DONE, ERROR. -/
inductive ipu3_css_buffer_state where
  | IPU3_CSS_BUFFER_NEW
  | IPU3_CSS_BUFFER_QUEUED
  | IPU3_CSS_BUFFER_DONE
  | IPU3_CSS_BUFFER_ERROR
deriving DecidableEq, Repr, Inhabited

open ipu3_css_buffer_state

/-- The completion states handed to `ipu3_v4l2_buffer_done`. -/
inductive vb2_buffer_state where
  | VB2_BUF_STATE_DONE
  | VB2_BUF_STATE_ERROR
deriving DecidableEq, Repr, Inhabited

open vb2_buffer_state

/-- The pipe kinds `imgu_queue_buffers` distinguishes. -/
inductive ipu3_css_pipe_id where
  | IPU3_CSS_PIPE_ID_PREVIEW
  | IPU3_CSS_PIPE_ID_COPY
  | IPU3_CSS_PIPE_ID_VIDEO
  | IPU3_CSS_PIPE_ID_CAPTURE
deriving DecidableEq, Repr, Inhabited

open ipu3_css_pipe_id

/-- The `struct ipu3_css_buffer`, the unit passed to and from the hardware. -/
structure ipu3_css_buffer where
  state : ipu3_css_buffer_state
  queue : Nat
  daddr : Nat
deriving DecidableEq, Repr, Inhabited

/-- Modelled from the spec: `ipu3_css_buf_init` (inline in the missing `ipu3-css.h`)
re-initialises a buffer: state NEW, the given queue and address. -/
def ipu3_css_buf_init (queue : Nat) (daddr : Nat) : ipu3_css_buffer :=
  { state := IPU3_CSS_BUFFER_NEW, queue := queue, daddr := daddr }

/-- The `struct imgu_buffer`: a caller buffer wrapping a `css_buf`, with the fields of the
`vb2_buffer` that `ipu3.c` reads or writes. -/
structure imgu_buffer where
  css_buf : ipu3_css_buffer
  index : Nat
  meta_capture : Bool
  payload : Nat
  timestamp : Nat
  sequence : Nat
deriving DecidableEq, Repr, Inhabited

/-- A node `imgu->nodes[i]`: enablement, direction, the list of caller buffers in arrival
order, the sequence counter and the two buffer sizes of `vdev_fmt`. -/
structure imgu_video_device where
  enabled : Bool
  output : Bool
  buffers : List imgu_buffer
  sequence : Int
  meta_buffersize : Nat
  sizeimage : Nat
deriving Repr, Inhabited

/-- A hardware queue `imgu->queues[i]`: the shared allocation and the filler buffers. -/
structure imgu_queue where
  dmap : ipu3_css_map
  dummybufs : Nat → ipu3_css_buffer

/-- The fields of `imgu->css` read by `ipu3.c`. -/
structure ipu3_css where
  streaming : Bool
  pipe_id : ipu3_css_pipe_id
deriving DecidableEq, Repr, Inhabited

/-- The `struct imgu_device`. -/
structure imgu_device where
  css : ipu3_css
  nodes : Nat → imgu_video_device
  queue_enabled : Nat → Bool
  queues : Nat → imgu_queue

/-- A `struct ipu3_css_buffer *`: the address of the `css_buf` of the `k`-th caller buffer of a
node, or the address of `imgu->queues[queue].dummybufs[b]`. -/
inductive buf_ptr where
  | user (node : Nat) (k : Nat)
  | dummy (queue : Nat) (b : Nat)
deriving DecidableEq, Repr, Inhabited

/-- What `ipu3_css_buf_dequeue` returns: a buffer, an `ERR_PTR`, or NULL. -/
inductive css_dequeue_result where
  | buf (b : buf_ptr)
  | err (e : Int)
  | null
deriving DecidableEq, Repr, Inhabited

/-- The functions of the CSS layer, the clock and the `qbuf_lock` attempt that `ipu3.c` calls
and that are defined outside it; the CSS functions may depend on and change the whole device
state, and the clock is read once per pass of the completion loop. -/
structure css_env where
  ipu3_css_buf_queue : imgu_device → buf_ptr → Int × imgu_device
  ipu3_css_buf_dequeue : imgu_device → css_dequeue_result × imgu_device
  ipu3_css_queue_empty : imgu_device → Bool
  ktime_get_ns : Nat → Nat
  mutex_trylock : imgu_device → Bool

/-- What the code observes: calls of the hardware submission with their result, calls of the
caller-visible completion `ipu3_v4l2_buffer_done`, and wake-ups of the drain waiters. The field
`input_ready` of a submission is instrumentation: whether the input node held a NEW caller
buffer when the current cycle through the nodes started. -/
inductive imgu_event where
  | css_buf_queue (node : Nat) (buf : buf_ptr) (r : Int) (input_ready : Bool)
  | buffer_done (buf : buf_ptr) (state : vb2_buffer_state)
  | wake_up_all
deriving DecidableEq, Repr, Inhabited

/-- The table `imgu_node_map[node].css_queue`, i.e. `imgu_node_to_queue`. -/
def imgu_node_to_queue (node : Nat) : Nat :=
  if node = IMGU_NODE_IN then IPU3_CSS_QUEUE_IN
  else if node = IMGU_NODE_PARAMS then IPU3_CSS_QUEUE_PARAMS
  else if node = IMGU_NODE_OUT then IPU3_CSS_QUEUE_OUT
  else if node = IMGU_NODE_VF then IPU3_CSS_QUEUE_VF
  else if node = IMGU_NODE_PV then IPU3_CSS_QUEUE_VF
  else if node = IMGU_NODE_STAT_3A then IPU3_CSS_QUEUE_STAT_3A
  else if node = IMGU_NODE_STAT_DVS then IPU3_CSS_QUEUE_STAT_DVS
  else 0

/-- The value of `b` when `for (b = start; b < start + rem; b++) if (p b) break;` ends. -/
def for_break (p : Nat → Bool) : Nat → Nat → Nat
  | 0, b => b
  | rem + 1, b => if p b then b else for_break p rem (b + 1)

/-- `imgu_map_node`: the node of a hardware queue, or `-EINVAL`. -/
def imgu_map_node (imgu : imgu_device) (css_queue : Nat) : Int :=
  if css_queue = IPU3_CSS_QUEUE_VF then
    if (imgu.nodes IMGU_NODE_VF).enabled then (IMGU_NODE_VF : Int) else (IMGU_NODE_PV : Int)
  else
    let i := for_break (fun i => decide (imgu_node_to_queue i = css_queue)) IMGU_NODE_NUM 0
    if i < IMGU_NODE_NUM then (i : Int) else -EINVAL

/-- The buffer a pointer designates (`*buf`). -/
def css_buf_at (imgu : imgu_device) : buf_ptr → ipu3_css_buffer
  | .user node k => ((imgu.nodes node).buffers.getD k default).css_buf
  | .dummy queue b => (imgu.queues queue).dummybufs b

/-- The caller buffer around a pointer (`container_of(buf, struct imgu_buffer, css_buf)`); only
pointers into a node's list have one. -/
def imgu_buffer_at (imgu : imgu_device) : buf_ptr → imgu_buffer
  | .user node k => (imgu.nodes node).buffers.getD k default
  | .dummy _ _ => default

/-- The assignment `imgu->queues[queue].dummybufs[b] = v`. -/
def set_dummybuf (imgu : imgu_device) (queue b : Nat) (v : ipu3_css_buffer) : imgu_device :=
  { css := imgu.css, nodes := imgu.nodes, queue_enabled := imgu.queue_enabled,
    queues := Function.update imgu.queues queue
      { dmap := (imgu.queues queue).dmap,
        dummybufs := Function.update (imgu.queues queue).dummybufs b v } }

/-- `imgu_dummybufs_get`: the first filler buffer of the queue that is not QUEUED,
re-initialised; `none` is NULL. -/
def imgu_dummybufs_get (imgu : imgu_device) (queue : Nat) : Option buf_ptr × imgu_device :=
  if queue = IPU3_CSS_QUEUE_IN then (none, imgu)
  else if (imgu.queues queue).dmap.vaddr = none then (none, imgu)
  else
    let b := for_break
      (fun b => decide (((imgu.queues queue).dummybufs b).state ≠ IPU3_CSS_BUFFER_QUEUED))
      IMGU_MAX_QUEUE_DEPTH 0
    if b ≥ IMGU_MAX_QUEUE_DEPTH then (none, imgu)
    else
      (some (.dummy queue b),
        set_dummybuf imgu queue b (ipu3_css_buf_init queue (imgu.queues queue).dmap.daddr))

/-- `imgu_dummybufs_check`: whether the pointer is the address of one of the filler buffers of
the queue named in the buffer. -/
def imgu_dummybufs_check (imgu : imgu_device) (buf : buf_ptr) : Bool :=
  let q := (css_buf_at imgu buf).queue
  let b := for_break (fun b => decide (buf = .dummy q b)) IMGU_MAX_QUEUE_DEPTH 0
  decide (b < IMGU_MAX_QUEUE_DEPTH)

/-- The position of the first caller buffer in state NEW (`list_for_each_entry` of
`imgu_queue_getbuf`). -/
def first_new_buffer : List imgu_buffer → Option Nat
  | [] => none
  | buf :: rest =>
    if buf.css_buf.state = IPU3_CSS_BUFFER_NEW then some 0
    else (first_new_buffer rest).map (· + 1)

/-- `imgu_queue_getbuf`: the first NEW caller buffer of the node, else a filler buffer. The
`queue < 0` guard of the C function never fires, the table holding no negative entry. -/
def imgu_queue_getbuf (imgu : imgu_device) (node : Nat) : Option buf_ptr × imgu_device :=
  let queue := imgu_node_to_queue node
  match first_new_buffer (imgu.nodes node).buffers with
  | some k => (some (.user node k), imgu)
  | none => imgu_dummybufs_get imgu queue

/-- Whether the input node holds a caller buffer in state NEW. -/
def input_ready (imgu : imgu_device) : Bool :=
  (imgu.nodes IMGU_NODE_IN).buffers.any (fun buf => decide (buf.css_buf.state = IPU3_CSS_BUFFER_NEW))

/-- The outcome of the dispatcher: the value of `r`, the device, the observed events, and
whether the code ran to its end within the given number of loop iterations. -/
structure queue_result where
  r : Int
  imgu : imgu_device
  trace : List imgu_event
  finished : Bool

/-- Put events in front of the trace of an outcome. -/
def queue_result.after (evs : List imgu_event) (res : queue_result) : queue_result :=
  { r := res.r, imgu := res.imgu, trace := evs ++ res.trace, finished := res.finished }

/-- How one iteration of the dispatcher loop ends: the value of `r`, the device, the events of
the iteration, whether the loop goes on to the next node (`continues = false` is a `break`),
and the instrumentation `ready` for the events to come. -/
structure loop_iter where
  r : Int
  imgu : imgu_device
  events : List imgu_event
  continues : Bool
  ready : Bool

/-- The body of the `for (node = IMGU_NODE_IN + 1; 1; node = (node + 1) % IMGU_NODE_NUM)` loop
of `imgu_queue_buffers` at `node`, with the current `r`. The instrumentation `ready` is
recomputed when the loop passes the input node, i.e. when the next cycle starts. -/
def imgu_queue_iter (env : css_env) (imgu : imgu_device) (node : Nat) (r : Int) (ready : Bool) :
    loop_iter :=
  if node = IMGU_NODE_VF ∧
      (imgu.css.pipe_id = IPU3_CSS_PIPE_ID_CAPTURE ∨ ¬ (imgu.nodes IMGU_NODE_VF).enabled) then
    { r := r, imgu := imgu, events := [], continues := true, ready := ready }
  else if node = IMGU_NODE_PV ∧
      (imgu.css.pipe_id = IPU3_CSS_PIPE_ID_VIDEO ∨ ¬ (imgu.nodes IMGU_NODE_PV).enabled) then
    { r := r, imgu := imgu, events := [], continues := true, ready := ready }
  else if imgu.queue_enabled node then
    match imgu_queue_getbuf imgu node with
    | (none, imgu1) => { r := r, imgu := imgu1, events := [], continues := false, ready := ready }
    | (some buf, imgu1) =>
      let out := env.ipu3_css_buf_queue imgu1 buf
      let ev := imgu_event.css_buf_queue node buf out.1 ready
      if out.1 ≠ 0 then
        { r := out.1, imgu := out.2, events := [ev], continues := false, ready := ready }
      else if node = IMGU_NODE_IN ∧ (imgu_queue_getbuf out.2 IMGU_NODE_IN).1 = none then
        { r := out.1, imgu := out.2, events := [ev], continues := false, ready := ready }
      else
        { r := out.1, imgu := out.2, events := [ev], continues := true,
          ready := if node = IMGU_NODE_IN then input_ready out.2 else ready }
  else if node = IMGU_NODE_IN ∧ (imgu_queue_getbuf imgu IMGU_NODE_IN).1 = none then
    { r := r, imgu := imgu, events := [], continues := false, ready := ready }
  else
    { r := r, imgu := imgu, events := [], continues := true,
      ready := if node = IMGU_NODE_IN then input_ready imgu else ready }

/-- The dispatcher loop, one iteration per unit of `fuel`, entered at `node`. -/
def imgu_queue_loop (env : css_env) :
    Nat → imgu_device → Nat → Int → Bool → queue_result
  | 0, imgu, _, r, _ => { r := r, imgu := imgu, trace := [], finished := false }
  | fuel + 1, imgu, node, r, ready =>
    let it := imgu_queue_iter env imgu node r ready
    if it.continues then
      (imgu_queue_loop env fuel it.imgu ((node + 1) % IMGU_NODE_NUM) it.r it.ready).after
        it.events
    else { r := it.r, imgu := it.imgu, trace := it.events, finished := true }

/-- The inner `list_for_each_entry_safe` of the failure path over the caller buffers of one
node, from position `k` on. -/
def fail_node_buffers (node : Nat) : Nat → List imgu_buffer → List imgu_event
  | _, [] => []
  | k, buf :: rest =>
    if buf.css_buf.state = IPU3_CSS_BUFFER_QUEUED then fail_node_buffers node (k + 1) rest
    else
      imgu_event.buffer_done (.user node k) VB2_BUF_STATE_ERROR ::
        fail_node_buffers node (k + 1) rest

/-- The outer loop of the failure path over the nodes `node, node+1, ...` (`rem` of them). -/
def fail_nodes (imgu : imgu_device) : Nat → Nat → List imgu_event
  | 0, _ => []
  | rem + 1, node =>
    if ¬ imgu.queue_enabled node then fail_nodes imgu rem (node + 1)
    else fail_node_buffers node 0 (imgu.nodes node).buffers ++ fail_nodes imgu rem (node + 1)

/-- The dispatcher loop as `imgu_queue_buffers` enters it: at the node after the input node,
with `r = 0`. -/
def imgu_queue_cycles (env : css_env) (fuel : Nat) (imgu : imgu_device) : queue_result :=
  imgu_queue_loop env fuel imgu (IMGU_NODE_IN + 1) 0 (input_ready imgu)

/-- `imgu_queue_buffers`. Modelled from the spec: `ipu3_v4l2_buffer_done` (defined outside
`ipu3.c`) hands the buffer back to the caller; it is recorded as a `buffer_done` event. -/
def imgu_queue_buffers (env : css_env) (fuel : Nat) (imgu : imgu_device) (initial : Bool) :
    queue_result :=
  if ¬ imgu.css.streaming then { r := 0, imgu := imgu, trace := [], finished := true }
  else if (imgu_queue_getbuf imgu IMGU_NODE_IN).1 = none then
    { r := 0, imgu := imgu, trace := [], finished := true }
  else
    let res := imgu_queue_cycles env fuel imgu
    if ¬ res.finished then res
    else if res.r ≠ 0 ∧ res.r ≠ -EBUSY then
      if initial then res
      else { r := res.r, imgu := res.imgu,
             trace := res.trace ++ fail_nodes res.imgu IMGU_NODE_NUM 0, finished := true }
    else { r := 0, imgu := res.imgu, trace := res.trace, finished := true }

/-- Reduction of an integer to the value range of `int` (two's complement). -/
def wrap_int (x : Int) : Int := (x + 2 ^ 31) % 2 ^ 32 - 2 ^ 31

/-- An assignment to the fields of the caller buffer around a pointer; pointers that are not
into a node's list have no caller buffer around them. -/
def set_imgu_buffer (imgu : imgu_device) : buf_ptr → imgu_buffer → imgu_device
  | .user node k, v =>
    { css := imgu.css, queue_enabled := imgu.queue_enabled, queues := imgu.queues,
      nodes := Function.update imgu.nodes node
        { enabled := (imgu.nodes node).enabled, output := (imgu.nodes node).output,
          buffers := (imgu.nodes node).buffers.set k v,
          sequence := (imgu.nodes node).sequence,
          meta_buffersize := (imgu.nodes node).meta_buffersize,
          sizeimage := (imgu.nodes node).sizeimage } }
  | .dummy _ _, _ => imgu

/-- The assignment `imgu->nodes[node].sequence = v`. -/
def set_sequence (imgu : imgu_device) (node : Nat) (v : Int) : imgu_device :=
  { css := imgu.css, queue_enabled := imgu.queue_enabled, queues := imgu.queues,
    nodes := Function.update imgu.nodes node
      { enabled := (imgu.nodes node).enabled, output := (imgu.nodes node).output,
        buffers := (imgu.nodes node).buffers,
        sequence := v,
        meta_buffersize := (imgu.nodes node).meta_buffersize,
        sizeimage := (imgu.nodes node).sizeimage } }

/-- The inner `do { b = ipu3_css_buf_dequeue() } while (PTR_ERR(b) == -EAGAIN)` of
`imgu_isr_threaded`; `none` when `fuel` retries did not suffice. -/
def imgu_isr_dequeue (env : css_env) : Nat → imgu_device → Option (css_dequeue_result × imgu_device)
  | 0, _ => none
  | fuel + 1, imgu =>
    let out := env.ipu3_css_buf_dequeue imgu
    if out.1 = .err (-EAGAIN) then imgu_isr_dequeue env fuel out.2 else some out

/-- What one pass of the completion loop does with a retrieved buffer. -/
structure isr_step where
  imgu : imgu_device
  events : List imgu_event
  again : Bool

/-- The body of the outer loop of `imgu_isr_threaded` from `q = b->queue` on, for a retrieved
buffer `b` and the clock value `ns`; `again = false` is the `break`. -/
def imgu_isr_complete (env : css_env) (ns : Nat) (imgu : imgu_device) (b : buf_ptr) : isr_step :=
  let q := (css_buf_at imgu b).queue
  let node := imgu_map_node imgu q
  if node < 0 then { imgu := imgu, events := [], again := false }
  else
    let dummy := imgu_dummybufs_check imgu b
    if dummy then { imgu := imgu, events := [], again := true }
    else
      let buf := imgu_buffer_at imgu b
      let imgu1 :=
        if ¬ (imgu.nodes node.toNat).output then
          let bytes :=
            if buf.meta_capture then (imgu.nodes node.toNat).meta_buffersize
            else (imgu.nodes node.toNat).sizeimage
          let seq := wrap_int ((imgu.nodes node.toNat).sequence + 1)
          set_imgu_buffer (set_sequence imgu node.toNat seq) b
            { css_buf := buf.css_buf, index := buf.index, meta_capture := buf.meta_capture,
              payload := bytes, timestamp := ns, sequence := (seq % 2 ^ 32).toNat }
        else imgu
      let state :=
        if (css_buf_at imgu1 b).state = IPU3_CSS_BUFFER_DONE then VB2_BUF_STATE_DONE
        else VB2_BUF_STATE_ERROR
      { imgu := imgu1,
        events := imgu_event.buffer_done b state ::
          (if env.ipu3_css_queue_empty imgu1 then [imgu_event.wake_up_all] else []),
        again := true }

/-- One entry of the completion log: a retrieved buffer, the queue named in it, the value of
`imgu_dummybufs_check` for it, and the events its processing caused. -/
structure isr_record where
  buf : buf_ptr
  queue : Nat
  dummy : Bool
  events : List imgu_event
deriving DecidableEq, Repr

/-- The outcome of the completion loop: the device, the log, and whether the loop ended within
the given number of passes. -/
structure isr_result where
  imgu : imgu_device
  log : List isr_record
  finished : Bool

/-- The outer `do { ... } while (1)` of `imgu_isr_threaded`, one pass per unit of `fuel`. -/
def imgu_isr_loop (env : css_env) : Nat → imgu_device → isr_result
  | 0, imgu => { imgu := imgu, log := [], finished := false }
  | fuel + 1, imgu =>
    match imgu_isr_dequeue env (fuel + 1) imgu with
    | none => { imgu := imgu, log := [], finished := false }
    | some (.err _, imgu1) => { imgu := imgu1, log := [], finished := true }
    | some (.null, imgu1) => { imgu := imgu1, log := [], finished := true }
    | some (.buf b, imgu1) =>
      let step := imgu_isr_complete env (env.ktime_get_ns fuel) imgu1 b
      let record : isr_record :=
        { buf := b, queue := (css_buf_at imgu1 b).queue,
          dummy := imgu_dummybufs_check imgu1 b, events := step.events }
      if step.again then
        let rest := imgu_isr_loop env fuel step.imgu
        { imgu := rest.imgu, log := record :: rest.log, finished := rest.finished }
      else { imgu := step.imgu, log := [record], finished := true }

/-- The outcome of `imgu_isr_threaded`: the completion loop and, when it ended and the
`qbuf_lock` was free, the dispatcher run that follows it. -/
structure isr_threaded_result where
  isr : isr_result
  requeue : Option queue_result

/-- `imgu_isr_threaded`. -/
def imgu_isr_threaded (env : css_env) (fuel : Nat) (imgu : imgu_device) : isr_threaded_result :=
  let isr := imgu_isr_loop env fuel imgu
  if isr.finished ∧ env.mutex_trylock isr.imgu then
    { isr := isr, requeue := some (imgu_queue_buffers env fuel isr.imgu false) }
  else { isr := isr, requeue := none }

/-! ## Sample environments and devices -/

/-- The assignment `buf->state = st` through a pointer. -/
def set_buf_state (imgu : imgu_device) (st : ipu3_css_buffer_state) : buf_ptr → imgu_device
  | .user node k =>
    let old := (imgu.nodes node).buffers.getD k default
    set_imgu_buffer imgu (.user node k)
      { css_buf := { state := st, queue := old.css_buf.queue, daddr := old.css_buf.daddr },
        index := old.index, meta_capture := old.meta_capture, payload := old.payload,
        timestamp := old.timestamp, sequence := old.sequence }
  | .dummy queue b =>
    set_dummybuf imgu queue b
      { state := st, queue := ((imgu.queues queue).dummybufs b).queue,
        daddr := ((imgu.queues queue).dummybufs b).daddr }

/-- A sample hardware: a submission on a queue in `failing` returns `code` and leaves the
buffer alone, any other submission returns 0 and moves the buffer to QUEUED; nothing is ever
retrieved. -/
def sample_env (failing : List Nat) (code : Int) : css_env :=
  { ipu3_css_buf_queue := fun imgu buf =>
      if (css_buf_at imgu buf).queue ∈ failing then (code, imgu)
      else (0, set_buf_state imgu IPU3_CSS_BUFFER_QUEUED buf),
    ipu3_css_buf_dequeue := fun imgu => (.null, imgu),
    ipu3_css_queue_empty := fun _ => false,
    ktime_get_ns := fun _ => 0,
    mutex_trylock := fun _ => true }

/-- A sample hardware for the completion path: it hands back, in this order, the filler buffer
0 of the viewfinder queue and the first caller buffer of the output node, marked DONE, and then
reports that nothing is pending; a buffer counts as handed back once it is no longer QUEUED. -/
def sample_env_done : css_env :=
  { ipu3_css_buf_queue := fun imgu buf => (0, set_buf_state imgu IPU3_CSS_BUFFER_QUEUED buf),
    ipu3_css_buf_dequeue := fun imgu =>
      if (css_buf_at imgu (.dummy IPU3_CSS_QUEUE_VF 0)).state = IPU3_CSS_BUFFER_QUEUED then
        (.buf (.dummy IPU3_CSS_QUEUE_VF 0),
          set_buf_state imgu IPU3_CSS_BUFFER_DONE (.dummy IPU3_CSS_QUEUE_VF 0))
      else if (css_buf_at imgu (.user IMGU_NODE_OUT 0)).state = IPU3_CSS_BUFFER_QUEUED then
        (.buf (.user IMGU_NODE_OUT 0),
          set_buf_state imgu IPU3_CSS_BUFFER_DONE (.user IMGU_NODE_OUT 0))
      else (.null, imgu),
    ipu3_css_queue_empty := fun _ => false,
    ktime_get_ns := fun _ => 0,
    mutex_trylock := fun _ => false }

/-- A caller buffer of the given queue in the given state. -/
def sample_buffer (queue index : Nat) (st : ipu3_css_buffer_state) : imgu_buffer :=
  { css_buf := { state := st, queue := queue, daddr := 4096 * (index + 1) },
    index := index, meta_capture := false, payload := 0, timestamp := 0, sequence := 0 }

/-- A sample device in video mode: streaming, the caller has enabled the input, output and
viewfinder nodes; the input node holds the caller buffers `input` and the output node the
caller buffers `output`; every queue but input and parameters has its shared allocation and
four filler buffers, all NEW. -/
def sample_imgu (input output : List imgu_buffer) : imgu_device :=
  { css := { streaming := true, pipe_id := IPU3_CSS_PIPE_ID_VIDEO },
    nodes := fun node =>
      { enabled := decide (node = IMGU_NODE_IN ∨ node = IMGU_NODE_OUT ∨ node = IMGU_NODE_VF),
        output := decide (node < 2),
        buffers := if node = IMGU_NODE_IN then input
                   else if node = IMGU_NODE_OUT then output else [],
        sequence := 0, meta_buffersize := 128, sizeimage := 4096 },
    queue_enabled := fun node => decide (node ≠ IMGU_NODE_PARAMS ∧ node < IMGU_NODE_NUM),
    queues := fun queue =>
      { dmap := if queue < 2 then null_map
                else { size := 4096, vaddr := some (queue * 65536), daddr := queue * 65536 },
        dummybufs := fun _ => ipu3_css_buf_init queue (queue * 65536) } }

/-- The sample device with one NEW input buffer and two output buffers, one NEW and one
already QUEUED. -/
def sample_dev : imgu_device :=
  sample_imgu [sample_buffer IPU3_CSS_QUEUE_IN 0 IPU3_CSS_BUFFER_NEW]
    [sample_buffer IPU3_CSS_QUEUE_OUT 0 IPU3_CSS_BUFFER_NEW,
     sample_buffer IPU3_CSS_QUEUE_OUT 1 IPU3_CSS_BUFFER_QUEUED]

/-! ## Calls on the pool with a record of successful `get`s -/

/-- Run a sequence of calls from a pool paired with the flag "a `get` has succeeded since
`ipu3_css_pool_init`"; `none` when a `put` falls outside the array. -/
def pool_run_flag (N : Nat) :
    List pool_call → ipu3_css_pool × Bool → Option (ipu3_css_pool × Bool)
  | [], st => some st
  | .get f :: cs, st =>
    pool_run_flag N cs
      ((ipu3_css_pool_get N st.1 f).2, st.2 || decide (0 ≤ (ipu3_css_pool_get N st.1 f).1))
  | .put :: cs, st =>
    match ipu3_css_pool_put N st.1 with
    | some p => pool_run_flag N cs (p, st.2)
    | none => none

/-! ## Dummy allocations (`ipu3-css-pool.c`, `ipu3.c`) -/

/-- Modelled from the spec: `ipu3_dmamap_alloc` is declared in `ipu3-dmamap.h` and defined
elsewhere (`allocate(size) -> Region | Fail`). `region` is what the allocator finds: `none` for
a failure (NULL), in which case the map stays as it is, else the two addresses of a region of
the requested length, which the map then describes. -/
def ipu3_dmamap_alloc (region : Option (Nat × Nat)) (map : ipu3_css_map) (len : Nat) :
    Bool × ipu3_css_map :=
  match region with
  | none => (false, map)
  | some (vaddr, daddr) => (true, { size := len, vaddr := some vaddr, daddr := daddr })

/-- `ipu3_css_dma_buffer_resize`; `region` is the outcome of the one allocation it may make. -/
def ipu3_css_dma_buffer_resize (region : Option (Nat × Nat)) (map : ipu3_css_map) (size : Nat) :
    Int × ipu3_css_map :=
  if map.size < size ∧ map.vaddr ≠ none then
    let freed := ipu3_dmamap_free map
    let out := ipu3_dmamap_alloc region freed size
    if ¬ out.1 then (-ENOMEM, out.2) else (0, out.2)
  else (0, map)

/-- The table `css_queue_buf_size_map`. -/
def css_queue_buf_size_map (queue : Nat) : Nat :=
  if queue = IPU3_CSS_QUEUE_IN then 0
  else if queue = IPU3_CSS_QUEUE_PARAMS then 0
  else if queue = IPU3_CSS_QUEUE_OUT then 4160 * 3120 * 12 / 8
  else if queue = IPU3_CSS_QUEUE_VF then 1920 * 1080 * 12 / 8
  else if queue = IPU3_CSS_QUEUE_STAT_3A then 125664
  else if queue = IPU3_CSS_QUEUE_STAT_DVS then 10336
  else 0

/-- Modelled from the spec: the master queue, for which real buffers are always required, is
the input queue (header `ipu3.h` missing). -/
def IMGU_QUEUE_MASTER : Nat := IPU3_CSS_QUEUE_IN

/-- The assignment `imgu->queues[queue].dmap = m`. -/
def set_dmap (imgu : imgu_device) (queue : Nat) (m : ipu3_css_map) : imgu_device :=
  { css := imgu.css, nodes := imgu.nodes, queue_enabled := imgu.queue_enabled,
    queues := Function.update imgu.queues queue
      { dmap := m, dummybufs := (imgu.queues queue).dummybufs } }

/-- The assignment of all of `imgu->queues[queue].dummybufs[]`. -/
def set_dummybufs (imgu : imgu_device) (queue : Nat) (bufs : Nat → ipu3_css_buffer) :
    imgu_device :=
  { css := imgu.css, nodes := imgu.nodes, queue_enabled := imgu.queue_enabled,
    queues := Function.update imgu.queues queue
      { dmap := (imgu.queues queue).dmap, dummybufs := bufs } }

/-- The loop of `imgu_dummybufs_cleanup` over the queues `i, i+1, ...` (`rem` of them). -/
def imgu_dummybufs_cleanup_from : Nat → Nat → imgu_device → imgu_device
  | 0, _, imgu => imgu
  | rem + 1, i, imgu =>
    imgu_dummybufs_cleanup_from rem (i + 1)
      (set_dmap imgu i (ipu3_dmamap_free (imgu.queues i).dmap))

/-- `imgu_dummybufs_cleanup`: free the shared allocation of every queue. -/
def imgu_dummybufs_cleanup (imgu : imgu_device) : imgu_device :=
  imgu_dummybufs_cleanup_from IPU3_CSS_QUEUES 0 imgu

/-- The `pre_allocate` loop of `imgu_dummybufs_init` over the queues `i, i+1, ...` (`rem` of
them); `region i size` is what the allocator finds for queue `i`. -/
def imgu_dummybufs_prealloc_from (region : Nat → Nat → Option (Nat × Nat)) :
    Nat → Nat → imgu_device → Int × imgu_device
  | 0, _, imgu => (0, imgu)
  | rem + 1, i, imgu =>
    let size := css_queue_buf_size_map i
    if i = IMGU_QUEUE_MASTER ∨ size = 0 then imgu_dummybufs_prealloc_from region rem (i + 1) imgu
    else
      let out := ipu3_dmamap_alloc (region i size) (imgu.queues i).dmap size
      if ¬ out.1 then (-ENOMEM, imgu_dummybufs_cleanup (set_dmap imgu i out.2))
      else imgu_dummybufs_prealloc_from region rem (i + 1) (set_dmap imgu i out.2)

/-- The second loop of `imgu_dummybufs_init` (stream start) over the queues `i, i+1, ...`
(`rem` of them). `imgu_map_node` is never negative for the queues below `IPU3_CSS_QUEUES`. -/
def imgu_dummybufs_fill_from (region : Nat → Nat → Option (Nat × Nat)) :
    Nat → Nat → imgu_device → Int × imgu_device
  | 0, _, imgu => (0, imgu)
  | rem + 1, i, imgu =>
    let node := imgu_map_node imgu i
    if ¬ imgu.queue_enabled node.toNat ∨ i = IMGU_QUEUE_MASTER then
      imgu_dummybufs_fill_from region rem (i + 1) imgu
    else if ¬ (imgu.nodes IMGU_NODE_VF).enabled ∧ ¬ (imgu.nodes IMGU_NODE_PV).enabled ∧
        i = IPU3_CSS_QUEUE_VF then
      imgu_dummybufs_fill_from region rem (i + 1) imgu
    else
      let size :=
        if node = (IMGU_NODE_STAT_3A : Int) ∨ node = (IMGU_NODE_STAT_DVS : Int) ∨
            node = (IMGU_NODE_PARAMS : Int) then
          (imgu.nodes node.toNat).meta_buffersize
        else (imgu.nodes node.toNat).sizeimage
      let out := ipu3_css_dma_buffer_resize (region i size) (imgu.queues i).dmap size
      if out.1 ≠ 0 then (-ENOMEM, imgu_dummybufs_cleanup (set_dmap imgu i out.2))
      else
        imgu_dummybufs_fill_from region rem (i + 1)
          (set_dummybufs (set_dmap imgu i out.2) i
            (fun j => if j < IMGU_MAX_QUEUE_DEPTH then ipu3_css_buf_init i out.2.daddr
                      else (imgu.queues i).dummybufs j))

/-- `imgu_dummybufs_init`. -/
def imgu_dummybufs_init (region : Nat → Nat → Option (Nat × Nat)) (imgu : imgu_device)
    (pre_allocate : Bool) : Int × imgu_device :=
  if pre_allocate then imgu_dummybufs_prealloc_from region IPU3_CSS_QUEUES 0 imgu
  else imgu_dummybufs_fill_from region IPU3_CSS_QUEUES 0 imgu

/-! ## Stream start and stop (`imgu_s_stream`) -/

/-- The values of `imgu->css.vf_output_en`. -/
inductive ipu3_node_vf where
  | IPU3_NODE_VF_DISABLED
  | IPU3_NODE_VF_ENABLED
  | IPU3_NODE_PV_ENABLED
deriving DecidableEq, Repr, Inhabited

open ipu3_node_vf

/-- The calls `imgu_s_stream` makes, in order, with their results. `css_fmt_set` records which
queues were given a format and the value of `vf_output_en`; `queue_buffers` records the
events of the initial dispatcher run. -/
inductive stream_event where
  | css_fmt_set (fmts : List Bool) (vf_output_en : ipu3_node_vf) (r : Int)
  | pm_runtime_get_sync (r : Int)
  | pm_runtime_put
  | css_set_powerup (r : Int)
  | mmu_resume
  | mmu_suspend
  | css_set_powerdown
  | css_start_streaming (r : Int)
  | css_stop_streaming
  | synchronize_irq
  | dummybufs_init (r : Int)
  | dummybufs_cleanup
  | queue_buffers (r : Int) (trace : List imgu_event)
deriving DecidableEq, Repr, Inhabited

/-- The functions `imgu_s_stream` calls that are defined outside `ipu3.c`, next to those of
`css_env`; the CSS functions may depend on and change the whole device state. -/
structure stream_env where
  css : css_env
  ipu3_css_fmt_set : imgu_device → List Bool → ipu3_node_vf → Int × imgu_device
  pm_runtime_get_sync : imgu_device → Int
  ipu3_css_set_powerup : imgu_device → Int
  ipu3_css_start_streaming : imgu_device → Int × imgu_device
  ipu3_css_stop_streaming : imgu_device → imgu_device
  dmamap_region : Nat → Nat → Option (Nat × Nat)

/-- The outcome of `imgu_s_stream`: the return value, the device, the calls made, and whether
the dispatcher run ended within the given number of loop iterations. -/
structure stream_result where
  r : Int
  imgu : imgu_device
  trace : List stream_event
  finished : Bool

/-- `imgu_powerup`: the return value and the calls made. -/
def imgu_powerup (env : stream_env) (imgu : imgu_device) : Int × List stream_event :=
  let r := env.ipu3_css_set_powerup imgu
  if r ≠ 0 then (r, [.css_set_powerup r])
  else (0, [.css_set_powerup r, .mmu_resume])

/-- `imgu_powerdown`: the calls made. -/
def imgu_powerdown : List stream_event := [.mmu_suspend, .css_set_powerdown]

/-- The array `imgu->queue_enabled[]` as `imgu_s_stream` sets it up at stream start. -/
def stream_queue_enabled (imgu : imgu_device) : Nat → Bool :=
  Function.update (Function.update (Function.update (Function.update (Function.update
    (Function.update
      (fun i => if i < IMGU_NODE_NUM then (imgu.nodes i).enabled else imgu.queue_enabled i)
      IMGU_NODE_OUT true) IMGU_NODE_VF true) IMGU_NODE_PV true) IMGU_NODE_STAT_3A true)
    IMGU_NODE_STAT_DVS true) IPU3_CSS_QUEUE_PARAMS false

/-- The array `fmts[]` of `imgu_s_stream`: whether queue `i` is given a format. -/
def stream_fmts (imgu : imgu_device) : List Bool :=
  (List.range IPU3_CSS_QUEUES).map fun i =>
    let node := imgu_map_node imgu i
    if node < 0 ∨ node = (IMGU_NODE_STAT_3A : Int) ∨ node = (IMGU_NODE_STAT_DVS : Int) ∨
        node = (IMGU_NODE_PARAMS : Int) then false
    else imgu.queue_enabled node.toNat

/-- The value `imgu_s_stream` gives `imgu->css.vf_output_en`. -/
def stream_vf_output_en (imgu : imgu_device) : ipu3_node_vf :=
  if (imgu.nodes IMGU_NODE_VF).enabled then IPU3_NODE_VF_ENABLED
  else if (imgu.nodes IMGU_NODE_PV).enabled then IPU3_NODE_PV_ENABLED
  else IPU3_NODE_VF_DISABLED

/-- The device with `queue_enabled[]` replaced. -/
def set_queue_enabled (imgu : imgu_device) (en : Nat → Bool) : imgu_device :=
  { css := imgu.css, nodes := imgu.nodes, queue_enabled := en, queues := imgu.queues }

/-- `imgu_s_stream`; `fuel` bounds the iterations of the dispatcher loop. -/
def imgu_s_stream (env : stream_env) (fuel : Nat) (imgu : imgu_device) (enable : Int) :
    stream_result :=
  if enable = 0 then
    { r := 0, imgu := env.ipu3_css_stop_streaming imgu,
      trace := [.css_stop_streaming, .synchronize_irq] ++ imgu_powerdown ++ [.pm_runtime_put],
      finished := true }
  else
    let imgu1 := set_queue_enabled imgu (stream_queue_enabled imgu)
    let fmts := stream_fmts imgu1
    let vf := stream_vf_output_en imgu1
    let f := env.ipu3_css_fmt_set imgu1 fmts vf
    let t1 : List stream_event := [.css_fmt_set fmts vf f.1]
    if f.1 ≠ 0 then { r := f.1, imgu := f.2, trace := t1, finished := true }
    else
      let g := env.pm_runtime_get_sync f.2
      let t2 := t1 ++ [.pm_runtime_get_sync g]
      if g < 0 then { r := g, imgu := f.2, trace := t2 ++ [.pm_runtime_put], finished := true }
      else
        let p := imgu_powerup env f.2
        let t3 := t2 ++ p.2
        if p.1 ≠ 0 then
          { r := p.1, imgu := f.2, trace := t3 ++ [.pm_runtime_put], finished := true }
        else
          let s := env.ipu3_css_start_streaming f.2
          let t4 := t3 ++ [.css_start_streaming s.1]
          if s.1 ≠ 0 then
            { r := s.1, imgu := s.2, trace := t4 ++ [.pm_runtime_put], finished := true }
          else
            let d := imgu_dummybufs_init env.dmamap_region s.2 false
            let t5 := t4 ++ [.dummybufs_init d.1]
            if d.1 ≠ 0 then
              { r := d.1, imgu := env.ipu3_css_stop_streaming d.2,
                trace := t5 ++ [.css_stop_streaming, .pm_runtime_put], finished := true }
            else
              let q := imgu_queue_buffers env.css fuel d.2 true
              let t6 := t5 ++ [.queue_buffers q.r q.trace]
              if ¬ q.finished then { r := q.r, imgu := q.imgu, trace := t6, finished := false }
              else if q.r ≠ 0 then
                { r := q.r,
                  imgu := env.ipu3_css_stop_streaming (imgu_dummybufs_cleanup q.imgu),
                  trace := t6 ++ [.dummybufs_cleanup, .css_stop_streaming, .pm_runtime_put],
                  finished := true }
              else { r := 0, imgu := q.imgu, trace := t6, finished := true }

/-- The device with `imgu->css.streaming` replaced. -/
def set_streaming (imgu : imgu_device) (active : Bool) : imgu_device :=
  { css := { streaming := active, pipe_id := imgu.css.pipe_id }, nodes := imgu.nodes,
    queue_enabled := imgu.queue_enabled, queues := imgu.queues }

/-- A sample platform for stream start: the format push, the runtime power request, the
hardware power-up and the pipeline start return the given codes (a successful pipeline start
turns streaming on), allocations succeed exactly when `memory` holds, and the hardware queues
behave as `css`. -/
def sample_stream_env (css : css_env) (fmt pm powerup start : Int) (memory : Bool) :
    stream_env :=
  { css := css,
    ipu3_css_fmt_set := fun imgu _ _ => (fmt, imgu),
    pm_runtime_get_sync := fun _ => pm,
    ipu3_css_set_powerup := fun _ => powerup,
    ipu3_css_start_streaming := fun imgu =>
      if start = 0 then (0, set_streaming imgu true) else (start, imgu),
    ipu3_css_stop_streaming := fun imgu => set_streaming imgu false,
    dmamap_region := fun i _ => if memory then some (65536 * (i + 1), 65536 * (i + 1)) else none }

/-- A device before any allocation: not streaming, the caller has enabled the nodes in
`enabled`, the input node holds the caller buffers `input` and the output node the caller
buffers `output`; the format of every node asks for buffers of `size` bytes. -/
def sample_idle_dev (enabled : List Nat) (input output : List imgu_buffer) (size : Nat) :
    imgu_device :=
  { css := { streaming := false, pipe_id := IPU3_CSS_PIPE_ID_VIDEO },
    nodes := fun node =>
      { enabled := decide (node ∈ enabled), output := decide (node < 2),
        buffers := if node = IMGU_NODE_IN then input
                   else if node = IMGU_NODE_OUT then output else [],
        sequence := 0, meta_buffersize := size, sizeimage := size },
    queue_enabled := fun _ => false,
    queues := fun _ => { dmap := null_map, dummybufs := fun _ => default } }

/-- The sample device ready for a stream start: dummy allocations made by
`imgu_dummybufs_init` with `pre_allocate` set, only the input and output nodes enabled, each
holding one NEW caller buffer. -/
def sample_start_dev : imgu_device :=
  (imgu_dummybufs_init (fun i _ => some (65536 * (i + 1), 65536 * (i + 1)))
    (sample_idle_dev [IMGU_NODE_IN, IMGU_NODE_OUT]
      [sample_buffer IPU3_CSS_QUEUE_IN 0 IPU3_CSS_BUFFER_NEW]
      [sample_buffer IPU3_CSS_QUEUE_OUT 0 IPU3_CSS_BUFFER_NEW] 4096) true).2

/-! ## Termination of the dispatcher loop: notions -/

/-- The number of caller buffers in state NEW in a list. -/
def count_new : List imgu_buffer → Nat
  | [] => 0
  | buf :: rest => (if buf.css_buf.state = IPU3_CSS_BUFFER_NEW then 1 else 0) + count_new rest

/-- The number of NEW caller buffers the input node holds. -/
def new_inputs (imgu : imgu_device) : Nat := count_new (imgu.nodes IMGU_NODE_IN).buffers

/-- The assumption on the hardware submission: a successful submission moves the submitted
buffer to state QUEUED (and does nothing else to the device). -/
def submission_queues (env : css_env) : Prop :=
  ∀ (imgu : imgu_device) (buf : buf_ptr), (env.ipu3_css_buf_queue imgu buf).1 = 0 →
    (env.ipu3_css_buf_queue imgu buf).2 = set_buf_state imgu IPU3_CSS_BUFFER_QUEUED buf

/-- The number of submissions on the input node among the events, i.e. the number of cycles
through the nodes that reached their end. -/
def input_submissions : List imgu_event → Nat
  | [] => 0
  | .css_buf_queue node _ _ _ :: rest =>
    (if node = IMGU_NODE_IN then 1 else 0) + input_submissions rest
  | _ :: rest => input_submissions rest

/-! ## Stream start: the assumption that every external step succeeds -/

/-- The assumption "every external step of a stream start succeeds": the format push, the
runtime power request, the hardware power-up and the pipeline start report success and leave
the nodes, the enablement flags and the dummy allocations as they are, a started pipeline is
streaming, every allocation finds memory, and the hardware accepts every submission, moving
the submitted buffer to QUEUED. -/
def stream_steps_succeed (env : stream_env) : Prop :=
  (∀ (imgu : imgu_device) (fmts : List Bool) (vf : ipu3_node_vf),
    (env.ipu3_css_fmt_set imgu fmts vf).1 = 0 ∧
    (env.ipu3_css_fmt_set imgu fmts vf).2.nodes = imgu.nodes ∧
    (env.ipu3_css_fmt_set imgu fmts vf).2.queue_enabled = imgu.queue_enabled ∧
    (env.ipu3_css_fmt_set imgu fmts vf).2.queues = imgu.queues) ∧
  (∀ imgu : imgu_device, 0 ≤ env.pm_runtime_get_sync imgu) ∧
  (∀ imgu : imgu_device, env.ipu3_css_set_powerup imgu = 0) ∧
  (∀ imgu : imgu_device,
    (env.ipu3_css_start_streaming imgu).1 = 0 ∧
    (env.ipu3_css_start_streaming imgu).2.css.streaming = true ∧
    (env.ipu3_css_start_streaming imgu).2.nodes = imgu.nodes ∧
    (env.ipu3_css_start_streaming imgu).2.queue_enabled = imgu.queue_enabled ∧
    (env.ipu3_css_start_streaming imgu).2.queues = imgu.queues) ∧
  (∀ i size : Nat, env.dmamap_region i size ≠ none) ∧
  (∀ (imgu : imgu_device) (buf : buf_ptr),
    env.css.ipu3_css_buf_queue imgu buf = (0, set_buf_state imgu IPU3_CSS_BUFFER_QUEUED buf))

/-! ## Slot pool: auxiliary facts -/

theorem diff_unfold (f g : Int) :
    ipu3_css_pool_diff f g =
      if wrap_long (f - g) < 0 then wrap_long (f - g) + LONG_MAX else wrap_long (f - g) := rfl

theorem diff_of_small (f g : Int) (h0 : 0 ≤ f - g) (h1 : f - g < 2 ^ 63) :
    ipu3_css_pool_diff f g = f - g := by
  simp only [diff_unfold, wrap_long, LONG_MAX]
  split <;> omega

theorem check_of_old (N : Nat) (pool : ipu3_css_pool) (f : Int)
    (h : ipu3_css_pool_diff f (pool.entry ((pool.last + 1) % N)).framenum > (N : Int)) :
    ipu3_css_pool_check N pool f = (((pool.last + 1) % N : Nat) : Int) := by
  simp only [ipu3_css_pool_check]
  rw [if_pos h]

theorem check_of_young (N : Nat) (pool : ipu3_css_pool) (f : Int)
    (h : ¬ ipu3_css_pool_diff f (pool.entry ((pool.last + 1) % N)).framenum > (N : Int)) :
    ipu3_css_pool_check N pool f = -ENOSPC := by
  simp only [ipu3_css_pool_check]
  rw [if_neg h]

theorem get_of_old (N : Nat) (pool : ipu3_css_pool) (f : Int)
    (h : ipu3_css_pool_diff f (pool.entry ((pool.last + 1) % N)).framenum > (N : Int)) :
    ipu3_css_pool_get N pool f =
      ((((pool.last + 1) % N : Nat) : Int),
        { entry := (set_framenum pool ((pool.last + 1) % N) f).entry,
          last := (pool.last + 1) % N }) := by
  have hn : ¬ ((((pool.last + 1) % N : Nat) : Int) < 0) := by omega
  have ht : ((((pool.last + 1) % N : Nat) : Int)).toNat = (pool.last + 1) % N := by omega
  simp only [ipu3_css_pool_get, check_of_old N pool f h]
  rw [if_neg hn, ht]

theorem get_of_young (N : Nat) (pool : ipu3_css_pool) (f : Int)
    (h : ¬ ipu3_css_pool_diff f (pool.entry ((pool.last + 1) % N)).framenum > (N : Int)) :
    ipu3_css_pool_get N pool f = (-ENOSPC, pool) := by
  have hn : (-ENOSPC : Int) < 0 := by decide
  simp only [ipu3_css_pool_get, check_of_young N pool f h]
  rw [if_pos hn]

theorem get_nonneg_iff (N : Nat) (pool : ipu3_css_pool) (f : Int) :
    0 ≤ (ipu3_css_pool_get N pool f).1 ↔
      ipu3_css_pool_diff f (pool.entry ((pool.last + 1) % N)).framenum > (N : Int) := by
  by_cases h : ipu3_css_pool_diff f (pool.entry ((pool.last + 1) % N)).framenum > (N : Int)
  · rw [get_of_old N pool f h]
    simp only [h, iff_true]
    omega
  · rw [get_of_young N pool f h]
    simp only [h, iff_false]
    decide

theorem set_framenum_same (pool : ipu3_css_pool) (i : Nat) (v : Int) :
    ((set_framenum pool i v).entry i).framenum = v := by
  simp [set_framenum]

theorem set_framenum_param (pool : ipu3_css_pool) (i : Nat) (v : Int) :
    ((set_framenum pool i v).entry i).param = (pool.entry i).param := by
  simp [set_framenum]

theorem set_framenum_other (pool : ipu3_css_pool) (i j : Nat) (v : Int) (h : j ≠ i) :
    (set_framenum pool i v).entry j = pool.entry j := by
  simp [set_framenum, Function.update_noteq h]

theorem set_param_framenum (pool : ipu3_css_pool) (i j : Nat) (m : ipu3_css_map) :
    ((set_param pool i m).entry j).framenum = (pool.entry j).framenum := by
  by_cases h : j = i
  · subst h; simp [set_param]
  · simp [set_param, Function.update_noteq h]

theorem init_from_framenum (alloc : Nat → Int → Option ipu3_css_map) (size : Int) :
    ∀ (rem i : Nat) (pool p : ipu3_css_pool),
      ipu3_css_pool_init_from alloc size rem i pool = .ok p →
      (∀ j, i ≤ j → j < i + rem → (p.entry j).framenum = INT_MIN) ∧
      (∀ j, j < i → (p.entry j).framenum = (pool.entry j).framenum) := by
  intro rem
  induction rem with
  | zero =>
    intro i pool p h
    simp only [ipu3_css_pool_init_from, Except.ok.injEq] at h
    subst h
    exact ⟨fun j h1 h2 => by omega, fun j _ => rfl⟩
  | succ rem ih =>
    intro i pool p h
    have key : ∀ (m : ipu3_css_map),
        ipu3_css_pool_init_from alloc size rem (i + 1)
          (set_param (set_framenum pool i INT_MIN) i m) = .ok p →
        (∀ j, i ≤ j → j < i + (rem + 1) → (p.entry j).framenum = INT_MIN) ∧
        (∀ j, j < i → (p.entry j).framenum = (pool.entry j).framenum) := by
      intro m hm
      obtain ⟨h1, h2⟩ := ih (i + 1) _ p hm
      constructor
      · intro j hj1 hj2
        by_cases hji : j = i
        · subst hji
          rw [h2 j (by omega), set_param_framenum, set_framenum_same]
        · exact h1 j (by omega) (by omega)
      · intro j hj
        rw [h2 j (by omega), set_param_framenum, set_framenum_other _ _ _ _ (by omega)]
    simp only [ipu3_css_pool_init_from] at h
    by_cases hs : size = 0
    · rw [if_pos hs] at h
      exact key _ h
    · rw [if_neg hs] at h
      cases ha : alloc i size with
      | none => rw [ha] at h; cases h
      | some m => rw [ha] at h; exact key m h

theorem init_ok (N : Nat) (alloc : Nat → Int → Option ipu3_css_map) (pool : ipu3_css_pool)
    (size : Int) (h : (ipu3_css_pool_init N alloc pool size).1 = 0) :
    (∀ i, i < N → (((ipu3_css_pool_init N alloc pool size).2).entry i).framenum = INT_MIN) ∧
    ((ipu3_css_pool_init N alloc pool size).2).last = N := by
  unfold ipu3_css_pool_init at h ⊢
  cases hr : ipu3_css_pool_init_from alloc size N 0 pool with
  | error p =>
    rw [hr] at h
    simp [ENOMEM] at h
  | ok p =>
    obtain ⟨h1, _⟩ := init_from_framenum alloc size N 0 pool p hr
    exact ⟨fun i hi => h1 i (Nat.zero_le _) (by omega), rfl⟩

theorem fresh_pool4_reachable : pool_reachable 4 fresh_pool4 :=
  ⟨fun _ _ => none, blank_pool, 0, [], by decide, by decide, rfl⟩

theorem negative_pool4_reachable : pool_reachable 4 negative_pool4 :=
  ⟨fun _ _ => none, blank_pool, 0, [.get (-1)], by decide, by decide, rfl⟩

theorem aged_pool4_reachable : pool_reachable 4 aged_pool4 :=
  ⟨fun _ _ => none, blank_pool, 0, [.get 10, .get 11, .get 12, .get 13],
    by decide, by decide, rfl⟩

/-! ## Slot pool: claims -/

/-- C1 (as amended). In every pool state, hence in every state reachable from a successful
`ipu3_css_pool_init`, whenever `ipu3_css_pool_get` for a frame number `f` returns a slot index
`n`, the age that `ipu3_css_pool_check` computes for the generation `g` that slot `n` held before
the call (`f - g` in `long` arithmetic, plus `LONG_MAX` when negative) exceeds the capacity; and
whenever the frame number has not fallen below the generation (`g ≤ f`), the plain difference
`f - g` exceeds the capacity. -/
theorem pool_get_aging (N : Nat) (pool : ipu3_css_pool) (f : Int) (hN : 0 < N)
    (hget : 0 ≤ (ipu3_css_pool_get N pool f).1) :
    (ipu3_css_pool_get N pool f).1.toNat < N ∧
    ipu3_css_pool_diff f (pool.entry (ipu3_css_pool_get N pool f).1.toNat).framenum > (N : Int) ∧
    ((pool.entry (ipu3_css_pool_get N pool f).1.toNat).framenum ≤ f →
      f - (pool.entry (ipu3_css_pool_get N pool f).1.toNat).framenum > (N : Int)) := by
  have hold := (get_nonneg_iff N pool f).1 hget
  have hlt : (pool.last + 1) % N < N := Nat.mod_lt _ hN
  have ht : ((((pool.last + 1) % N : Nat) : Int)).toNat = (pool.last + 1) % N := by omega
  rw [get_of_old N pool f hold]
  simp only [ht]
  refine ⟨hlt, hold, ?_⟩
  intro hle
  have hd := hold
  simp only [diff_unfold, wrap_long, LONG_MAX] at hd
  split at hd <;> omega

/-- C1, witness: the first `get` on a fresh pool of capacity 4, for frame 100. -/
theorem pool_get_aging_witness :
    0 ≤ (ipu3_css_pool_get 4 fresh_pool4 100).1 ∧
    ((ipu3_css_pool_get 4 fresh_pool4 100).1.toNat < 4 ∧
     ipu3_css_pool_diff 100
        (fresh_pool4.entry (ipu3_css_pool_get 4 fresh_pool4 100).1.toNat).framenum > ((4 : Nat) : Int) ∧
     ((fresh_pool4.entry (ipu3_css_pool_get 4 fresh_pool4 100).1.toNat).framenum ≤ 100 →
        100 - (fresh_pool4.entry (ipu3_css_pool_get 4 fresh_pool4 100).1.toNat).framenum
          > ((4 : Nat) : Int))) :=
  ⟨by decide, pool_get_aging 4 fresh_pool4 100 (by decide) (by decide)⟩

/-- C1, counterexample to the claim as stated: after `get` for the frames 10, 11, 12, 13 on a
fresh pool of capacity 4 (a reachable state), `get` for frame 9 returns slot 1, whose generation
is 10, although `9 - 10` is not greater than the capacity. -/
theorem pool_get_aging_counterexample :
    pool_reachable 4 aged_pool4 ∧ is_long 9 ∧
    (ipu3_css_pool_get 4 aged_pool4 9).1 = 1 ∧ (aged_pool4.entry 1).framenum = 10 ∧
    ¬ ((9 : Int) - (aged_pool4.entry 1).framenum > 4) :=
  ⟨aged_pool4_reachable, by decide, by decide, by decide, by decide⟩

/-- C2. Reference definition of `get`: with `n = (last + 1) mod capacity` and `diff` the `long`
difference `f - entry[n].framenum`, replaced by `diff + LONG_MAX` when negative: if
`diff > capacity`, `ipu3_css_pool_get` returns `n`, sets `entry[n].framenum` to `f` and `last`
to `n` and changes nothing else; otherwise it returns `-ENOSPC` and leaves the pool unchanged.
It holds for every pool, in particular for every pool with `last ≤ capacity`. -/
theorem pool_get_reference (N : Nat) (pool : ipu3_css_pool) (f : Int) :
    ((if wrap_long (f - (pool.entry ((pool.last + 1) % N)).framenum) < 0
        then wrap_long (f - (pool.entry ((pool.last + 1) % N)).framenum) + LONG_MAX
        else wrap_long (f - (pool.entry ((pool.last + 1) % N)).framenum)) > (N : Int) ∧
      (ipu3_css_pool_get N pool f).1 = (((pool.last + 1) % N : Nat) : Int) ∧
      (((ipu3_css_pool_get N pool f).2).entry ((pool.last + 1) % N)).framenum = f ∧
      (((ipu3_css_pool_get N pool f).2).entry ((pool.last + 1) % N)).param =
        (pool.entry ((pool.last + 1) % N)).param ∧
      ((ipu3_css_pool_get N pool f).2).last = (pool.last + 1) % N ∧
      (∀ i, i ≠ (pool.last + 1) % N →
        ((ipu3_css_pool_get N pool f).2).entry i = pool.entry i)) ∨
    (¬ (if wrap_long (f - (pool.entry ((pool.last + 1) % N)).framenum) < 0
        then wrap_long (f - (pool.entry ((pool.last + 1) % N)).framenum) + LONG_MAX
        else wrap_long (f - (pool.entry ((pool.last + 1) % N)).framenum)) > (N : Int) ∧
      (ipu3_css_pool_get N pool f).1 = -ENOSPC ∧
      (ipu3_css_pool_get N pool f).2 = pool) := by
  rw [← diff_unfold]
  by_cases h : ipu3_css_pool_diff f (pool.entry ((pool.last + 1) % N)).framenum > (N : Int)
  · left
    rw [get_of_old N pool f h]
    exact ⟨h, rfl, set_framenum_same _ _ _, set_framenum_param _ _ _, rfl,
      fun i hi => set_framenum_other _ _ _ _ hi⟩
  · right
    rw [get_of_young N pool f h]
    exact ⟨h, rfl, rfl⟩

theorem fresh_diff (N : Nat) (f : Int) (h1 : INT_MIN + (N : Int) < f)
    (h2 : f < 2 ^ 63 - 2 ^ 31) : ipu3_css_pool_diff f INT_MIN > (N : Int) := by
  simp only [INT_MIN] at h1
  rw [diff_of_small f INT_MIN (by simp only [INT_MIN]; omega) (by simp only [INT_MIN]; omega)]
  simp only [INT_MIN]
  omega

theorem get_step (N : Nat) (pool : ipu3_css_pool) (f : Int) (n : Nat)
    (hn : (pool.last + 1) % N = n)
    (h : ipu3_css_pool_diff f (pool.entry n).framenum > (N : Int)) :
    ∃ p : ipu3_css_pool, ipu3_css_pool_get N pool f = ((n : Int), p) ∧ p.last = n ∧
      (p.entry n).framenum = f ∧ (p.entry n).param = (pool.entry n).param ∧
      ∀ i, i ≠ n → p.entry i = pool.entry i := by
  subst hn
  exact ⟨_, get_of_old N pool f h, rfl, set_framenum_same _ _ _, set_framenum_param _ _ _,
    fun i hi => set_framenum_other _ _ _ _ hi⟩

theorem get_busy_at (N : Nat) (pool : ipu3_css_pool) (f : Int) (n : Nat)
    (hn : (pool.last + 1) % N = n)
    (h : ¬ ipu3_css_pool_diff f (pool.entry n).framenum > (N : Int)) :
    ipu3_css_pool_get N pool f = (-ENOSPC, pool) := by
  subst hn
  exact get_of_young N pool f h

theorem put_step (N : Nat) (pool : ipu3_css_pool) (h : pool.last < N) :
    ∃ p : ipu3_css_pool, ipu3_css_pool_put N pool = some p ∧
      p.last = (pool.last + N - 1) % N ∧ (p.entry pool.last).framenum = INT_MIN ∧
      (p.entry pool.last).param = (pool.entry pool.last).param ∧
      ∀ i, i ≠ pool.last → p.entry i = pool.entry i := by
  refine ⟨⟨(set_framenum pool pool.last INT_MIN).entry, (pool.last + N - 1) % N⟩,
    by rw [ipu3_css_pool_put, if_pos h], rfl, set_framenum_same _ _ _,
    set_framenum_param _ _ _, fun i hi => set_framenum_other _ _ _ _ hi⟩

/-- C3 (as amended). On a freshly initialised pool of capacity 4 and for every start frame `s`
above the sentinel window (`INT_MIN + 4 < s`) whose six frame numbers stay below
`LONG_MAX - INT_MAX` (`s + 5 < 2^63 - 2^31`, so that no age computation overflows): `get` for
`s, s+1, s+2, s+3` succeeds with the pairwise distinct slots 1, 2, 3, 0; `get` for `s+4` with no
intervening `put` returns `-ENOSPC` and leaves the pool unchanged; `put` is then defined, and
`get` for `s+5` succeeds with the slot at `(cursor + 1) mod capacity`, which is slot 0 and holds
the least generation of all slots. -/
theorem pool_scenario (alloc : Nat → Int → Option ipu3_css_map) (pool0 : ipu3_css_pool)
    (size : Int) (s : Int) (hinit : (ipu3_css_pool_init 4 alloc pool0 size).1 = 0)
    (hs0 : INT_MIN + 4 < s) (hs1 : s + 5 < 2 ^ 63 - 2 ^ 31) :
    ∃ p1 p2 p3 p4 p6 : ipu3_css_pool,
      ipu3_css_pool_get 4 (ipu3_css_pool_init 4 alloc pool0 size).2 s = (1, p1) ∧
      ipu3_css_pool_get 4 p1 (s + 1) = (2, p2) ∧
      ipu3_css_pool_get 4 p2 (s + 2) = (3, p3) ∧
      ipu3_css_pool_get 4 p3 (s + 3) = (0, p4) ∧
      ([1, 2, 3, 0] : List Int).Nodup ∧
      ipu3_css_pool_get 4 p4 (s + 4) = (-ENOSPC, p4) ∧
      ipu3_css_pool_put 4 p4 = some p6 ∧
      (ipu3_css_pool_get 4 p6 (s + 5)).1 = (((p6.last + 1) % 4 : Nat) : Int) ∧
      (ipu3_css_pool_get 4 p6 (s + 5)).1 = 0 ∧
      (∀ i, i < 4 → (p6.entry 0).framenum ≤ (p6.entry i).framenum) := by
  obtain ⟨hent, hlast⟩ := init_ok 4 alloc pool0 size hinit
  generalize (ipu3_css_pool_init 4 alloc pool0 size).2 = p0 at hent hlast
  have e0 := hent 0 (by decide)
  have e1 := hent 1 (by decide)
  have e2 := hent 2 (by decide)
  have e3 := hent 3 (by decide)
  simp only [INT_MIN] at hs0
  have hfresh : ∀ f : Int, s ≤ f → f ≤ s + 5 →
      ipu3_css_pool_diff f INT_MIN > ((4 : Nat) : Int) :=
    fun f h1 h2 => fresh_diff 4 f (by simp only [INT_MIN]; omega) (by omega)
  obtain ⟨p1, hg1, hl1, hf1, -, ho1⟩ := get_step 4 p0 s 1 (by rw [hlast])
    (by rw [e1]; exact hfresh s (by omega) (by omega))
  obtain ⟨p2, hg2, hl2, hf2, -, ho2⟩ := get_step 4 p1 (s + 1) 2 (by rw [hl1])
    (by rw [ho1 2 (by decide), e2]; exact hfresh _ (by omega) (by omega))
  obtain ⟨p3, hg3, hl3, hf3, -, ho3⟩ := get_step 4 p2 (s + 2) 3 (by rw [hl2])
    (by rw [ho2 3 (by decide), ho1 3 (by decide), e3]; exact hfresh _ (by omega) (by omega))
  obtain ⟨p4, hg4, hl4, hf4, -, ho4⟩ := get_step 4 p3 (s + 3) 0 (by rw [hl3])
    (by rw [ho3 0 (by decide), ho2 0 (by decide), ho1 0 (by decide), e0]
        exact hfresh _ (by omega) (by omega))
  have hbusy : ipu3_css_pool_get 4 p4 (s + 4) = (-ENOSPC, p4) := by
    refine get_busy_at 4 p4 (s + 4) 1 (by rw [hl4]) ?_
    rw [ho4 1 (by decide), ho3 1 (by decide), ho2 1 (by decide), hf1,
      diff_of_small _ _ (by omega) (by omega)]
    omega
  obtain ⟨p6, hput, hl6, hf6, -, ho6⟩ := put_step 4 p4 (by rw [hl4]; decide)
  rw [hl4] at hl6 hf6 ho6
  obtain ⟨p7, hg7, -, -, -, -⟩ := get_step 4 p6 (s + 5) 0 (by rw [hl6])
    (by rw [hf6]; exact hfresh _ (by omega) (by omega))
  refine ⟨p1, p2, p3, p4, p6, by simpa using hg1, by simpa using hg2, by simpa using hg3,
    by simpa using hg4, by decide, hbusy, hput, ?_, ?_, ?_⟩
  · rw [hg7, hl6]
  · rw [hg7]; rfl
  · intro i hi
    rw [hf6]
    have h1 : (p6.entry 1).framenum = s := by
      rw [ho6 1 (by decide), ho4 1 (by decide), ho3 1 (by decide), ho2 1 (by decide), hf1]
    have h2 : (p6.entry 2).framenum = s + 1 := by
      rw [ho6 2 (by decide), ho4 2 (by decide), ho3 2 (by decide), hf2]
    have h3 : (p6.entry 3).framenum = s + 2 := by
      rw [ho6 3 (by decide), ho4 3 (by decide), hf3]
    interval_cases i
    · rw [hf6]
    · rw [h1]; simp only [INT_MIN]; omega
    · rw [h2]; simp only [INT_MIN]; omega
    · rw [h3]; simp only [INT_MIN]; omega

/-- C3, witness: the scenario for the start frame 1 (frames 1, 2, 3, 4, then 5 and 6). -/
theorem pool_scenario_witness :
    (ipu3_css_pool_init 4 (fun _ _ => none) blank_pool 0).1 = 0 ∧
    INT_MIN + 4 < 1 ∧ (1 : Int) + 5 < 2 ^ 63 - 2 ^ 31 ∧
    ∃ p1 p2 p3 p4 p6 : ipu3_css_pool,
      ipu3_css_pool_get 4 (ipu3_css_pool_init 4 (fun _ _ => none) blank_pool 0).2 1 = (1, p1) ∧
      ipu3_css_pool_get 4 p1 (1 + 1) = (2, p2) ∧
      ipu3_css_pool_get 4 p2 (1 + 2) = (3, p3) ∧
      ipu3_css_pool_get 4 p3 (1 + 3) = (0, p4) ∧
      ([1, 2, 3, 0] : List Int).Nodup ∧
      ipu3_css_pool_get 4 p4 (1 + 4) = (-ENOSPC, p4) ∧
      ipu3_css_pool_put 4 p4 = some p6 ∧
      (ipu3_css_pool_get 4 p6 (1 + 5)).1 = (((p6.last + 1) % 4 : Nat) : Int) ∧
      (ipu3_css_pool_get 4 p6 (1 + 5)).1 = 0 ∧
      (∀ i, i < 4 → (p6.entry 0).framenum ≤ (p6.entry i).framenum) :=
  ⟨by decide, by decide, by decide,
    pool_scenario (fun _ _ => none) blank_pool 0 1 (by decide) (by decide) (by decide)⟩

/-- C3, counterexample to the claim as stated for every start frame: for the non-negative
`long` start frame `2^63 - 2^31` the very first `get` on the fresh pool of capacity 4 returns
`-ENOSPC`, because the age `f - INT_MIN` does not fit in a `long`; and so it does, with no
overflow involved, for the start frame `INT_MIN`, whose age against the sentinel is 0. -/
theorem pool_scenario_counterexample :
    (ipu3_css_pool_init 4 (fun _ _ => none) blank_pool 0).1 = 0 ∧
    is_long (2 ^ 63 - 2 ^ 31) ∧ (0 : Int) ≤ 2 ^ 63 - 2 ^ 31 ∧
    (ipu3_css_pool_get 4 (ipu3_css_pool_init 4 (fun _ _ => none) blank_pool 0).2
      (2 ^ 63 - 2 ^ 31)).1 = -ENOSPC ∧
    is_long INT_MIN ∧
    (ipu3_css_pool_get 4 (ipu3_css_pool_init 4 (fun _ _ => none) blank_pool 0).2
      INT_MIN).1 = -ENOSPC :=
  ⟨by decide, by decide, by decide, by decide, by decide, by decide⟩

theorem cursor_back (N last : Nat) (hN : 0 < N) :
    ((last + 1) % N + N - 1) % N = last % N := by
  have hm := Nat.mod_lt last hN
  rw [← Nat.mod_add_mod last N 1]
  by_cases h : last % N + 1 < N
  · rw [Nat.mod_eq_of_lt h]
    have e : last % N + 1 + N - 1 = last % N + N := by omega
    rw [e, Nat.add_mod_right, Nat.mod_mod]
  · have e : last % N + 1 = N := by omega
    rw [e, Nat.mod_self]
    have e2 : 0 + N - 1 = last % N := by omega
    rw [e2, Nat.mod_mod]

/-- C4. `put` undoes the most recent `get`: for every pool with cursor `last ≤ capacity` and
every frame number `f` for which `ipu3_css_pool_get` succeeds with slot `n`, the following
`ipu3_css_pool_put` is defined, resets the generation of slot `n` to `INT_MIN`, moves the cursor
back by one modulo the capacity, which is the cursor before the `get` modulo the capacity, and
leaves every slot other than `n` (and the region of slot `n`) as before the `get`. -/
theorem pool_put_undoes_get (N : Nat) (pool : ipu3_css_pool) (f : Int) (hN : 0 < N)
    (_hlast : pool.last ≤ N) (hget : 0 ≤ (ipu3_css_pool_get N pool f).1) :
    ∃ p : ipu3_css_pool,
      ipu3_css_pool_put N (ipu3_css_pool_get N pool f).2 = some p ∧
      (ipu3_css_pool_get N pool f).1.toNat < N ∧
      (p.entry (ipu3_css_pool_get N pool f).1.toNat).framenum = INT_MIN ∧
      (p.entry (ipu3_css_pool_get N pool f).1.toNat).param =
        (pool.entry (ipu3_css_pool_get N pool f).1.toNat).param ∧
      p.last = ((ipu3_css_pool_get N pool f).1.toNat + N - 1) % N ∧
      p.last = pool.last % N ∧
      ∀ i, i ≠ (ipu3_css_pool_get N pool f).1.toNat → p.entry i = pool.entry i := by
  have hold := (get_nonneg_iff N pool f).1 hget
  have hlt : (pool.last + 1) % N < N := Nat.mod_lt _ hN
  obtain ⟨p1, hg, hl1, hf1, hp1, ho1⟩ := get_step N pool f _ rfl hold
  have ht : ((((pool.last + 1) % N : Nat) : Int)).toNat = (pool.last + 1) % N := by omega
  rw [hg]
  simp only [ht]
  obtain ⟨p, hput, hl, hf, hp, ho⟩ := put_step N p1 (by rw [hl1]; exact hlt)
  rw [hl1] at hl hf hp ho
  refine ⟨p, hput, hlt, hf, by rw [hp, hp1], hl, by rw [hl, cursor_back N pool.last hN], ?_⟩
  intro i hi
  rw [ho i hi, ho1 i hi]

/-- C4, witness: `get` for frame 7 on the fresh pool of capacity 4, then `put`. -/
theorem pool_put_undoes_get_witness :
    fresh_pool4.last ≤ 4 ∧ 0 ≤ (ipu3_css_pool_get 4 fresh_pool4 7).1 ∧
    ∃ p : ipu3_css_pool,
      ipu3_css_pool_put 4 (ipu3_css_pool_get 4 fresh_pool4 7).2 = some p ∧
      (ipu3_css_pool_get 4 fresh_pool4 7).1.toNat < 4 ∧
      (p.entry (ipu3_css_pool_get 4 fresh_pool4 7).1.toNat).framenum = INT_MIN ∧
      (p.entry (ipu3_css_pool_get 4 fresh_pool4 7).1.toNat).param =
        (fresh_pool4.entry (ipu3_css_pool_get 4 fresh_pool4 7).1.toNat).param ∧
      p.last = ((ipu3_css_pool_get 4 fresh_pool4 7).1.toNat + 4 - 1) % 4 ∧
      p.last = fresh_pool4.last % 4 ∧
      ∀ i, i ≠ (ipu3_css_pool_get 4 fresh_pool4 7).1.toNat → p.entry i = fresh_pool4.entry i :=
  ⟨by decide, by decide,
    pool_put_undoes_get 4 fresh_pool4 7 (by decide) (by decide) (by decide)⟩

/-- C5 (as amended). After `ipu3_css_pool_init` succeeds, every slot generation is `INT_MIN`
and the cursor equals the capacity, so that the next `get` probes slot `(capacity + 1) mod
capacity`: for every frame number `0 ≤ f < 2^63 - 2^31` the first `ipu3_css_pool_get` on the
fresh pool succeeds and returns that slot index, which is 1 for every capacity of at least 2. -/
theorem pool_init_first_get (N : Nat) (alloc : Nat → Int → Option ipu3_css_map)
    (pool0 : ipu3_css_pool) (size : Int) (f : Int) (hN : 0 < N) (hNint : (N : Int) < 2 ^ 31)
    (hinit : (ipu3_css_pool_init N alloc pool0 size).1 = 0)
    (hf0 : 0 ≤ f) (hf1 : f < 2 ^ 63 - 2 ^ 31) :
    (∀ i, i < N → (((ipu3_css_pool_init N alloc pool0 size).2).entry i).framenum = INT_MIN) ∧
    ((ipu3_css_pool_init N alloc pool0 size).2).last = N ∧
    (ipu3_css_pool_get N (ipu3_css_pool_init N alloc pool0 size).2 f).1
      = (((N + 1) % N : Nat) : Int) ∧
    (2 ≤ N → (ipu3_css_pool_get N (ipu3_css_pool_init N alloc pool0 size).2 f).1 = 1) := by
  obtain ⟨hent, hlast⟩ := init_ok N alloc pool0 size hinit
  have hlt : (N + 1) % N < N := Nat.mod_lt _ hN
  obtain ⟨p1, hg, -, -, -, -⟩ :=
    get_step N (ipu3_css_pool_init N alloc pool0 size).2 f ((N + 1) % N) (by rw [hlast])
      (by rw [hent _ hlt]; exact fresh_diff N f (by simp only [INT_MIN]; omega) hf1)
  refine ⟨hent, hlast, by rw [hg], ?_⟩
  intro h2
  rw [hg]
  have e : (N + 1) % N = 1 := by
    rw [Nat.add_mod, Nat.mod_self, Nat.zero_add, Nat.mod_mod, Nat.mod_eq_of_lt h2]
  rw [e]
  rfl

/-- C5, witness: capacity 4, `size == 0`, frame number 0. -/
theorem pool_init_first_get_witness :
    ((4 : Nat) : Int) < 2 ^ 31 ∧ (ipu3_css_pool_init 4 (fun _ _ => none) blank_pool 0).1 = 0 ∧
    (0 : Int) ≤ 0 ∧ (0 : Int) < 2 ^ 63 - 2 ^ 31 ∧
    ((∀ i, i < 4 →
        (((ipu3_css_pool_init 4 (fun _ _ => none) blank_pool 0).2).entry i).framenum = INT_MIN) ∧
     ((ipu3_css_pool_init 4 (fun _ _ => none) blank_pool 0).2).last = 4 ∧
     (ipu3_css_pool_get 4 (ipu3_css_pool_init 4 (fun _ _ => none) blank_pool 0).2 0).1
       = (((4 + 1) % 4 : Nat) : Int) ∧
     (2 ≤ 4 → (ipu3_css_pool_get 4 (ipu3_css_pool_init 4 (fun _ _ => none) blank_pool 0).2 0).1
       = 1)) :=
  ⟨by decide, by decide, by decide, by decide,
    pool_init_first_get 4 (fun _ _ => none) blank_pool 0 0 (by decide) (by decide) (by decide)
      (by decide) (by decide)⟩

/-- C5, counterexample to the claim as stated: on the fresh pool of capacity 4 the first `get`,
for frame number 0, succeeds with slot index 1, not 0. -/
theorem pool_init_first_get_counterexample :
    (ipu3_css_pool_init 4 (fun _ _ => none) blank_pool 0).1 = 0 ∧ (0 : Int) ≤ 0 ∧
    (ipu3_css_pool_get 4 (ipu3_css_pool_init 4 (fun _ _ => none) blank_pool 0).2 0).1 = 1 ∧
    (ipu3_css_pool_get 4 (ipu3_css_pool_init 4 (fun _ _ => none) blank_pool 0).2 0).1 ≠ 0 :=
  ⟨by decide, by decide, by decide, by decide⟩

/-- C6 (as amended). For every pool with cursor `last ≤ capacity` and every `n < capacity`,
`ipu3_css_pool_last(pool, n)` inspects slot `i = (last + capacity - n) mod capacity` and returns
the shared `null_map` exactly when the generation of slot `i` is negative, which the `INT_MIN`
sentinel is; for every non-negative generation it returns the region of slot `i`. -/
theorem pool_last_spec (N : Nat) (pool : ipu3_css_pool) (n : Nat) (hN : 0 < N)
    (_hlast : pool.last ≤ N) (_hn : n < N) :
    (pool.last + N - n) % N < N ∧
    (ipu3_css_pool_last N pool n = .null_map ↔
      (pool.entry ((pool.last + N - n) % N)).framenum < 0) ∧
    ((pool.entry ((pool.last + N - n) % N)).framenum = INT_MIN →
      ipu3_css_pool_last N pool n = .null_map) ∧
    (0 ≤ (pool.entry ((pool.last + N - n) % N)).framenum →
      ipu3_css_pool_last N pool n = .entry_param ((pool.last + N - n) % N)) := by
  refine ⟨Nat.mod_lt _ hN, ?_, ?_, ?_⟩
  · by_cases h : (pool.entry ((pool.last + N - n) % N)).framenum < 0
    · simp [ipu3_css_pool_last, h]
    · simp [ipu3_css_pool_last, h]
  · intro h
    have hneg : (pool.entry ((pool.last + N - n) % N)).framenum < 0 := by
      rw [h]; decide
    simp [ipu3_css_pool_last, hneg]
  · intro h
    have hneg : ¬ (pool.entry ((pool.last + N - n) % N)).framenum < 0 := by omega
    simp [ipu3_css_pool_last, hneg]

/-- C6, witness: the fresh pool of capacity 4 and `n = 0`. -/
theorem pool_last_spec_witness :
    fresh_pool4.last ≤ 4 ∧ 0 < 4 ∧
    ((fresh_pool4.last + 4 - 0) % 4 < 4 ∧
     (ipu3_css_pool_last 4 fresh_pool4 0 = .null_map ↔
        (fresh_pool4.entry ((fresh_pool4.last + 4 - 0) % 4)).framenum < 0) ∧
     ((fresh_pool4.entry ((fresh_pool4.last + 4 - 0) % 4)).framenum = INT_MIN →
        ipu3_css_pool_last 4 fresh_pool4 0 = .null_map) ∧
     (0 ≤ (fresh_pool4.entry ((fresh_pool4.last + 4 - 0) % 4)).framenum →
        ipu3_css_pool_last 4 fresh_pool4 0
          = .entry_param ((fresh_pool4.last + 4 - 0) % 4))) :=
  ⟨by decide, by decide, pool_last_spec 4 fresh_pool4 0 (by decide) (by decide) (by decide)⟩

/-- C6, counterexample to the claim as stated: after a first `get` for frame number -1 on the
fresh pool of capacity 4 (a reachable state with cursor 1), `ipu3_css_pool_last(pool, 0)`
inspects slot 1, whose generation -1 is not the `INT_MIN` sentinel, and still returns the shared
`null_map` instead of the region of slot 1. -/
theorem pool_last_spec_counterexample :
    pool_reachable 4 negative_pool4 ∧
    negative_pool4.last ≤ 4 ∧ (0 : Nat) < 4 ∧ (negative_pool4.last + 4 - 0) % 4 = 1 ∧
    (negative_pool4.entry 1).framenum = -1 ∧ (negative_pool4.entry 1).framenum ≠ INT_MIN ∧
    ipu3_css_pool_last 4 negative_pool4 0 = .null_map ∧
    ipu3_css_pool_last 4 negative_pool4 0 ≠ .entry_param 1 :=
  ⟨negative_pool4_reachable, by decide, by decide, by decide, by decide, by decide, by decide,
    by decide⟩

/-- C7. Wraparound aging stays monotonic: for every generation `0 ≤ g ≤ LONG_MAX` of the slot
that `ipu3_css_pool_check` probes, the age it computes is non-decreasing along the frame numbers
`g, g+1, ..., LONG_MAX, 0, 1, ..., g-1` (`frame_after g k` for `k = 0, ..., LONG_MAX`);
consequently, once the age exceeds the capacity it does so at every later frame number of that
sequence, and a `check` that designates the slot keeps designating it. -/
theorem pool_age_monotone (N : Nat) (pool : ipu3_css_pool) (g : Int) (k k2 : Nat)
    (hgen : (pool.entry ((pool.last + 1) % N)).framenum = g)
    (hg0 : 0 ≤ g) (hg1 : g ≤ LONG_MAX) (hk : k ≤ k2) (hk2 : (k2 : Int) ≤ LONG_MAX) :
    ipu3_css_pool_diff (frame_after g k) g ≤ ipu3_css_pool_diff (frame_after g k2) g ∧
    (ipu3_css_pool_diff (frame_after g k) g > (N : Int) →
      ipu3_css_pool_diff (frame_after g k2) g > (N : Int)) ∧
    (0 ≤ ipu3_css_pool_check N pool (frame_after g k) →
      ipu3_css_pool_check N pool (frame_after g k2) = (((pool.last + 1) % N : Nat) : Int)) := by
  have hmono : ipu3_css_pool_diff (frame_after g k) g ≤ ipu3_css_pool_diff (frame_after g k2) g := by
    simp only [diff_unfold, wrap_long, frame_after, LONG_MAX] at *
    split <;> split <;> omega
  refine ⟨hmono, fun h => lt_of_lt_of_le h hmono, ?_⟩
  intro hchk
  by_cases h : ipu3_css_pool_diff (frame_after g k) (pool.entry ((pool.last + 1) % N)).framenum
      > (N : Int)
  · rw [hgen] at h
    exact check_of_old N pool _ (by rw [hgen]; exact lt_of_lt_of_le h hmono)
  · rw [check_of_young N pool _ h] at hchk
    exact absurd hchk (by decide)

/-- C7, witness: the pool of capacity 4 after `get` for the frames 10, 11, 12, 13, whose probed
slot 1 has generation 10; frame number 15 (`k = 5`, age 5, slot 1 designated) and, across the
wrap, frame number 7 (`k = 2^63 - 3`). -/
theorem pool_age_monotone_witness :
    (aged_pool4.entry ((aged_pool4.last + 1) % 4)).framenum = 10 ∧
    (0 : Int) ≤ 10 ∧ (10 : Int) ≤ LONG_MAX ∧ 5 ≤ 2 ^ 63 - 3 ∧
    (((2 ^ 63 - 3 : Nat) : Nat) : Int) ≤ LONG_MAX ∧
    frame_after 10 5 = 15 ∧ frame_after 10 (2 ^ 63 - 3) = 7 ∧
    0 ≤ ipu3_css_pool_check 4 aged_pool4 (frame_after 10 5) ∧
    (ipu3_css_pool_diff (frame_after 10 5) 10 ≤ ipu3_css_pool_diff (frame_after 10 (2 ^ 63 - 3)) 10 ∧
     (ipu3_css_pool_diff (frame_after 10 5) 10 > ((4 : Nat) : Int) →
        ipu3_css_pool_diff (frame_after 10 (2 ^ 63 - 3)) 10 > ((4 : Nat) : Int)) ∧
     (0 ≤ ipu3_css_pool_check 4 aged_pool4 (frame_after 10 5) →
        ipu3_css_pool_check 4 aged_pool4 (frame_after 10 (2 ^ 63 - 3))
          = (((aged_pool4.last + 1) % 4 : Nat) : Int))) :=
  ⟨by decide, by decide, by decide, by decide, by decide, by decide, by decide, by decide,
    pool_age_monotone 4 aged_pool4 10 5 (2 ^ 63 - 3) (by decide) (by decide) (by decide)
      (by decide) (by decide)⟩

/-! ## Dispatcher: auxiliary facts -/

theorem first_new_none_iff (l : List imgu_buffer) :
    first_new_buffer l = none ↔
      l.any (fun buf => decide (buf.css_buf.state = IPU3_CSS_BUFFER_NEW)) = false := by
  induction l with
  | nil => simp [first_new_buffer]
  | cons b l ih =>
    by_cases h : b.css_buf.state = IPU3_CSS_BUFFER_NEW
    · simp [first_new_buffer, h]
    · simp only [first_new_buffer, if_neg h, Option.map_eq_none', ih, List.any_cons,
        Bool.or_eq_false_iff, decide_eq_false_iff_not]
      exact ⟨fun hl => ⟨h, hl⟩, fun hl => hl.2⟩

theorem getbuf_in (imgu : imgu_device) :
    imgu_queue_getbuf imgu IMGU_NODE_IN =
      ((first_new_buffer (imgu.nodes IMGU_NODE_IN).buffers).map (buf_ptr.user IMGU_NODE_IN),
        imgu) := by
  unfold imgu_queue_getbuf
  cases first_new_buffer (imgu.nodes IMGU_NODE_IN).buffers with
  | none => simp [imgu_dummybufs_get, imgu_node_to_queue, IMGU_NODE_IN, IPU3_CSS_QUEUE_IN]
  | some k => rfl

theorem getbuf_in_none_iff (imgu : imgu_device) :
    (imgu_queue_getbuf imgu IMGU_NODE_IN).1 = none ↔ input_ready imgu = false := by
  rw [getbuf_in]
  simp only [Option.map_eq_none', first_new_none_iff, input_ready]

theorem getbuf_in_some (imgu imgu1 : imgu_device) (b : buf_ptr)
    (h : imgu_queue_getbuf imgu IMGU_NODE_IN = (some b, imgu1)) :
    ∃ k, b = .user IMGU_NODE_IN k := by
  rw [getbuf_in] at h
  cases hk : first_new_buffer (imgu.nodes IMGU_NODE_IN).buffers with
  | none => rw [hk] at h; simp at h
  | some k =>
    rw [hk] at h
    simp only [Option.map_some', Prod.mk.injEq, Option.some.injEq] at h
    exact ⟨k, h.1.symm⟩

theorem dummybufs_get_none (imgu imgu1 : imgu_device) (queue : Nat)
    (h : imgu_dummybufs_get imgu queue = (none, imgu1)) : imgu1 = imgu := by
  unfold imgu_dummybufs_get at h
  by_cases h1 : queue = IPU3_CSS_QUEUE_IN
  · rw [if_pos h1] at h
    exact (Prod.mk.inj h).2.symm
  · rw [if_neg h1] at h
    by_cases h2 : (imgu.queues queue).dmap.vaddr = none
    · rw [if_pos h2] at h
      exact (Prod.mk.inj h).2.symm
    · rw [if_neg h2] at h
      dsimp only at h
      split_ifs at h
      · exact (Prod.mk.inj h).2.symm
      · exact absurd (Prod.mk.inj h).1 (by simp)

theorem getbuf_none (imgu imgu1 : imgu_device) (node : Nat)
    (h : imgu_queue_getbuf imgu node = (none, imgu1)) : imgu1 = imgu := by
  unfold imgu_queue_getbuf at h
  split at h
  · simp at h
  · exact dummybufs_get_none _ _ _ h

theorem iter_spec (env : css_env) (imgu : imgu_device) (node : Nat) (r : Int) (ready : Bool) :
    ((imgu_queue_iter env imgu node r ready).continues = true →
      (imgu_queue_iter env imgu node r ready).ready =
        (if node = IMGU_NODE_IN then input_ready (imgu_queue_iter env imgu node r ready).imgu
         else ready) ∧
      (node = IMGU_NODE_IN → input_ready (imgu_queue_iter env imgu node r ready).imgu = true)) ∧
    (((imgu_queue_iter env imgu node r ready).events = [] ∧
      (imgu_queue_iter env imgu node r ready).r = r ∧
      (imgu_queue_iter env imgu node r ready).imgu = imgu) ∨
     (∃ b imgu1, imgu_queue_getbuf imgu node = (some b, imgu1) ∧
      imgu.queue_enabled node = true ∧
      (imgu_queue_iter env imgu node r ready).events =
        [.css_buf_queue node b (imgu_queue_iter env imgu node r ready).r ready] ∧
      (imgu_queue_iter env imgu node r ready).r = (env.ipu3_css_buf_queue imgu1 b).1 ∧
      (imgu_queue_iter env imgu node r ready).imgu = (env.ipu3_css_buf_queue imgu1 b).2 ∧
      ((imgu_queue_iter env imgu node r ready).r ≠ 0 →
        (imgu_queue_iter env imgu node r ready).continues = false))) := by
  rcases hgb : imgu_queue_getbuf imgu node with ⟨ob, imgu1⟩
  have hVF : IMGU_NODE_VF ≠ IMGU_NODE_IN := by decide
  have hPV : IMGU_NODE_PV ≠ IMGU_NODE_IN := by decide
  unfold imgu_queue_iter
  rw [hgb]
  split
  · rename_i h
    simp [h.1, hVF]
  · split
    · rename_i h
      simp [h.1, hPV]
    · split
      · cases ob with
        | none =>
          have := getbuf_none _ _ _ hgb
          simp [this]
        | some b =>
          dsimp only
          split
          · rename_i h1 h2
            refine ⟨by simp, Or.inr ⟨b, imgu1, rfl, h1, rfl, rfl, rfl, fun _ => rfl⟩⟩
          · split
            · rename_i h1 h2 h3
              refine ⟨by simp, Or.inr ⟨b, imgu1, rfl, h1, rfl, rfl, rfl, fun _ => rfl⟩⟩
            · rename_i h1 h2 h3
              refine ⟨?_, Or.inr ⟨b, imgu1, rfl, h1, rfl, rfl, rfl, fun h => absurd h h2⟩⟩
              intro _
              refine ⟨rfl, ?_⟩
              intro hn
              by_contra hc
              exact h3 ⟨hn, (getbuf_in_none_iff _).2 (by simpa using hc)⟩
      · split
        · simp
        · rename_i h1 h2
          refine ⟨?_, Or.inl ⟨rfl, rfl, rfl⟩⟩
          intro _
          refine ⟨rfl, ?_⟩
          intro hn
          by_contra hc
          exact h2 ⟨hn, (getbuf_in_none_iff _).2 (by simpa using hc)⟩

theorem loop_trace (env : css_env) :
    ∀ (fuel : Nat) (imgu : imgu_device) (node : Nat) (r : Int) (ready : Bool) (e : imgu_event),
      e ∈ (imgu_queue_loop env fuel imgu node r ready).trace →
      ∃ n b r1 rd, e = .css_buf_queue n b r1 rd ∧ (ready = true → rd = true) ∧
        (n = IMGU_NODE_IN → ∃ k, b = .user IMGU_NODE_IN k) ∧
        (r1 ≠ 0 → (imgu_queue_loop env fuel imgu node r ready).finished = true ∧
          (imgu_queue_loop env fuel imgu node r ready).r = r1) := by
  intro fuel
  induction fuel with
  | zero =>
    intro imgu node r ready e he
    simp [imgu_queue_loop] at he
  | succ fuel ih =>
    intro imgu node r ready e he
    obtain ⟨hready, hspec⟩ := iter_spec env imgu node r ready
    have hown : e ∈ (imgu_queue_iter env imgu node r ready).events →
        ∃ b, e = .css_buf_queue node b (imgu_queue_iter env imgu node r ready).r ready ∧
          (node = IMGU_NODE_IN → ∃ k, b = .user IMGU_NODE_IN k) ∧
          ((imgu_queue_iter env imgu node r ready).r ≠ 0 →
            (imgu_queue_iter env imgu node r ready).continues = false) := by
      intro hmem
      rcases hspec with ⟨hnil, -, -⟩ | ⟨b, imgu1, hgb, -, hev, -, -, hbrk⟩
      · rw [hnil] at hmem
        cases hmem
      · rw [hev] at hmem
        refine ⟨b, List.mem_singleton.1 hmem, ?_, hbrk⟩
        intro hn
        subst hn
        exact getbuf_in_some _ _ _ hgb
    simp only [imgu_queue_loop] at he ⊢
    by_cases hc : (imgu_queue_iter env imgu node r ready).continues = true
    · rw [if_pos hc] at he ⊢
      simp only [queue_result.after, List.mem_append] at he ⊢
      rcases he with he | he
      · obtain ⟨b, hb, hin, hbrk⟩ := hown he
        refine ⟨node, b, _, ready, hb, id, hin, ?_⟩
        intro hne
        rw [hbrk hne] at hc
        cases hc
      · obtain ⟨n, b, r1, rd, hb, hrd, hin, hfin⟩ := ih _ _ _ _ e he
        refine ⟨n, b, r1, rd, hb, ?_, hin, hfin⟩
        intro hr
        apply hrd
        rw [(hready hc).1]
        split
        · rename_i hn
          exact (hready hc).2 hn
        · exact hr
    · rw [if_neg hc] at he ⊢
      obtain ⟨b, hb, hin, -⟩ := hown he
      exact ⟨node, b, _, ready, hb, id, hin, fun _ => ⟨rfl, rfl⟩⟩

theorem for_break_bounds (p : Nat → Bool) :
    ∀ (rem s : Nat), s ≤ for_break p rem s ∧ for_break p rem s ≤ s + rem ∧
      (for_break p rem s < s + rem → p (for_break p rem s) = true) ∧
      (∀ b, s ≤ b → b < for_break p rem s → p b = false) := by
  intro rem
  induction rem with
  | zero =>
    intro s
    simp only [for_break]
    exact ⟨le_refl _, le_refl _, fun h => absurd h (by omega), fun b h1 h2 => by omega⟩
  | succ rem ih =>
    intro s
    simp only [for_break]
    by_cases hp : p s = true
    · rw [if_pos hp]
      exact ⟨le_refl _, by omega, fun _ => hp, fun b h1 h2 => by omega⟩
    · rw [if_neg hp]
      obtain ⟨h1, h2, h3, h4⟩ := ih (s + 1)
      refine ⟨by omega, by omega, fun h => h3 (by omega), ?_⟩
      intro b hb1 hb2
      by_cases hbs : b = s
      · subst hbs
        simpa using hp
      · exact h4 b (by omega) hb2

theorem dummybufs_check_iff (imgu : imgu_device) (buf : buf_ptr) :
    imgu_dummybufs_check imgu buf = true ↔
      ∃ b, b < IMGU_MAX_QUEUE_DEPTH ∧ buf = .dummy (css_buf_at imgu buf).queue b := by
  obtain ⟨-, -, h3, h4⟩ :=
    for_break_bounds (fun b => decide (buf = .dummy (css_buf_at imgu buf).queue b))
      IMGU_MAX_QUEUE_DEPTH 0
  simp only [imgu_dummybufs_check, decide_eq_true_eq]
  constructor
  · intro h
    exact ⟨_, h, by simpa using h3 (by omega)⟩
  · rintro ⟨b, hb, hbuf⟩
    by_contra hge
    have := h4 b (Nat.zero_le _) (by omega)
    simp only [decide_eq_false_iff_not] at this
    exact this hbuf

theorem dummybufs_check_user (imgu : imgu_device) (node k : Nat) :
    imgu_dummybufs_check imgu (.user node k) = false := by
  rw [← Bool.not_eq_true, dummybufs_check_iff]
  rintro ⟨b, -, hb⟩
  cases hb

theorem queue_buffers_idle (env : css_env) (fuel : Nat) (imgu : imgu_device) (initial : Bool)
    (h : imgu.css.streaming = false ∨ input_ready imgu = false) :
    imgu_queue_buffers env fuel imgu initial =
      { r := 0, imgu := imgu, trace := [], finished := true } := by
  unfold imgu_queue_buffers
  by_cases hs : imgu.css.streaming = true
  · have hin : input_ready imgu = false := by
      rcases h with h | h
      · rw [hs] at h; cases h
      · exact h
    rw [if_neg (by simpa using hs), if_pos ((getbuf_in_none_iff imgu).2 hin)]
  · rw [if_pos hs]

theorem queue_buffers_running (env : css_env) (fuel : Nat) (imgu : imgu_device) (initial : Bool)
    (hs : imgu.css.streaming = true) (hin : input_ready imgu = true) :
    imgu_queue_buffers env fuel imgu initial =
      if ¬ (imgu_queue_cycles env fuel imgu).finished then imgu_queue_cycles env fuel imgu
      else if (imgu_queue_cycles env fuel imgu).r ≠ 0 ∧
          (imgu_queue_cycles env fuel imgu).r ≠ -EBUSY then
        if initial then imgu_queue_cycles env fuel imgu
        else { r := (imgu_queue_cycles env fuel imgu).r,
               imgu := (imgu_queue_cycles env fuel imgu).imgu,
               trace := (imgu_queue_cycles env fuel imgu).trace ++
                 fail_nodes (imgu_queue_cycles env fuel imgu).imgu IMGU_NODE_NUM 0,
               finished := true }
      else { r := 0, imgu := (imgu_queue_cycles env fuel imgu).imgu,
             trace := (imgu_queue_cycles env fuel imgu).trace, finished := true } := by
  have hsome : ¬ (imgu_queue_getbuf imgu IMGU_NODE_IN).1 = none := by
    intro hnone
    rw [(getbuf_in_none_iff imgu).1 hnone] at hin
    cases hin
  unfold imgu_queue_buffers
  rw [if_neg (by simpa using hs), if_neg hsome]

theorem queue_buffers_trace (env : css_env) (fuel : Nat) (imgu : imgu_device) (initial : Bool) :
    (imgu_queue_buffers env fuel imgu initial).trace = [] ∨
    (input_ready imgu = true ∧
      ((imgu_queue_buffers env fuel imgu initial).trace = (imgu_queue_cycles env fuel imgu).trace ∨
       ((imgu_queue_buffers env fuel imgu initial).trace =
          (imgu_queue_cycles env fuel imgu).trace ++
            fail_nodes (imgu_queue_cycles env fuel imgu).imgu IMGU_NODE_NUM 0 ∧
        (imgu_queue_buffers env fuel imgu initial).imgu = (imgu_queue_cycles env fuel imgu).imgu))) := by
  by_cases hs : imgu.css.streaming = true
  · by_cases hin : input_ready imgu = true
    · right
      refine ⟨hin, ?_⟩
      rw [queue_buffers_running env fuel imgu initial hs hin]
      by_cases h1 : ¬ (imgu_queue_cycles env fuel imgu).finished
      · rw [if_pos h1]; exact Or.inl rfl
      · rw [if_neg h1]
        by_cases h2 : (imgu_queue_cycles env fuel imgu).r ≠ 0 ∧
            (imgu_queue_cycles env fuel imgu).r ≠ -EBUSY
        · rw [if_pos h2]
          by_cases h3 : initial = true
          · rw [if_pos h3]; exact Or.inl rfl
          · rw [if_neg h3]; exact Or.inr ⟨rfl, rfl⟩
        · rw [if_neg h2]; exact Or.inl rfl
    · left
      rw [queue_buffers_idle env fuel imgu initial (Or.inr (by simpa using hin))]
  · left
    rw [queue_buffers_idle env fuel imgu initial (Or.inl (by simpa using hs))]

theorem fail_node_buffers_mem (node : Nat) :
    ∀ (l : List imgu_buffer) (k0 : Nat) (e : imgu_event),
      e ∈ fail_node_buffers node k0 l ↔
        ∃ j, j < l.length ∧ e = .buffer_done (.user node (k0 + j)) VB2_BUF_STATE_ERROR ∧
          (l.getD j default).css_buf.state ≠ IPU3_CSS_BUFFER_QUEUED := by
  intro l
  induction l with
  | nil =>
    intro k0 e
    simp [fail_node_buffers]
  | cons b l ih =>
    intro k0 e
    have hshift : (∃ j, j < l.length ∧
          e = .buffer_done (.user node (k0 + 1 + j)) VB2_BUF_STATE_ERROR ∧
          (l.getD j default).css_buf.state ≠ IPU3_CSS_BUFFER_QUEUED) ↔
        ∃ j, 0 < j ∧ j < (b :: l).length ∧
          e = .buffer_done (.user node (k0 + j)) VB2_BUF_STATE_ERROR ∧
          ((b :: l).getD j default).css_buf.state ≠ IPU3_CSS_BUFFER_QUEUED := by
      constructor
      · rintro ⟨j, h1, h2, h3⟩
        refine ⟨j + 1, by omega, by simpa using h1, ?_, by simpa using h3⟩
        rw [h2]
        congr 2
        omega
      · rintro ⟨j, h0, h1, h2, h3⟩
        obtain ⟨i, rfl⟩ : ∃ i, j = i + 1 := ⟨j - 1, by omega⟩
        refine ⟨i, by simpa using h1, ?_, by simpa using h3⟩
        rw [h2]
        congr 2
        omega
    simp only [fail_node_buffers]
    by_cases hq : b.css_buf.state = IPU3_CSS_BUFFER_QUEUED
    · rw [if_pos hq, ih, hshift]
      constructor
      · rintro ⟨j, -, h⟩
        exact ⟨j, h⟩
      · rintro ⟨j, h1, h2, h3⟩
        refine ⟨j, ?_, h1, h2, h3⟩
        rcases Nat.eq_zero_or_pos j with h0 | h0
        · subst h0
          exact absurd hq (by simpa using h3)
        · exact h0
    · rw [if_neg hq, List.mem_cons, ih, hshift]
      constructor
      · rintro (h | ⟨j, -, h⟩)
        · exact ⟨0, by simp, by simpa using h, by simpa using hq⟩
        · exact ⟨j, h⟩
      · rintro ⟨j, h1, h2, h3⟩
        rcases Nat.eq_zero_or_pos j with h0 | h0
        · subst h0
          left
          simpa using h2
        · right
          exact ⟨j, h0, h1, h2, h3⟩

theorem fail_nodes_mem (imgu : imgu_device) :
    ∀ (rem start : Nat) (e : imgu_event),
      e ∈ fail_nodes imgu rem start ↔
        ∃ n k, start ≤ n ∧ n < start + rem ∧ imgu.queue_enabled n = true ∧
          k < (imgu.nodes n).buffers.length ∧
          e = .buffer_done (.user n k) VB2_BUF_STATE_ERROR ∧
          ((imgu.nodes n).buffers.getD k default).css_buf.state ≠ IPU3_CSS_BUFFER_QUEUED := by
  intro rem
  induction rem with
  | zero =>
    intro start e
    simp only [fail_nodes, List.not_mem_nil, false_iff]
    rintro ⟨n, k, h1, h2, -⟩
    omega
  | succ rem ih =>
    intro start e
    simp only [fail_nodes]
    by_cases hen : imgu.queue_enabled start = true
    · rw [if_neg (by simpa using hen), List.mem_append, ih, fail_node_buffers_mem]
      constructor
      · rintro (⟨j, h1, h2, h3⟩ | ⟨n, k, h1, h2, h3, h4, h5, h6⟩)
        · exact ⟨start, j, le_refl _, by omega, hen, h1, by simpa using h2, h3⟩
        · exact ⟨n, k, by omega, by omega, h3, h4, h5, h6⟩
      · rintro ⟨n, k, h1, h2, h3, h4, h5, h6⟩
        by_cases hn : n = start
        · subst hn
          left
          exact ⟨k, h4, by simpa using h5, h6⟩
        · right
          exact ⟨n, k, by omega, by omega, h3, h4, h5, h6⟩
    · rw [if_pos hen, ih]
      constructor
      · rintro ⟨n, k, h1, h2, h3, h4, h5, h6⟩
        exact ⟨n, k, by omega, by omega, h3, h4, h5, h6⟩
      · rintro ⟨n, k, h1, h2, h3, h4, h5, h6⟩
        by_cases hn : n = start
        · subst hn
          exact absurd h3 hen
        · exact ⟨n, k, by omega, by omega, h3, h4, h5, h6⟩

/-! ## Dispatcher and completion path: claims -/

/-- C8. Input gating of the dispatcher. For every device state, both modes and every hardware
behaviour: if streaming is not active or the input node holds no caller buffer in state NEW,
`imgu_queue_buffers` returns 0 without submitting anything (no event at all, device unchanged);
and in every run, every submission is made in a cycle at whose start the input node held a NEW
caller buffer, and every buffer submitted on the input node is a caller buffer of that node,
never a filler buffer. -/
theorem queue_buffers_input_gating (env : css_env) (fuel : Nat) (imgu : imgu_device)
    (initial : Bool) :
    ((imgu.css.streaming = false ∨ input_ready imgu = false) →
      (imgu_queue_buffers env fuel imgu initial).r = 0 ∧
      (imgu_queue_buffers env fuel imgu initial).trace = [] ∧
      (imgu_queue_buffers env fuel imgu initial).finished = true ∧
      (imgu_queue_buffers env fuel imgu initial).imgu = imgu) ∧
    (∀ node buf r ready,
      imgu_event.css_buf_queue node buf r ready ∈ (imgu_queue_buffers env fuel imgu initial).trace →
      ready = true ∧
      (node = IMGU_NODE_IN →
        (∃ k, buf = .user IMGU_NODE_IN k) ∧ ∀ dev, imgu_dummybufs_check dev buf = false)) := by
  constructor
  · intro h
    rw [queue_buffers_idle env fuel imgu initial h]
    exact ⟨rfl, rfl, rfl, rfl⟩
  · intro node buf r ready hmem
    have hloop : imgu_event.css_buf_queue node buf r ready ∈ (imgu_queue_cycles env fuel imgu).trace ∧
        input_ready imgu = true := by
      rcases queue_buffers_trace env fuel imgu initial with h | ⟨hin, h | ⟨h, -⟩⟩
      · rw [h] at hmem
        cases hmem
      · rw [h] at hmem
        exact ⟨hmem, hin⟩
      · rw [h, List.mem_append] at hmem
        rcases hmem with hmem | hmem
        · exact ⟨hmem, hin⟩
        · obtain ⟨n, k, -, -, -, -, he, -⟩ := (fail_nodes_mem _ _ _ _).1 hmem
          cases he
    obtain ⟨n, b, r1, rd, he, hrd, hin, -⟩ := loop_trace env _ _ _ _ _ _ hloop.1
    simp only [imgu_event.css_buf_queue.injEq] at he
    obtain ⟨rfl, rfl, rfl, rfl⟩ := he
    refine ⟨hrd hloop.2, fun hn => ?_⟩
    obtain ⟨k, hk⟩ := hin hn
    exact ⟨⟨k, hk⟩, fun dev => by rw [hk]; exact dummybufs_check_user dev _ _⟩

theorem isr_complete_dummy (env : css_env) (ns : Nat) (imgu : imgu_device) (b : buf_ptr)
    (h : imgu_dummybufs_check imgu b = true) :
    (imgu_isr_complete env ns imgu b).events = [] ∧
    (imgu_isr_complete env ns imgu b).imgu = imgu := by
  unfold imgu_isr_complete
  dsimp only
  split
  · exact ⟨rfl, rfl⟩
  · simp [h]

theorem mem_ite_singleton (c : Prop) [Decidable c] (e x : imgu_event)
    (h : e ∈ (if c then [x] else [])) : e = x := by
  split at h
  · exact List.mem_singleton.1 h
  · cases h

theorem isr_complete_events (env : css_env) (ns : Nat) (imgu : imgu_device) (b : buf_ptr)
    (e : imgu_event) (he : e ∈ (imgu_isr_complete env ns imgu b).events) :
    imgu_dummybufs_check imgu b = false ∧ 0 ≤ imgu_map_node imgu (css_buf_at imgu b).queue ∧
    (e = .wake_up_all ∨ ∃ st, e = .buffer_done b st) := by
  unfold imgu_isr_complete at he
  dsimp only at he
  split at he
  · cases he
  · rename_i hnode
    split at he
    · cases he
    · rename_i hd
      refine ⟨by simpa using hd, by omega, ?_⟩
      simp only [List.mem_cons] at he
      rcases he with he | he
      · exact Or.inr ⟨_, he⟩
      · exact Or.inl (mem_ite_singleton _ _ _ he)

theorem isr_loop_log (env : css_env) :
    ∀ (fuel : Nat) (imgu : imgu_device) (record : isr_record),
      record ∈ (imgu_isr_loop env fuel imgu).log →
      (record.dummy = true ↔
        ∃ j, j < IMGU_MAX_QUEUE_DEPTH ∧ record.buf = .dummy record.queue j) ∧
      (record.dummy = true → record.events = []) ∧
      (∀ e, e ∈ record.events →
        record.dummy = false ∧ (e = .wake_up_all ∨ ∃ st, e = .buffer_done record.buf st)) := by
  intro fuel
  induction fuel with
  | zero =>
    intro imgu record h
    simp [imgu_isr_loop] at h
  | succ fuel ih =>
    intro imgu record h
    have hrec : ∀ (imgu1 : imgu_device) (b : buf_ptr),
        record = { buf := b, queue := (css_buf_at imgu1 b).queue,
                   dummy := imgu_dummybufs_check imgu1 b,
                   events := (imgu_isr_complete env (env.ktime_get_ns fuel) imgu1 b).events } →
        (record.dummy = true ↔
          ∃ j, j < IMGU_MAX_QUEUE_DEPTH ∧ record.buf = .dummy record.queue j) ∧
        (record.dummy = true → record.events = []) ∧
        (∀ e, e ∈ record.events →
          record.dummy = false ∧ (e = .wake_up_all ∨ ∃ st, e = .buffer_done record.buf st)) := by
      intro imgu1 b hr
      subst hr
      refine ⟨dummybufs_check_iff imgu1 b, fun hd => (isr_complete_dummy env _ imgu1 b hd).1, ?_⟩
      intro e he
      obtain ⟨h1, -, h3⟩ := isr_complete_events env _ imgu1 b e he
      exact ⟨h1, h3⟩
    simp only [imgu_isr_loop] at h
    split at h
    · cases h
    · cases h
    · cases h
    · rename_i b imgu1 heq
      split at h
      · simp only [List.mem_cons] at h
        rcases h with h | h
        · exact hrec imgu1 b h
        · exact ih _ record h
      · exact hrec imgu1 b (List.mem_singleton.1 h)

/-- C9. Dummy buffers never reach the caller. For every hardware behaviour and device state:
a retrieved buffer for which `imgu_dummybufs_check` is true is discarded by the completion loop
with no event and no change of the device (no callback, no metadata stamping); every entry of
the completion log records a check value that is true exactly when the buffer is one of the
`IMGU_MAX_QUEUE_DEPTH` filler buffers of the queue named in it, has no events when the check is
true, and otherwise only completions of the retrieved buffer itself; and every completion made
by the dispatcher (its failure path) is an Error completion of a caller buffer in the list of a
node, for which the check is false. -/
theorem dummy_never_completed (env : css_env) (fuel : Nat) (imgu : imgu_device)
    (initial : Bool) :
    (∀ (ns : Nat) (dev : imgu_device) (b : buf_ptr), imgu_dummybufs_check dev b = true →
      (imgu_isr_complete env ns dev b).events = [] ∧
      (imgu_isr_complete env ns dev b).imgu = dev) ∧
    (∀ record, record ∈ (imgu_isr_threaded env fuel imgu).isr.log →
      (record.dummy = true ↔
        ∃ j, j < IMGU_MAX_QUEUE_DEPTH ∧ record.buf = .dummy record.queue j) ∧
      (record.dummy = true → record.events = []) ∧
      (∀ e, e ∈ record.events →
        record.dummy = false ∧ (e = .wake_up_all ∨ ∃ st, e = .buffer_done record.buf st))) ∧
    (∀ p st, imgu_event.buffer_done p st ∈ (imgu_queue_buffers env fuel imgu initial).trace →
      st = VB2_BUF_STATE_ERROR ∧
      (∃ n k, p = .user n k ∧
        k < (((imgu_queue_buffers env fuel imgu initial).imgu).nodes n).buffers.length) ∧
      ∀ dev, imgu_dummybufs_check dev p = false) := by
  refine ⟨fun ns dev b h => isr_complete_dummy env ns dev b h, ?_, ?_⟩
  · intro record h
    have hlog : (imgu_isr_threaded env fuel imgu).isr = imgu_isr_loop env fuel imgu := by
      unfold imgu_isr_threaded
      dsimp only
      split <;> rfl
    rw [hlog] at h
    exact isr_loop_log env fuel imgu record h
  · intro p st hmem
    rcases queue_buffers_trace env fuel imgu initial with h | ⟨-, h | ⟨h, himgu⟩⟩
    · rw [h] at hmem
      cases hmem
    · rw [h] at hmem
      obtain ⟨n, b, r1, rd, he, -⟩ := loop_trace env _ _ _ _ _ _ hmem
      cases he
    · rw [h, List.mem_append] at hmem
      rcases hmem with hmem | hmem
      · obtain ⟨n, b, r1, rd, he, -⟩ := loop_trace env _ _ _ _ _ _ hmem
        cases he
      · obtain ⟨n, k, -, -, -, hk, he, -⟩ := (fail_nodes_mem _ _ _ _).1 hmem
        simp only [imgu_event.buffer_done.injEq] at he
        obtain ⟨rfl, rfl⟩ := he
        rw [himgu]
        exact ⟨rfl, ⟨n, k, rfl, hk⟩, fun dev => dummybufs_check_user dev n k⟩

theorem cycles_no_done (env : css_env) (fuel : Nat) (imgu : imgu_device) (p : buf_ptr)
    (st : vb2_buffer_state) :
    imgu_event.buffer_done p st ∉ (imgu_queue_cycles env fuel imgu).trace := by
  intro hmem
  obtain ⟨n, b, r1, rd, he, -⟩ := loop_trace env _ _ _ _ _ _ hmem
  cases he

/-- C10. Submission-failure handling in `imgu_queue_buffers`, for a run on a streaming device
whose input node holds a NEW caller buffer and in which a hardware submission returns `r ≠ 0`:
the function returns. If `r` is not `-EBUSY`, it returns `r`; in initial mode no buffer receives
a completion; in incremental mode every caller buffer of every node with `queue_enabled` set
whose state (after the failed submission) is not QUEUED receives an Error completion, and no
caller buffer that is QUEUED receives any completion. If `r` is `-EBUSY`, the function returns 0
and no buffer receives a completion. -/
theorem queue_buffers_failure (env : css_env) (fuel : Nat) (imgu : imgu_device) (initial : Bool)
    (node : Nat) (buf : buf_ptr) (r : Int) (ready : Bool)
    (hs : imgu.css.streaming = true) (hin : input_ready imgu = true)
    (hev : imgu_event.css_buf_queue node buf r ready ∈ (imgu_queue_cycles env fuel imgu).trace)
    (hr : r ≠ 0) :
    (imgu_queue_buffers env fuel imgu initial).finished = true ∧
    (imgu_queue_buffers env fuel imgu initial).imgu = (imgu_queue_cycles env fuel imgu).imgu ∧
    (r ≠ -EBUSY →
      (imgu_queue_buffers env fuel imgu initial).r = r ∧
      (initial = true →
        ∀ p st, imgu_event.buffer_done p st ∉ (imgu_queue_buffers env fuel imgu initial).trace) ∧
      (initial = false →
        ∀ n k, k < (((imgu_queue_cycles env fuel imgu).imgu).nodes n).buffers.length →
          (n < IMGU_NODE_NUM → ((imgu_queue_cycles env fuel imgu).imgu).queue_enabled n = true →
            ((((imgu_queue_cycles env fuel imgu).imgu).nodes n).buffers.getD k default).css_buf.state
              ≠ IPU3_CSS_BUFFER_QUEUED →
            imgu_event.buffer_done (.user n k) VB2_BUF_STATE_ERROR
              ∈ (imgu_queue_buffers env fuel imgu initial).trace) ∧
          (((((imgu_queue_cycles env fuel imgu).imgu).nodes n).buffers.getD k default).css_buf.state
              = IPU3_CSS_BUFFER_QUEUED →
            ∀ st, imgu_event.buffer_done (.user n k) st
              ∉ (imgu_queue_buffers env fuel imgu initial).trace))) ∧
    (r = -EBUSY →
      (imgu_queue_buffers env fuel imgu initial).r = 0 ∧
      ∀ p st, imgu_event.buffer_done p st ∉ (imgu_queue_buffers env fuel imgu initial).trace) := by
  obtain ⟨n0, b0, r1, rd, he, -, -, hfin⟩ := loop_trace env _ _ _ _ _ _ hev
  simp only [imgu_event.css_buf_queue.injEq] at he
  obtain ⟨rfl, rfl, rfl, rfl⟩ := he
  obtain ⟨hfinished, hres⟩ := hfin hr
  have hfinished2 : (imgu_queue_cycles env fuel imgu).finished = true := hfinished
  have hres2 : (imgu_queue_cycles env fuel imgu).r = r := hres
  rw [queue_buffers_running env fuel imgu initial hs hin, if_neg (by simpa using hfinished2), hres2]
  by_cases hb : r = -EBUSY
  · rw [if_neg (by intro h; exact h.2 hb)]
    refine ⟨rfl, rfl, fun h => absurd hb h, fun _ => ⟨rfl, ?_⟩⟩
    intro p st
    exact cycles_no_done env fuel imgu p st
  · rw [if_pos ⟨hr, hb⟩]
    by_cases hi : initial = true
    · rw [if_pos hi]
      refine ⟨hfinished2, rfl, fun _ => ⟨hres2, fun _ p st => cycles_no_done env fuel imgu p st, ?_⟩,
        fun h => absurd h hb⟩
      intro hf
      rw [hi] at hf
      cases hf
    · rw [if_neg hi]
      refine ⟨rfl, rfl, fun _ => ⟨rfl, fun h => absurd h hi, fun _ n k hk => ⟨?_, ?_⟩⟩,
        fun h => absurd h hb⟩
      · intro hn hen hst
        apply List.mem_append_right
        exact (fail_nodes_mem _ _ _ _).2 ⟨n, k, Nat.zero_le _, by omega, hen, hk, rfl, hst⟩
      · intro hst st hmem
        rcases List.mem_append.1 hmem with hmem | hmem
        · exact cycles_no_done env fuel imgu _ _ hmem
        · obtain ⟨n1, k1, -, -, -, -, he, hne⟩ := (fail_nodes_mem _ _ _ _).1 hmem
          simp only [imgu_event.buffer_done.injEq, buf_ptr.user.injEq] at he
          obtain ⟨⟨rfl, rfl⟩, -⟩ := he
          exact hne hst

/-- C10, witness: on the sample device the submission of the 3A-statistics filler buffer
fails with -5 in incremental mode. -/
theorem queue_buffers_failure_witness :
    sample_dev.css.streaming = true ∧ input_ready sample_dev = true ∧
    imgu_event.css_buf_queue 5 (.dummy 4 0) (-5) true
      ∈ (imgu_queue_cycles (sample_env [4] (-5)) 20 sample_dev).trace ∧
    (-5 : Int) ≠ 0 ∧
    ((imgu_queue_buffers (sample_env [4] (-5)) 20 sample_dev false).finished = true ∧
    (imgu_queue_buffers (sample_env [4] (-5)) 20 sample_dev false).imgu
      = (imgu_queue_cycles (sample_env [4] (-5)) 20 sample_dev).imgu ∧
    ((-5 : Int) ≠ -EBUSY →
      (imgu_queue_buffers (sample_env [4] (-5)) 20 sample_dev false).r = -5 ∧
      (false = true →
        ∀ p st, imgu_event.buffer_done p st
          ∉ (imgu_queue_buffers (sample_env [4] (-5)) 20 sample_dev false).trace) ∧
      (false = false →
        ∀ n k, k < (((imgu_queue_cycles (sample_env [4] (-5)) 20 sample_dev).imgu).nodes n).buffers.length →
          (n < IMGU_NODE_NUM →
            ((imgu_queue_cycles (sample_env [4] (-5)) 20 sample_dev).imgu).queue_enabled n = true →
            ((((imgu_queue_cycles (sample_env [4] (-5)) 20 sample_dev).imgu).nodes n).buffers.getD k
                default).css_buf.state ≠ IPU3_CSS_BUFFER_QUEUED →
            imgu_event.buffer_done (.user n k) VB2_BUF_STATE_ERROR
              ∈ (imgu_queue_buffers (sample_env [4] (-5)) 20 sample_dev false).trace) ∧
          (((((imgu_queue_cycles (sample_env [4] (-5)) 20 sample_dev).imgu).nodes n).buffers.getD k
                default).css_buf.state = IPU3_CSS_BUFFER_QUEUED →
            ∀ st, imgu_event.buffer_done (.user n k) st
              ∉ (imgu_queue_buffers (sample_env [4] (-5)) 20 sample_dev false).trace))) ∧
    ((-5 : Int) = -EBUSY →
      (imgu_queue_buffers (sample_env [4] (-5)) 20 sample_dev false).r = 0 ∧
      ∀ p st, imgu_event.buffer_done p st
        ∉ (imgu_queue_buffers (sample_env [4] (-5)) 20 sample_dev false).trace)) :=
  ⟨by decide, by decide, by decide, by decide,
    queue_buffers_failure (sample_env [4] (-5)) 20 sample_dev false 5 (.dummy 4 0) (-5) true
      (by decide) (by decide) (by decide) (by decide)⟩

/-- A run of the dispatcher on the sample device with a hardware that accepts everything: the
output caller buffer, three filler buffers and, last in the cycle, the input caller buffer are
submitted; the run ends because no NEW input buffer is left. -/
theorem sample_dispatch :
    (imgu_queue_buffers (sample_env [] 0) 20 sample_dev false).trace =
      [.css_buf_queue 2 (.user 2 0) 0 true, .css_buf_queue 3 (.dummy 3 0) 0 true,
       .css_buf_queue 5 (.dummy 4 0) 0 true, .css_buf_queue 6 (.dummy 5 0) 0 true,
       .css_buf_queue 0 (.user 0 0) 0 true] ∧
    (imgu_queue_buffers (sample_env [] 0) 20 sample_dev false).r = 0 ∧
    (imgu_queue_buffers (sample_env [] 0) 20 sample_dev false).finished = true := by
  decide

/-- A run of the dispatcher on a streaming device whose input node holds only a QUEUED caller
buffer, and one on the sample device with streaming off: nothing is submitted, 0 is returned. -/
theorem sample_dispatch_idle :
    (imgu_queue_buffers (sample_env [] 0) 20
      (sample_imgu [sample_buffer IPU3_CSS_QUEUE_IN 0 IPU3_CSS_BUFFER_QUEUED]
        [sample_buffer IPU3_CSS_QUEUE_OUT 0 IPU3_CSS_BUFFER_NEW]) false).trace = [] ∧
    (imgu_queue_buffers (sample_env [] 0) 20
      (sample_imgu [sample_buffer IPU3_CSS_QUEUE_IN 0 IPU3_CSS_BUFFER_QUEUED]
        [sample_buffer IPU3_CSS_QUEUE_OUT 0 IPU3_CSS_BUFFER_NEW]) false).r = 0 ∧
    (imgu_queue_buffers (sample_env [] 0) 20
      { css := { streaming := false, pipe_id := IPU3_CSS_PIPE_ID_VIDEO },
        nodes := sample_dev.nodes, queue_enabled := sample_dev.queue_enabled,
        queues := sample_dev.queues } true).trace = [] := by
  decide

/-- A run of the dispatcher on the sample device in which the submission on the 3A-statistics
queue fails with -5: in incremental mode the input caller buffer, still NEW, receives an Error
completion and the output buffers, both QUEUED by then, receive none; in initial mode nothing is
completed; with `-EBUSY` in place of -5 the function returns 0. -/
theorem sample_dispatch_failure :
    (imgu_queue_buffers (sample_env [4] (-5)) 20 sample_dev false).trace =
      [.css_buf_queue 2 (.user 2 0) 0 true, .css_buf_queue 3 (.dummy 3 0) 0 true,
       .css_buf_queue 5 (.dummy 4 0) (-5) true,
       .buffer_done (.user 0 0) VB2_BUF_STATE_ERROR] ∧
    (imgu_queue_buffers (sample_env [4] (-5)) 20 sample_dev false).r = -5 ∧
    (imgu_queue_buffers (sample_env [4] (-5)) 20 sample_dev true).trace =
      [.css_buf_queue 2 (.user 2 0) 0 true, .css_buf_queue 3 (.dummy 3 0) 0 true,
       .css_buf_queue 5 (.dummy 4 0) (-5) true] ∧
    (imgu_queue_buffers (sample_env [4] (-5)) 20 sample_dev true).r = -5 ∧
    (imgu_queue_buffers (sample_env [4] (-EBUSY)) 20 sample_dev false).r = 0 := by
  decide

/-- A run of the completion loop after the accepting dispatcher run on the sample device: the
viewfinder filler buffer is discarded without any event, the output caller buffer is completed
as DONE with payload and sequence number stamped. -/
theorem sample_completion :
    (imgu_isr_threaded sample_env_done 20
        (imgu_queue_buffers (sample_env [] 0) 20 sample_dev false).imgu).isr.log =
      [{ buf := .dummy 3 0, queue := 3, dummy := true, events := [] },
       { buf := .user 2 0, queue := 2, dummy := false,
         events := [.buffer_done (.user 2 0) VB2_BUF_STATE_DONE] }] ∧
    (imgu_isr_threaded sample_env_done 20
        (imgu_queue_buffers (sample_env [] 0) 20 sample_dev false).imgu).isr.finished = true ∧
    ((((imgu_isr_threaded sample_env_done 20
        (imgu_queue_buffers (sample_env [] 0) 20 sample_dev false).imgu).isr.imgu).nodes 2).buffers.map
          (fun b => (b.payload, b.sequence))) = [(4096, 1), (0, 0)] := by
  decide

/-! ## Dummy buffers: claims -/

theorem for_break_eq (p : Nat → Bool) (rem b : Nat) (hb : b < rem) (hp : p b = true)
    (hbelow : ∀ j, j < b → p j = false) : for_break p rem 0 = b := by
  obtain ⟨-, -, h3, h4⟩ := for_break_bounds p rem 0
  have h1 : ¬ b < for_break p rem 0 := by
    intro hlt
    rw [h4 b (Nat.zero_le _) hlt] at hp
    cases hp
  have h2 : ¬ for_break p rem 0 < b := by
    intro hlt
    rw [hbelow _ hlt] at h3
    exact absurd (h3 (by omega)) (by simp)
  omega

theorem for_break_all (p : Nat → Bool) (rem : Nat) :
    rem ≤ for_break p rem 0 ↔ ∀ b, b < rem → p b = false := by
  obtain ⟨-, h2, h3, h4⟩ := for_break_bounds p rem 0
  constructor
  · intro h b hb
    exact h4 b (Nat.zero_le _) (by omega)
  · intro h
    by_contra hlt
    have hx := h3 (by omega)
    rw [h _ (by omega)] at hx
    cases hx

/-- C11. Dummy acquire. `imgu_dummybufs_get` returns NULL exactly when the queue is the input
queue, the queue has no backing allocation, or all `IMGU_MAX_QUEUE_DEPTH` fillers are QUEUED,
and then leaves the device unchanged; for every non-input queue with a backing allocation it
returns the lowest-index filler whose state is not QUEUED, re-initialised to state NEW, with
the queue's identity and the address of the queue's shared allocation, and leaves the other
fillers, the allocation, the other queues and the rest of the device unchanged. -/
theorem dummybufs_get_spec (imgu : imgu_device) (queue : Nat) :
    ((imgu_dummybufs_get imgu queue).1 = none ↔
      (queue = IPU3_CSS_QUEUE_IN ∨ (imgu.queues queue).dmap.vaddr = none ∨
        ∀ b, b < IMGU_MAX_QUEUE_DEPTH →
          ((imgu.queues queue).dummybufs b).state = IPU3_CSS_BUFFER_QUEUED)) ∧
    ((imgu_dummybufs_get imgu queue).1 = none → (imgu_dummybufs_get imgu queue).2 = imgu) ∧
    (∀ b, queue ≠ IPU3_CSS_QUEUE_IN → (imgu.queues queue).dmap.vaddr ≠ none →
      b < IMGU_MAX_QUEUE_DEPTH →
      ((imgu.queues queue).dummybufs b).state ≠ IPU3_CSS_BUFFER_QUEUED →
      (∀ j, j < b → ((imgu.queues queue).dummybufs j).state = IPU3_CSS_BUFFER_QUEUED) →
      (imgu_dummybufs_get imgu queue).1 = some (.dummy queue b) ∧
      css_buf_at (imgu_dummybufs_get imgu queue).2 (.dummy queue b) =
        { state := IPU3_CSS_BUFFER_NEW, queue := queue,
          daddr := (imgu.queues queue).dmap.daddr } ∧
      (∀ j, j ≠ b → (((imgu_dummybufs_get imgu queue).2).queues queue).dummybufs j =
        (imgu.queues queue).dummybufs j) ∧
      (((imgu_dummybufs_get imgu queue).2).queues queue).dmap = (imgu.queues queue).dmap ∧
      (∀ q, q ≠ queue → ((imgu_dummybufs_get imgu queue).2).queues q = imgu.queues q) ∧
      ((imgu_dummybufs_get imgu queue).2).nodes = imgu.nodes ∧
      ((imgu_dummybufs_get imgu queue).2).queue_enabled = imgu.queue_enabled ∧
      ((imgu_dummybufs_get imgu queue).2).css = imgu.css) := by
  have hall := for_break_all
    (fun b => decide (((imgu.queues queue).dummybufs b).state ≠ IPU3_CSS_BUFFER_QUEUED))
    IMGU_MAX_QUEUE_DEPTH
  simp only [decide_eq_false_iff_not, not_not] at hall
  refine ⟨?_, fun h => dummybufs_get_none imgu _ queue (Prod.ext h rfl), ?_⟩
  · unfold imgu_dummybufs_get
    by_cases h1 : queue = IPU3_CSS_QUEUE_IN
    · rw [if_pos h1]
      exact ⟨fun _ => Or.inl h1, fun _ => rfl⟩
    · rw [if_neg h1]
      by_cases h2 : (imgu.queues queue).dmap.vaddr = none
      · rw [if_pos h2]
        exact ⟨fun _ => Or.inr (Or.inl h2), fun _ => rfl⟩
      · rw [if_neg h2]
        dsimp only
        split
        · rename_i h3
          exact ⟨fun _ => Or.inr (Or.inr (hall.1 h3)), fun _ => rfl⟩
        · rename_i h3
          constructor
          · intro h
            cases h
          · rintro (h | h | h)
            · exact absurd h h1
            · exact absurd h h2
            · exact absurd (hall.2 h) h3
  · intro b h1 h2 hb hst hbelow
    have hfb := for_break_eq
      (fun b => decide (((imgu.queues queue).dummybufs b).state ≠ IPU3_CSS_BUFFER_QUEUED))
      IMGU_MAX_QUEUE_DEPTH b hb (by simpa using hst) (fun j hj => by simpa using hbelow j hj)
    have hget : imgu_dummybufs_get imgu queue =
        (some (.dummy queue b),
          set_dummybuf imgu queue b (ipu3_css_buf_init queue (imgu.queues queue).dmap.daddr)) := by
      unfold imgu_dummybufs_get
      rw [if_neg h1, if_neg h2]
      dsimp only
      rw [hfb, if_neg (by omega)]
    rw [hget]
    refine ⟨rfl, ?_, ?_, ?_, ?_, rfl, rfl, rfl⟩
    · simp [css_buf_at, set_dummybuf, ipu3_css_buf_init]
    · intro j hj
      simp [set_dummybuf, Function.update_noteq hj]
    · simp [set_dummybuf]
    · intro q hq
      simp [set_dummybuf, Function.update_noteq hq]

/-- C13 (as amended). `ipu3_css_dma_buffer_resize` leaves the map unchanged and returns 0 when
the requested size does not exceed the current size (it never shrinks) and also when the map
holds no allocation; when the requested size exceeds the current size of a map that holds an
allocation, the previous allocation is released first and a region of the requested size is
allocated: on success the map describes that region and 0 is returned, on failure `-ENOMEM` is
returned and the map is left with the previous allocation released. -/
theorem dma_buffer_resize_spec (region : Option (Nat × Nat)) (map : ipu3_css_map) (size : Nat) :
    (size ≤ map.size → ipu3_css_dma_buffer_resize region map size = (0, map)) ∧
    (map.vaddr = none → ipu3_css_dma_buffer_resize region map size = (0, map)) ∧
    (map.size < size → map.vaddr ≠ none →
      (∀ vaddr daddr, region = some (vaddr, daddr) →
        ipu3_css_dma_buffer_resize region map size =
          (0, { size := size, vaddr := some vaddr, daddr := daddr })) ∧
      (region = none →
        ipu3_css_dma_buffer_resize region map size = (-ENOMEM, ipu3_dmamap_free map) ∧
        ((ipu3_css_dma_buffer_resize region map size).2).vaddr = none)) := by
  refine ⟨?_, ?_, ?_⟩
  · intro h
    unfold ipu3_css_dma_buffer_resize
    rw [if_neg (by intro hc; omega)]
  · intro h
    unfold ipu3_css_dma_buffer_resize
    rw [if_neg (by intro hc; exact hc.2 h)]
  · intro h1 h2
    constructor
    · intro vaddr daddr hr
      subst hr
      unfold ipu3_css_dma_buffer_resize
      rw [if_pos ⟨h1, h2⟩]
      simp [ipu3_dmamap_alloc]
    · intro hr
      subst hr
      unfold ipu3_css_dma_buffer_resize
      rw [if_pos ⟨h1, h2⟩]
      simp [ipu3_dmamap_alloc, ipu3_dmamap_free]

/-- C13, counterexample to the claim as stated: growing an allocated map of size 100 to size
200 when the allocation fails returns `-ENOMEM` with the previous allocation gone (released
before the attempt), and for a map of size 100 without an allocation a request for size 200
returns 0 without growing anything. -/
theorem dma_buffer_resize_counterexample :
    (100 : Nat) < 200 ∧
    ipu3_css_dma_buffer_resize none { size := 100, vaddr := some 4096, daddr := 4096 } 200 =
      (-ENOMEM, { size := 100, vaddr := none, daddr := 4096 }) ∧
    (ipu3_css_dma_buffer_resize none { size := 100, vaddr := some 4096, daddr := 4096 } 200).2.vaddr
      ≠ some 4096 ∧
    ipu3_css_dma_buffer_resize (some (8192, 8192)) { size := 100, vaddr := none, daddr := 0 } 200 =
      (0, { size := 100, vaddr := none, daddr := 0 }) := by
  decide

/-! ## Slot pool: cursor range -/

theorem get_cursor (N : Nat) (pool : ipu3_css_pool) (f : Int) (hN : 0 < N) :
    (0 ≤ (ipu3_css_pool_get N pool f).1 ∧ ((ipu3_css_pool_get N pool f).2).last < N ∧
      (ipu3_css_pool_get N pool f).1 = ((((ipu3_css_pool_get N pool f).2).last : Nat) : Int)) ∨
    (¬ 0 ≤ (ipu3_css_pool_get N pool f).1 ∧ (ipu3_css_pool_get N pool f).2 = pool) := by
  by_cases h : ipu3_css_pool_diff f (pool.entry ((pool.last + 1) % N)).framenum > (N : Int)
  · left
    rw [get_of_old N pool f h]
    exact ⟨by omega, Nat.mod_lt _ hN, rfl⟩
  · right
    rw [get_of_young N pool f h]
    refine ⟨?_, rfl⟩
    show ¬ (0 : Int) ≤ -ENOSPC
    decide

theorem run_flag_cursor (N : Nat) (hN : 0 < N) :
    ∀ (cs : List pool_call) (pool p : ipu3_css_pool) (got got2 : Bool),
      pool.last ≤ N → (got = true → pool.last < N) →
      pool_run_flag N cs (pool, got) = some (p, got2) →
      p.last ≤ N ∧ (got2 = true → p.last < N) ∧ pool_run N cs pool = some p := by
  intro cs
  induction cs with
  | nil =>
    intro pool p got got2 h1 h2 h
    simp only [pool_run_flag, Option.some.injEq, Prod.mk.injEq] at h
    obtain ⟨rfl, rfl⟩ := h
    exact ⟨h1, h2, rfl⟩
  | cons c cs ih =>
    intro pool p got got2 h1 h2 h
    cases c with
    | get f =>
      simp only [pool_run_flag] at h
      simp only [pool_run]
      refine ih _ p _ got2 ?_ ?_ h
      · rcases get_cursor N pool f hN with ⟨-, hlt, -⟩ | ⟨-, heq⟩
        · omega
        · rw [heq]; exact h1
      · intro hg
        rcases get_cursor N pool f hN with ⟨-, hlt, -⟩ | ⟨hneg, heq⟩
        · exact hlt
        · rw [heq]
          apply h2
          simpa [hneg] using hg
    | put =>
      simp only [pool_run_flag] at h
      simp only [pool_run]
      cases hput : ipu3_css_pool_put N pool with
      | none => rw [hput] at h; cases h
      | some q =>
        rw [hput] at h
        simp only
        have hq : q.last < N := by
          unfold ipu3_css_pool_put at hput
          split at hput
          · simp only [Option.some.injEq] at hput
            subst hput
            exact Nat.mod_lt _ hN
          · cases hput
        exact ih q p got got2 (by omega) (fun _ => hq) h

/-- C15. Cursor range invariant of the slot pool. In every state reached from a successful
`ipu3_css_pool_init` by a sequence of `get` calls (with any frame numbers) and `put` calls, the
cursor `last` is at most the capacity, and strictly below it once a `get` has succeeded; hence
the slot index computed by `check`/`get`, and by `ipu3_css_pool_last` for `n < capacity`, is
below the capacity, the cursor a `put` stores is below the capacity, and the slot index a
`put` writes is below the capacity (the `put` stays inside the array) whenever a `get` has
succeeded since the initialisation. -/
theorem pool_cursor_range (N : Nat) (alloc : Nat → Int → Option ipu3_css_map)
    (pool0 : ipu3_css_pool) (size : Int) (cs : List pool_call) (p : ipu3_css_pool) (got : Bool)
    (hN : 0 < N) (hinit : (ipu3_css_pool_init N alloc pool0 size).1 = 0)
    (hrun : pool_run_flag N cs ((ipu3_css_pool_init N alloc pool0 size).2, false) = some (p, got)) :
    pool_run N cs (ipu3_css_pool_init N alloc pool0 size).2 = some p ∧
    p.last ≤ N ∧ (got = true → p.last < N) ∧
    (p.last + 1) % N < N ∧
    (∀ f, 0 ≤ ipu3_css_pool_check N p f →
      ipu3_css_pool_check N p f = (((p.last + 1) % N : Nat) : Int)) ∧
    (∀ f, 0 ≤ (ipu3_css_pool_get N p f).1 →
      (ipu3_css_pool_get N p f).1.toNat < N ∧ ((ipu3_css_pool_get N p f).2).last < N) ∧
    (∀ n, n < N → (p.last + N - n) % N < N) ∧
    (p.last + N - 1) % N < N ∧
    (got = true → ∃ q, ipu3_css_pool_put N p = some q ∧ q.last < N) := by
  obtain ⟨-, hlast⟩ := init_ok N alloc pool0 size hinit
  obtain ⟨h1, h2, h3⟩ := run_flag_cursor N hN cs _ p false got (by omega) (fun h => by cases h) hrun
  refine ⟨h3, h1, h2, Nat.mod_lt _ hN, ?_, ?_, fun n _ => Nat.mod_lt _ hN, Nat.mod_lt _ hN, ?_⟩
  · intro f hf
    by_cases h : ipu3_css_pool_diff f (p.entry ((p.last + 1) % N)).framenum > (N : Int)
    · exact check_of_old N p f h
    · rw [check_of_young N p f h] at hf
      exact absurd hf (by decide)
  · intro f hf
    rcases get_cursor N p f hN with ⟨-, hlt, heq⟩ | ⟨hneg, -⟩
    · rw [heq]
      exact ⟨by omega, hlt⟩
    · exact absurd hf hneg
  · intro hg
    obtain ⟨q, hq, hl, -⟩ := put_step N p (h2 hg)
    exact ⟨q, hq, by rw [hl]; exact Nat.mod_lt _ hN⟩

/-- C15, witness: capacity 4, the calls `get(10)`, `get(11)`, `put`, `get(12)`. -/
theorem pool_cursor_range_witness :
    ∃ (p : ipu3_css_pool) (got : Bool),
      (ipu3_css_pool_init 4 (fun _ _ => none) blank_pool 0).1 = 0 ∧
      pool_run_flag 4 [.get 10, .get 11, .put, .get 12]
        ((ipu3_css_pool_init 4 (fun _ _ => none) blank_pool 0).2, false) = some (p, got) ∧
      got = true ∧ p.last = 2 ∧
      (pool_run 4 [.get 10, .get 11, .put, .get 12]
          (ipu3_css_pool_init 4 (fun _ _ => none) blank_pool 0).2 = some p ∧
       p.last ≤ 4 ∧ (got = true → p.last < 4) ∧
       (p.last + 1) % 4 < 4 ∧
       (∀ f, 0 ≤ ipu3_css_pool_check 4 p f →
         ipu3_css_pool_check 4 p f = (((p.last + 1) % 4 : Nat) : Int)) ∧
       (∀ f, 0 ≤ (ipu3_css_pool_get 4 p f).1 →
         (ipu3_css_pool_get 4 p f).1.toNat < 4 ∧ ((ipu3_css_pool_get 4 p f).2).last < 4) ∧
       (∀ n, n < 4 → (p.last + 4 - n) % 4 < 4) ∧
       (p.last + 4 - 1) % 4 < 4 ∧
       (got = true → ∃ q, ipu3_css_pool_put 4 p = some q ∧ q.last < 4)) :=
  ⟨_, _, by decide, rfl, rfl, rfl,
    pool_cursor_range 4 (fun _ _ => none) blank_pool 0 [.get 10, .get 11, .put, .get 12] _ _
      (by decide) (by decide) rfl⟩

/-! ## Termination of the dispatcher loop -/

theorem set_dummybuf_nodes (imgu : imgu_device) (queue b : Nat) (v : ipu3_css_buffer) :
    (set_dummybuf imgu queue b v).nodes = imgu.nodes := rfl

theorem set_dummybuf_queue_enabled (imgu : imgu_device) (queue b : Nat) (v : ipu3_css_buffer) :
    (set_dummybuf imgu queue b v).queue_enabled = imgu.queue_enabled := rfl

theorem set_dummybuf_css (imgu : imgu_device) (queue b : Nat) (v : ipu3_css_buffer) :
    (set_dummybuf imgu queue b v).css = imgu.css := rfl

theorem set_dummybuf_queues_ne (imgu : imgu_device) (queue b q : Nat) (v : ipu3_css_buffer)
    (h : q ≠ queue) : (set_dummybuf imgu queue b v).queues q = imgu.queues q := by
  simp [set_dummybuf, Function.update_noteq h]

theorem set_dummybuf_dmap (imgu : imgu_device) (queue b q : Nat) (v : ipu3_css_buffer) :
    ((set_dummybuf imgu queue b v).queues q).dmap = (imgu.queues q).dmap := by
  by_cases h : q = queue
  · subst h; simp [set_dummybuf]
  · rw [set_dummybuf_queues_ne _ _ _ _ _ h]

theorem set_dummybuf_same (imgu : imgu_device) (queue b : Nat) (v : ipu3_css_buffer) :
    ((set_dummybuf imgu queue b v).queues queue).dummybufs b = v := by
  simp [set_dummybuf]

theorem set_dummybuf_other (imgu : imgu_device) (queue b j : Nat) (v : ipu3_css_buffer)
    (h : j ≠ b) :
    ((set_dummybuf imgu queue b v).queues queue).dummybufs j = (imgu.queues queue).dummybufs j := by
  simp [set_dummybuf, Function.update_noteq h]

theorem set_buf_state_queue_enabled (imgu : imgu_device) (st : ipu3_css_buffer_state)
    (p : buf_ptr) : (set_buf_state imgu st p).queue_enabled = imgu.queue_enabled := by
  cases p <;> rfl

theorem set_buf_state_css (imgu : imgu_device) (st : ipu3_css_buffer_state) (p : buf_ptr) :
    (set_buf_state imgu st p).css = imgu.css := by
  cases p <;> rfl

theorem set_buf_state_dummy_nodes (imgu : imgu_device) (st : ipu3_css_buffer_state)
    (q b : Nat) : (set_buf_state imgu st (.dummy q b)).nodes = imgu.nodes := rfl

theorem set_buf_state_user_queues (imgu : imgu_device) (st : ipu3_css_buffer_state)
    (n k : Nat) : (set_buf_state imgu st (.user n k)).queues = imgu.queues := rfl

theorem set_buf_state_user_nodes_ne (imgu : imgu_device) (st : ipu3_css_buffer_state)
    (n k m : Nat) (h : m ≠ n) : (set_buf_state imgu st (.user n k)).nodes m = imgu.nodes m := by
  simp [set_buf_state, set_imgu_buffer, Function.update_noteq h]

theorem set_buf_state_user_buffers (imgu : imgu_device) (st : ipu3_css_buffer_state)
    (n k : Nat) :
    ((set_buf_state imgu st (.user n k)).nodes n).buffers =
      (imgu.nodes n).buffers.set k
        { css_buf := { state := st,
                       queue := ((imgu.nodes n).buffers.getD k default).css_buf.queue,
                       daddr := ((imgu.nodes n).buffers.getD k default).css_buf.daddr },
          index := ((imgu.nodes n).buffers.getD k default).index,
          meta_capture := ((imgu.nodes n).buffers.getD k default).meta_capture,
          payload := ((imgu.nodes n).buffers.getD k default).payload,
          timestamp := ((imgu.nodes n).buffers.getD k default).timestamp,
          sequence := ((imgu.nodes n).buffers.getD k default).sequence } := by
  simp [set_buf_state, set_imgu_buffer]

theorem set_buf_state_enabled (imgu : imgu_device) (st : ipu3_css_buffer_state) (p : buf_ptr)
    (m : Nat) : ((set_buf_state imgu st p).nodes m).enabled = (imgu.nodes m).enabled := by
  cases p with
  | dummy q b => rfl
  | user n k =>
    by_cases h : m = n
    · subst h; simp [set_buf_state, set_imgu_buffer]
    · rw [set_buf_state_user_nodes_ne _ _ _ _ _ h]

theorem count_new_set (v : imgu_buffer) (hv : v.css_buf.state ≠ IPU3_CSS_BUFFER_NEW) :
    ∀ (l : List imgu_buffer) (k : Nat), first_new_buffer l = some k →
      count_new (l.set k v) + 1 = count_new l := by
  intro l
  induction l with
  | nil =>
    intro k h
    simp [first_new_buffer] at h
  | cons b l ih =>
    intro k h
    by_cases hb : b.css_buf.state = IPU3_CSS_BUFFER_NEW
    · simp only [first_new_buffer, if_pos hb, Option.some.injEq] at h
      subst h
      simp only [List.set_cons_zero, count_new, if_pos hb, if_neg hv]
      omega
    · simp only [first_new_buffer, if_neg hb, Option.map_eq_some'] at h
      obtain ⟨k1, hk1, rfl⟩ := h
      simp only [List.set_cons_succ, count_new, if_neg hb]
      have := ih k1 hk1
      omega

theorem count_new_pos (l : List imgu_buffer) (k : Nat) (h : first_new_buffer l = some k) :
    1 ≤ count_new l := by
  have := count_new_set (sample_buffer 0 0 IPU3_CSS_BUFFER_QUEUED) (by decide) l k h
  omega

theorem new_inputs_pos (imgu : imgu_device) (h : input_ready imgu = true) :
    1 ≤ new_inputs imgu := by
  cases hk : first_new_buffer (imgu.nodes IMGU_NODE_IN).buffers with
  | none =>
    have hnone : (imgu_queue_getbuf imgu IMGU_NODE_IN).1 = none := by
      rw [getbuf_in, hk]; rfl
    rw [(getbuf_in_none_iff imgu).1 hnone] at h
    cases h
  | some k => exact count_new_pos _ k hk

theorem getbuf_some_forms (imgu imgu1 : imgu_device) (node : Nat) (b : buf_ptr)
    (h : imgu_queue_getbuf imgu node = (some b, imgu1)) :
    (∃ k, b = .user node k ∧ imgu1 = imgu ∧
      first_new_buffer (imgu.nodes node).buffers = some k) ∨
    (∃ j, b = .dummy (imgu_node_to_queue node) j ∧
      imgu1 = set_dummybuf imgu (imgu_node_to_queue node) j
        (ipu3_css_buf_init (imgu_node_to_queue node)
          (imgu.queues (imgu_node_to_queue node)).dmap.daddr) ∧
      first_new_buffer (imgu.nodes node).buffers = none) := by
  unfold imgu_queue_getbuf at h
  cases hk : first_new_buffer (imgu.nodes node).buffers with
  | some k =>
    rw [hk] at h
    simp only [Prod.mk.injEq, Option.some.injEq] at h
    exact Or.inl ⟨k, h.1.symm, h.2.symm, rfl⟩
  | none =>
    rw [hk] at h
    right
    simp only at h
    unfold imgu_dummybufs_get at h
    by_cases h1 : imgu_node_to_queue node = IPU3_CSS_QUEUE_IN
    · rw [if_pos h1] at h
      exact absurd (Prod.mk.inj h).1 (by simp)
    · rw [if_neg h1] at h
      by_cases h2 : (imgu.queues (imgu_node_to_queue node)).dmap.vaddr = none
      · rw [if_pos h2] at h
        exact absurd (Prod.mk.inj h).1 (by simp)
      · rw [if_neg h2] at h
        dsimp only at h
        split_ifs at h
        · exact absurd (Prod.mk.inj h).1 (by simp)
        · simp only [Prod.mk.injEq, Option.some.injEq] at h
          exact ⟨_, h.1.symm, h.2.symm, rfl⟩

theorem iter_enabled (env : css_env) (imgu : imgu_device) (node : Nat) (r : Int) (ready : Bool)
    (hen : imgu.queue_enabled node = true)
    (hvf : ¬ (node = IMGU_NODE_VF ∧
      (imgu.css.pipe_id = IPU3_CSS_PIPE_ID_CAPTURE ∨ ¬ (imgu.nodes IMGU_NODE_VF).enabled)))
    (hpv : ¬ (node = IMGU_NODE_PV ∧
      (imgu.css.pipe_id = IPU3_CSS_PIPE_ID_VIDEO ∨ ¬ (imgu.nodes IMGU_NODE_PV).enabled))) :
    ((imgu_queue_getbuf imgu node).1 = none →
      (imgu_queue_iter env imgu node r ready).continues = false ∧
      (imgu_queue_iter env imgu node r ready).events = [] ∧
      (imgu_queue_iter env imgu node r ready).r = r) ∧
    (∀ b imgu1, imgu_queue_getbuf imgu node = (some b, imgu1) →
      (imgu_queue_iter env imgu node r ready).events =
        [.css_buf_queue node b (env.ipu3_css_buf_queue imgu1 b).1 ready] ∧
      (imgu_queue_iter env imgu node r ready).r = (env.ipu3_css_buf_queue imgu1 b).1 ∧
      (imgu_queue_iter env imgu node r ready).imgu = (env.ipu3_css_buf_queue imgu1 b).2 ∧
      ((imgu_queue_iter env imgu node r ready).continues = true ↔
        ((env.ipu3_css_buf_queue imgu1 b).1 = 0 ∧
         ¬ (node = IMGU_NODE_IN ∧
            (imgu_queue_getbuf (env.ipu3_css_buf_queue imgu1 b).2 IMGU_NODE_IN).1 = none)))) := by
  constructor
  · intro hnone
    rcases hgb : imgu_queue_getbuf imgu node with ⟨ob, imgu1⟩
    rw [hgb] at hnone
    simp only at hnone
    subst hnone
    unfold imgu_queue_iter
    rw [if_neg hvf, if_neg hpv, if_pos hen, hgb]
    exact ⟨rfl, rfl, rfl⟩
  · intro b imgu1 hgb
    unfold imgu_queue_iter
    rw [if_neg hvf, if_neg hpv, if_pos hen, hgb]
    dsimp only
    split
    · rename_i h1
      refine ⟨rfl, rfl, rfl, ?_⟩
      constructor
      · intro h; cases h
      · intro h; exact absurd h.1 h1
    · rename_i h1
      split
      · rename_i h2
        refine ⟨rfl, rfl, rfl, ?_⟩
        constructor
        · intro h; cases h
        · intro h; exact absurd h2 h.2
      · rename_i h2
        exact ⟨rfl, rfl, rfl, fun _ => ⟨by simpa using h1, h2⟩, fun _ => rfl⟩

theorem input_submissions_append (l1 l2 : List imgu_event) :
    input_submissions (l1 ++ l2) = input_submissions l1 + input_submissions l2 := by
  induction l1 with
  | nil => simp [input_submissions]
  | cons e l ih =>
    cases e with
    | css_buf_queue n b r rd =>
      simp only [List.cons_append, input_submissions, List.append_eq, ih]
      omega
    | buffer_done p st => simp only [List.cons_append, input_submissions, List.append_eq, ih]
    | wake_up_all => simp only [List.cons_append, input_submissions, List.append_eq, ih]

theorem iter_measure (env : css_env) (imgu : imgu_device) (node : Nat) (r : Int) (ready : Bool)
    (hq : submission_queues env) (hen : imgu.queue_enabled IMGU_NODE_IN = true) :
    input_submissions (imgu_queue_iter env imgu node r ready).events ≤
      (if node = IMGU_NODE_IN then 1 else 0) ∧
    (input_submissions (imgu_queue_iter env imgu node r ready).events = 1 →
      1 ≤ new_inputs imgu) ∧
    ((imgu_queue_iter env imgu node r ready).continues = true →
      ((imgu_queue_iter env imgu node r ready).imgu).queue_enabled = imgu.queue_enabled ∧
      (node ≠ IMGU_NODE_IN →
        new_inputs (imgu_queue_iter env imgu node r ready).imgu = new_inputs imgu) ∧
      (node = IMGU_NODE_IN →
        input_submissions (imgu_queue_iter env imgu node r ready).events = 1 ∧
        new_inputs (imgu_queue_iter env imgu node r ready).imgu + 1 = new_inputs imgu ∧
        1 ≤ new_inputs (imgu_queue_iter env imgu node r ready).imgu)) := by
  obtain ⟨hready, hspec⟩ := iter_spec env imgu node r ready
  rcases hspec with ⟨hnil, hr, himgu⟩ | ⟨b, imgu1, hgb, hqen, hev, hr, himgu, hbrk⟩
  · rw [hnil, himgu]
    refine ⟨by simp [input_submissions], by simp [input_submissions], ?_⟩
    intro hc
    refine ⟨rfl, fun _ => rfl, ?_⟩
    intro hn
    subst hn
    have hvf : ¬ (IMGU_NODE_IN = IMGU_NODE_VF ∧
        (imgu.css.pipe_id = IPU3_CSS_PIPE_ID_CAPTURE ∨ ¬ (imgu.nodes IMGU_NODE_VF).enabled)) :=
      fun h => absurd h.1 (by decide)
    have hpv : ¬ (IMGU_NODE_IN = IMGU_NODE_PV ∧
        (imgu.css.pipe_id = IPU3_CSS_PIPE_ID_VIDEO ∨ ¬ (imgu.nodes IMGU_NODE_PV).enabled)) :=
      fun h => absurd h.1 (by decide)
    obtain ⟨hnone, hsome⟩ := iter_enabled env imgu IMGU_NODE_IN r ready hen hvf hpv
    rcases hgb : imgu_queue_getbuf imgu IMGU_NODE_IN with ⟨ob, imgu1⟩
    cases ob with
    | none =>
      rw [(hnone (by rw [hgb])).1] at hc
      cases hc
    | some b =>
      rw [(hsome b imgu1 hgb).1] at hnil
      cases hnil
  · have hcount : input_submissions (imgu_queue_iter env imgu node r ready).events =
        (if node = IMGU_NODE_IN then 1 else 0) := by
      rw [hev]
      simp [input_submissions]
    have hforms := getbuf_some_forms imgu imgu1 node b hgb
    refine ⟨by rw [hcount], ?_, ?_⟩
    · intro h1
      rw [hcount] at h1
      have hn : node = IMGU_NODE_IN := by
        by_contra hc
        rw [if_neg hc] at h1
        cases h1
      subst hn
      rcases hforms with ⟨k, -, -, hk⟩ | ⟨j, -, -, hk⟩
      · exact count_new_pos _ k hk
      · obtain ⟨k, hk2⟩ := getbuf_in_some _ _ _ hgb
        rw [getbuf_in, hk] at hgb
        simp at hgb
    · intro hc
      have hr0 : (env.ipu3_css_buf_queue imgu1 b).1 = 0 := by
        by_contra hne
        rw [hbrk (by rw [hr]; exact hne)] at hc
        cases hc
      have hst := hq imgu1 b hr0
      rw [himgu, hst]
      refine ⟨?_, ?_, ?_⟩
      · rw [set_buf_state_queue_enabled]
        rcases hforms with ⟨k, -, h1, -⟩ | ⟨j, -, h1, -⟩
        · rw [h1]
        · rw [h1]; rfl
      · intro hn
        unfold new_inputs
        rcases hforms with ⟨k, hb, h1, -⟩ | ⟨j, hb, h1, -⟩
        · rw [hb, h1, set_buf_state_user_nodes_ne _ _ _ _ _ (fun h => hn h.symm)]
        · rw [hb, h1, set_buf_state_dummy_nodes, set_dummybuf_nodes]
      · intro hn
        subst hn
        rw [if_pos rfl] at hcount
        refine ⟨hcount, ?_⟩
        have hin : input_ready (set_buf_state imgu1 IPU3_CSS_BUFFER_QUEUED b) = true := by
          have := (hready hc).2 rfl
          rw [himgu, hst] at this
          exact this
        refine ⟨?_, new_inputs_pos _ hin⟩
        rcases hforms with ⟨k, hb, h1, hk⟩ | ⟨j, hb, h1, hk⟩
        · rw [hb, h1]
          unfold new_inputs
          rw [set_buf_state_user_buffers]
          exact count_new_set _ (by simp) _ k hk
        · rw [getbuf_in, hk] at hgb
          simp at hgb

theorem loop_terminates (env : css_env) (hq : submission_queues env) :
    ∀ (fuel : Nat) (imgu : imgu_device) (node : Nat) (r : Int) (ready : Bool),
      node < IMGU_NODE_NUM → imgu.queue_enabled IMGU_NODE_IN = true →
      input_submissions (imgu_queue_loop env fuel imgu node r ready).trace ≤ new_inputs imgu ∧
      ((if node = IMGU_NODE_IN then 1 else IMGU_NODE_NUM + 1 - node) +
          IMGU_NODE_NUM * (new_inputs imgu - 1) ≤ fuel →
        (imgu_queue_loop env fuel imgu node r ready).finished = true) := by
  intro fuel
  induction fuel with
  | zero =>
    intro imgu node r ready hnode hen
    simp only [imgu_queue_loop, input_submissions]
    refine ⟨Nat.zero_le _, ?_⟩
    intro h
    simp only [IMGU_NODE_NUM, IMGU_NODE_IN] at h hnode
    split at h <;> omega
  | succ fuel ih =>
    intro imgu node r ready hnode hen
    obtain ⟨hcnt, hone, hcont⟩ := iter_measure env imgu node r ready hq hen
    simp only [imgu_queue_loop]
    by_cases hc : (imgu_queue_iter env imgu node r ready).continues = true
    · rw [if_pos hc]
      obtain ⟨hqe, hother, hin⟩ := hcont hc
      have hnext : (node + 1) % IMGU_NODE_NUM < IMGU_NODE_NUM :=
        Nat.mod_lt _ (by decide)
      obtain ⟨ih1, ih2⟩ := ih (imgu_queue_iter env imgu node r ready).imgu
        ((node + 1) % IMGU_NODE_NUM) (imgu_queue_iter env imgu node r ready).r
        (imgu_queue_iter env imgu node r ready).ready hnext (by rw [hqe]; exact hen)
      simp only [queue_result.after, input_submissions_append]
      by_cases hn : node = IMGU_NODE_IN
      · obtain ⟨h1, h2, h3⟩ := hin hn
        refine ⟨by omega, ?_⟩
        intro hfuel
        apply ih2
        rw [if_pos hn] at hfuel
        rw [hn, show (IMGU_NODE_IN + 1) % IMGU_NODE_NUM = 1 from rfl,
          if_neg (show ¬ (1 = IMGU_NODE_IN) from by decide)]
        subst hn
        generalize new_inputs (imgu_queue_iter env imgu IMGU_NODE_IN r ready).imgu = n1 at h2 h3 ⊢
        generalize new_inputs imgu = n0 at h2 hfuel
        rw [show IMGU_NODE_NUM = 7 from rfl] at hfuel ⊢
        omega
      · have h1 := hother hn
        rw [if_neg hn] at hcnt
        refine ⟨by omega, ?_⟩
        intro hfuel
        apply ih2
        rw [h1]
        simp only [IMGU_NODE_NUM, IMGU_NODE_IN] at hfuel hnode hn ⊢
        rw [if_neg hn] at hfuel
        split <;> omega
    · rw [if_neg hc]
      refine ⟨?_, fun _ => rfl⟩
      show input_submissions (imgu_queue_iter env imgu node r ready).events ≤ new_inputs imgu
      split at hcnt
      · rcases Nat.eq_zero_or_pos
          (input_submissions (imgu_queue_iter env imgu node r ready).events) with h0 | h0
        · omega
        · have := hone (by omega)
          omega
      · omega

theorem sample_env_queues : submission_queues (sample_env [] 0) := by
  intro imgu buf _
  simp [sample_env]

/-- C16. The dispatcher loop terminates. For every device whose input node is enabled for
dispatching (`queue_enabled[IMGU_NODE_IN]`) and holds `n` caller buffers in state NEW, and under
the assumption that a successful hardware submission moves the submitted buffer to QUEUED:
`IMGU_NODE_NUM * n` iterations of the loop, i.e. `n` full cycles through the nodes, suffice for
the loop of `imgu_queue_buffers` to exit and for the function to return; and in any run, however
long, at most `n` cycles reach their end, each submitting one NEW input buffer. -/
theorem queue_loop_terminates (env : css_env) (imgu : imgu_device) (initial : Bool) (fuel : Nat)
    (hq : submission_queues env) (hen : imgu.queue_enabled IMGU_NODE_IN = true)
    (hfuel : IMGU_NODE_NUM * new_inputs imgu ≤ fuel) :
    (imgu_queue_buffers env fuel imgu initial).finished = true ∧
    (input_ready imgu = true → (imgu_queue_cycles env fuel imgu).finished = true) ∧
    (∀ more, input_submissions (imgu_queue_cycles env more imgu).trace ≤ new_inputs imgu) := by
  have hcycles : input_ready imgu = true → (imgu_queue_cycles env fuel imgu).finished = true := by
    intro hin
    have hpos := new_inputs_pos imgu hin
    apply (loop_terminates env hq fuel imgu (IMGU_NODE_IN + 1) 0 (input_ready imgu)
      (by decide) hen).2
    rw [if_neg (show ¬ (IMGU_NODE_IN + 1 = IMGU_NODE_IN) from by decide)]
    generalize new_inputs imgu = n0 at hfuel hpos
    rw [show IMGU_NODE_NUM = 7 from rfl] at hfuel ⊢
    rw [show IMGU_NODE_IN = 0 from rfl]
    omega
  refine ⟨?_, hcycles, fun more =>
    (loop_terminates env hq more imgu (IMGU_NODE_IN + 1) 0 (input_ready imgu) (by decide) hen).1⟩
  by_cases hs : imgu.css.streaming = true
  · by_cases hin : input_ready imgu = true
    · rw [queue_buffers_running env fuel imgu initial hs hin,
        if_neg (by simpa using hcycles hin)]
      split
      · split
        · exact hcycles hin
        · rfl
      · rfl
    · rw [queue_buffers_idle env fuel imgu initial (Or.inr (by simpa using hin))]
  · rw [queue_buffers_idle env fuel imgu initial (Or.inl (by simpa using hs))]

/-- C16, witness: the sample device (one NEW input buffer) with the hardware that accepts
every submission, and 7 iterations. -/
theorem queue_loop_terminates_witness :
    submission_queues (sample_env [] 0) ∧ sample_dev.queue_enabled IMGU_NODE_IN = true ∧
    IMGU_NODE_NUM * new_inputs sample_dev ≤ 7 ∧ new_inputs sample_dev = 1 ∧
    ((imgu_queue_buffers (sample_env [] 0) 7 sample_dev false).finished = true ∧
     (input_ready sample_dev = true →
       (imgu_queue_cycles (sample_env [] 0) 7 sample_dev).finished = true) ∧
     (∀ more, input_submissions (imgu_queue_cycles (sample_env [] 0) more sample_dev).trace
       ≤ new_inputs sample_dev)) :=
  ⟨sample_env_queues, by decide, by decide, by decide,
    queue_loop_terminates (sample_env [] 0) sample_dev false 7 sample_env_queues (by decide)
      (by decide)⟩

/-! ## Stream start: claims -/

/-- C14, what the code does: on every stream start (`enable` non-zero), whatever the outcome
of the steps, `imgu_s_stream` makes none of the two calls of `imgu_powerdown`
(`ipu3_mmu_suspend`, `ipu3_css_set_powerdown`); in particular, when the format push, the
runtime power request and `imgu_powerup` succeed and `ipu3_css_start_streaming` fails with `r`,
the function returns `r` after `pm_runtime_put` alone, with the hardware powered up and the
address-space mappings restored (`ipu3_mmu_resume`) and never powered down again. -/
theorem stream_start_no_powerdown (env : stream_env) (fuel : Nat) (imgu : imgu_device)
    (enable : Int) (hen : enable ≠ 0) :
    stream_event.mmu_suspend ∉ (imgu_s_stream env fuel imgu enable).trace ∧
    stream_event.css_set_powerdown ∉ (imgu_s_stream env fuel imgu enable).trace ∧
    ((env.ipu3_css_fmt_set (set_queue_enabled imgu (stream_queue_enabled imgu))
        (stream_fmts (set_queue_enabled imgu (stream_queue_enabled imgu)))
        (stream_vf_output_en (set_queue_enabled imgu (stream_queue_enabled imgu)))).1 = 0 →
      0 ≤ env.pm_runtime_get_sync
        (env.ipu3_css_fmt_set (set_queue_enabled imgu (stream_queue_enabled imgu))
          (stream_fmts (set_queue_enabled imgu (stream_queue_enabled imgu)))
          (stream_vf_output_en (set_queue_enabled imgu (stream_queue_enabled imgu)))).2 →
      env.ipu3_css_set_powerup
        (env.ipu3_css_fmt_set (set_queue_enabled imgu (stream_queue_enabled imgu))
          (stream_fmts (set_queue_enabled imgu (stream_queue_enabled imgu)))
          (stream_vf_output_en (set_queue_enabled imgu (stream_queue_enabled imgu)))).2 = 0 →
      (env.ipu3_css_start_streaming
        (env.ipu3_css_fmt_set (set_queue_enabled imgu (stream_queue_enabled imgu))
          (stream_fmts (set_queue_enabled imgu (stream_queue_enabled imgu)))
          (stream_vf_output_en (set_queue_enabled imgu (stream_queue_enabled imgu)))).2).1 ≠ 0 →
      (imgu_s_stream env fuel imgu enable).r =
        (env.ipu3_css_start_streaming
          (env.ipu3_css_fmt_set (set_queue_enabled imgu (stream_queue_enabled imgu))
            (stream_fmts (set_queue_enabled imgu (stream_queue_enabled imgu)))
            (stream_vf_output_en (set_queue_enabled imgu (stream_queue_enabled imgu)))).2).1 ∧
      (imgu_s_stream env fuel imgu enable).finished = true ∧
      stream_event.mmu_resume ∈ (imgu_s_stream env fuel imgu enable).trace ∧
      (imgu_s_stream env fuel imgu enable).trace.getLast? = some .pm_runtime_put ∧
      (imgu_s_stream env fuel imgu enable).trace.length = 6) := by
  have hshape : ∀ e, e ∈ (imgu_s_stream env fuel imgu enable).trace →
      e ≠ .mmu_suspend ∧ e ≠ .css_set_powerdown := by
    intro e he
    unfold imgu_s_stream at he
    rw [if_neg hen] at he
    dsimp only at he
    unfold imgu_powerup at he
    dsimp only at he
    split_ifs at he <;>
      simp only [List.mem_append, List.mem_cons, List.mem_singleton, List.not_mem_nil,
        or_false, false_or] at he <;>
      (constructor <;> intro hc <;> subst hc <;> simp only [reduceCtorEq, or_self] at he)
  refine ⟨fun h => (hshape _ h).1 rfl, fun h => (hshape _ h).2 rfl, ?_⟩
  intro h1 h2 h3 h4
  unfold imgu_s_stream
  rw [if_neg hen]
  dsimp only
  unfold imgu_powerup
  dsimp only
  generalize env.ipu3_css_fmt_set (set_queue_enabled imgu (stream_queue_enabled imgu))
    (stream_fmts (set_queue_enabled imgu (stream_queue_enabled imgu)))
    (stream_vf_output_en (set_queue_enabled imgu (stream_queue_enabled imgu))) = f at h1 h2 h3 h4 ⊢
  generalize env.ipu3_css_start_streaming f.2 = st at h4 ⊢
  have hg : ¬ env.pm_runtime_get_sync f.2 < 0 := by omega
  simp only [h1, h3, hg, h4, ne_eq, not_true_eq_false, not_false_eq_true, if_true, if_false]
  refine ⟨trivial, trivial, ?_, ?_, ?_⟩
  · simp only [List.mem_append, List.mem_cons, List.mem_singleton, true_or, or_true]
  · simp
  · simp

/-- C14, witness: the stream start of the sample device on a platform whose pipeline start
fails with -5: the start returns -5 after the hardware was powered up and the mappings
restored, and neither `ipu3_mmu_suspend` nor `ipu3_css_set_powerdown` is called. -/
theorem stream_start_no_powerdown_witness :
    (1 : Int) ≠ 0 ∧
    (imgu_s_stream (sample_stream_env (sample_env [] 0) 0 0 0 (-5) true) 20
      sample_start_dev 1).r = -5 ∧
    stream_event.mmu_resume ∈
      (imgu_s_stream (sample_stream_env (sample_env [] 0) 0 0 0 (-5) true) 20
        sample_start_dev 1).trace ∧
    stream_event.mmu_suspend ∉
      (imgu_s_stream (sample_stream_env (sample_env [] 0) 0 0 0 (-5) true) 20
        sample_start_dev 1).trace ∧
    stream_event.css_set_powerdown ∉
      (imgu_s_stream (sample_stream_env (sample_env [] 0) 0 0 0 (-5) true) 20
        sample_start_dev 1).trace := by
  have h := stream_start_no_powerdown (sample_stream_env (sample_env [] 0) 0 0 0 (-5) true) 20
    sample_start_dev 1 (by decide)
  have h2 := h.2.2 rfl (by decide) rfl (by decide)
  exact ⟨by decide, h2.1, h2.2.2.1, h.1, h.2.1⟩

/-! ## Stream start with only the input and output nodes in use -/

theorem resize_ok (region : Option (Nat × Nat)) (map : ipu3_css_map) (size : Nat)
    (h : region ≠ none) :
    (ipu3_css_dma_buffer_resize region map size).1 = 0 ∧
    (map.vaddr ≠ none → (ipu3_css_dma_buffer_resize region map size).2.vaddr ≠ none) := by
  unfold ipu3_css_dma_buffer_resize
  cases region with
  | none => exact absurd rfl h
  | some p =>
    obtain ⟨v, d⟩ := p
    split
    · simp [ipu3_dmamap_alloc]
    · exact ⟨rfl, id⟩

theorem set_dummybufs_queues_ne (imgu : imgu_device) (i q : Nat) (m : ipu3_css_map)
    (bufs : Nat → ipu3_css_buffer) (h : q ≠ i) :
    ((set_dummybufs (set_dmap imgu i m) i bufs).queues q) = imgu.queues q := by
  simp [set_dummybufs, set_dmap, Function.update_noteq h]

theorem set_dummybufs_queues_same (imgu : imgu_device) (i : Nat) (m : ipu3_css_map)
    (bufs : Nat → ipu3_css_buffer) :
    ((set_dummybufs (set_dmap imgu i m) i bufs).queues i) = { dmap := m, dummybufs := bufs } := by
  simp [set_dummybufs, set_dmap]

theorem fill_from_ok (region : Nat → Nat → Option (Nat × Nat))
    (hreg : ∀ i size, region i size ≠ none) :
    ∀ (rem i : Nat) (imgu : imgu_device),
      (imgu_dummybufs_fill_from region rem i imgu).1 = 0 ∧
      (imgu_dummybufs_fill_from region rem i imgu).2.nodes = imgu.nodes ∧
      (imgu_dummybufs_fill_from region rem i imgu).2.queue_enabled = imgu.queue_enabled ∧
      (imgu_dummybufs_fill_from region rem i imgu).2.css = imgu.css ∧
      (∀ q, q < i → (imgu_dummybufs_fill_from region rem i imgu).2.queues q = imgu.queues q) ∧
      (∀ q, (imgu.queues q).dmap.vaddr ≠ none →
        ((imgu_dummybufs_fill_from region rem i imgu).2.queues q).dmap.vaddr ≠ none) ∧
      (∀ q, i ≤ q → q < i + rem → imgu.queue_enabled (imgu_map_node imgu q).toNat = true →
        q ≠ IMGU_QUEUE_MASTER → q ≠ IPU3_CSS_QUEUE_VF →
        ∀ j, j < IMGU_MAX_QUEUE_DEPTH →
          ((imgu_dummybufs_fill_from region rem i imgu).2.queues q).dummybufs j =
            ipu3_css_buf_init q
              ((imgu_dummybufs_fill_from region rem i imgu).2.queues q).dmap.daddr) := by
  intro rem
  induction rem with
  | zero =>
    intro i imgu
    exact ⟨rfl, rfl, rfl, rfl, fun _ _ => rfl, fun _ h => h, fun q h1 h2 => by omega⟩
  | succ rem ih =>
    intro i imgu
    unfold imgu_dummybufs_fill_from
    dsimp only
    by_cases hc1 : ¬ imgu.queue_enabled (imgu_map_node imgu i).toNat = true ∨ i = IMGU_QUEUE_MASTER
    · rw [if_pos hc1]
      obtain ⟨h1, h2, h3, h4, h5, h6, h7⟩ := ih (i + 1) imgu
      refine ⟨h1, h2, h3, h4, fun q hq => h5 q (by omega), h6, ?_⟩
      intro q hq1 hq2 hen hm hv
      have : q ≠ i := by
        intro hqi
        subst hqi
        rcases hc1 with hc | hc
        · exact hc hen
        · exact hm hc
      exact h7 q (by omega) (by omega) hen hm hv
    · rw [if_neg hc1]
      by_cases hc2 : ¬ (imgu.nodes IMGU_NODE_VF).enabled = true ∧
          ¬ (imgu.nodes IMGU_NODE_PV).enabled = true ∧ i = IPU3_CSS_QUEUE_VF
      · rw [if_pos hc2]
        obtain ⟨h1, h2, h3, h4, h5, h6, h7⟩ := ih (i + 1) imgu
        refine ⟨h1, h2, h3, h4, fun q hq => h5 q (by omega), h6, ?_⟩
        intro q hq1 hq2 hen hm hv
        have : q ≠ i := by
          intro hqi
          subst hqi
          exact hv hc2.2.2
        exact h7 q (by omega) (by omega) hen hm hv
      · rw [if_neg hc2]
        generalize hsize : (if imgu_map_node imgu i = (IMGU_NODE_STAT_3A : Int) ∨
            imgu_map_node imgu i = (IMGU_NODE_STAT_DVS : Int) ∨
            imgu_map_node imgu i = (IMGU_NODE_PARAMS : Int) then
          (imgu.nodes (imgu_map_node imgu i).toNat).meta_buffersize
          else (imgu.nodes (imgu_map_node imgu i).toNat).sizeimage) = size
        obtain ⟨hr1, hr2⟩ := resize_ok (region i size) (imgu.queues i).dmap size (hreg i size)
        rw [if_neg (by simpa using hr1)]
        generalize hout : ipu3_css_dma_buffer_resize (region i size) (imgu.queues i).dmap size
          = out at hr1 hr2 ⊢
        generalize hbufs : (fun j => if j < IMGU_MAX_QUEUE_DEPTH then ipu3_css_buf_init i out.2.daddr
                      else (imgu.queues i).dummybufs j) = bufs
        obtain ⟨h1, h2, h3, h4, h5, h6, h7⟩ :=
          ih (i + 1) (set_dummybufs (set_dmap imgu i out.2) i bufs)
        refine ⟨h1, h2, h3, h4, ?_, ?_, ?_⟩
        · intro q hq
          rw [h5 q (by omega), set_dummybufs_queues_ne _ _ _ _ _ (by omega)]
        · intro q hq
          apply h6
          by_cases hqi : q = i
          · subst hqi
            rw [set_dummybufs_queues_same]
            exact hr2 hq
          · rw [set_dummybufs_queues_ne _ _ _ _ _ hqi]
            exact hq
        · intro q hq1 hq2 hen hm hv j hj
          by_cases hqi : q = i
          · subst hqi
            rw [h5 q (by omega), set_dummybufs_queues_same, ← hbufs]
            simp only [if_pos hj]
          · exact h7 q (by omega) (by omega) hen hm hv j hj

theorem iter_skip (env : css_env) (imgu : imgu_device) (node : Nat) (r : Int) (ready : Bool)
    (h : (node = IMGU_NODE_VF ∧ (imgu.nodes IMGU_NODE_VF).enabled = false) ∨
         (node = IMGU_NODE_PV ∧ (imgu.nodes IMGU_NODE_PV).enabled = false) ∨
         (imgu.queue_enabled node = false ∧ node ≠ IMGU_NODE_IN)) :
    imgu_queue_iter env imgu node r ready =
      { r := r, imgu := imgu, events := [], continues := true, ready := ready } := by
  unfold imgu_queue_iter
  by_cases h1 : node = IMGU_NODE_VF ∧
      (imgu.css.pipe_id = IPU3_CSS_PIPE_ID_CAPTURE ∨ ¬ (imgu.nodes IMGU_NODE_VF).enabled = true)
  · rw [if_pos h1]
  · rw [if_neg h1]
    by_cases h2 : node = IMGU_NODE_PV ∧
        (imgu.css.pipe_id = IPU3_CSS_PIPE_ID_VIDEO ∨ ¬ (imgu.nodes IMGU_NODE_PV).enabled = true)
    · rw [if_pos h2]
    · rw [if_neg h2]
      rcases h with h | h | h
      · exact absurd ⟨h.1, Or.inr (by simp [h.2])⟩ h1
      · exact absurd ⟨h.1, Or.inr (by simp [h.2])⟩ h2
      · rw [if_neg (by simp [h.1]), if_neg (fun hc => h.2 hc.1), if_neg h.2]

theorem loop_skip (env : css_env) (fuel : Nat) (imgu : imgu_device) (node : Nat) (r : Int)
    (ready : Bool)
    (h : (node = IMGU_NODE_VF ∧ (imgu.nodes IMGU_NODE_VF).enabled = false) ∨
         (node = IMGU_NODE_PV ∧ (imgu.nodes IMGU_NODE_PV).enabled = false) ∨
         (imgu.queue_enabled node = false ∧ node ≠ IMGU_NODE_IN)) :
    imgu_queue_loop env (fuel + 1) imgu node r ready =
      imgu_queue_loop env fuel imgu ((node + 1) % IMGU_NODE_NUM) r ready := by
  simp only [imgu_queue_loop]
  rw [iter_skip env imgu node r ready h]
  rfl

theorem loop_submit (env : css_env)
    (hall : ∀ (imgu : imgu_device) (buf : buf_ptr),
      env.ipu3_css_buf_queue imgu buf = (0, set_buf_state imgu IPU3_CSS_BUFFER_QUEUED buf))
    (fuel : Nat) (imgu imgu1 : imgu_device) (node : Nat) (r : Int) (ready : Bool) (b : buf_ptr)
    (hen : imgu.queue_enabled node = true)
    (hvf : node ≠ IMGU_NODE_VF) (hpv : node ≠ IMGU_NODE_PV)
    (hgb : imgu_queue_getbuf imgu node = (some b, imgu1)) :
    (node ≠ IMGU_NODE_IN →
      imgu_queue_loop env (fuel + 1) imgu node r ready =
        (imgu_queue_loop env fuel (set_buf_state imgu1 IPU3_CSS_BUFFER_QUEUED b)
          ((node + 1) % IMGU_NODE_NUM) 0 ready).after [.css_buf_queue node b 0 ready]) ∧
    ∃ rest, (imgu_queue_loop env (fuel + 1) imgu node r ready).trace =
      .css_buf_queue node b 0 ready :: rest := by
  obtain ⟨-, hsome⟩ := iter_enabled env imgu node r ready hen (fun h => hvf h.1)
    (fun h => hpv h.1)
  obtain ⟨hev, hr, himgu, hcont⟩ := hsome b imgu1 hgb
  obtain ⟨hready, -⟩ := iter_spec env imgu node r ready
  rw [hall] at hev hr himgu hcont
  simp only at hev hr himgu hcont
  constructor
  · intro hn
    have hc : (imgu_queue_iter env imgu node r ready).continues = true :=
      hcont.2 ⟨trivial, fun h => hn h.1⟩
    simp only [imgu_queue_loop]
    rw [if_pos hc, hev, hr, himgu, (hready hc).1, if_neg hn]
  · simp only [imgu_queue_loop]
    by_cases hc : (imgu_queue_iter env imgu node r ready).continues = true
    · rw [if_pos hc, hev]
      exact ⟨_, rfl⟩
    · rw [if_neg hc, hev]
      exact ⟨[], rfl⟩

theorem getbuf_user (imgu : imgu_device) (node k : Nat)
    (h : first_new_buffer (imgu.nodes node).buffers = some k) :
    imgu_queue_getbuf imgu node = (some (.user node k), imgu) := by
  unfold imgu_queue_getbuf
  rw [h]

theorem getbuf_dummy (imgu : imgu_device) (node : Nat)
    (h : first_new_buffer (imgu.nodes node).buffers = none)
    (hq : imgu_node_to_queue node ≠ IPU3_CSS_QUEUE_IN)
    (hv : (imgu.queues (imgu_node_to_queue node)).dmap.vaddr ≠ none)
    (hst : ((imgu.queues (imgu_node_to_queue node)).dummybufs 0).state ≠
      IPU3_CSS_BUFFER_QUEUED) :
    imgu_queue_getbuf imgu node =
      (some (.dummy (imgu_node_to_queue node) 0),
        set_dummybuf imgu (imgu_node_to_queue node) 0
          (ipu3_css_buf_init (imgu_node_to_queue node)
            (imgu.queues (imgu_node_to_queue node)).dmap.daddr)) := by
  unfold imgu_queue_getbuf
  rw [h]
  simp only
  unfold imgu_dummybufs_get
  rw [if_neg hq, if_neg hv]
  have hb : for_break
      (fun b => decide (((imgu.queues (imgu_node_to_queue node)).dummybufs b).state ≠
        IPU3_CSS_BUFFER_QUEUED)) IMGU_MAX_QUEUE_DEPTH 0 = 0 := by
    show for_break _ (3 + 1) 0 = 0
    simp only [for_break]
    rw [if_pos (by simpa using hst)]
  simp only [hb]
  rw [if_neg (by decide)]

theorem first_cycle (env : css_env)
    (hall : ∀ (imgu : imgu_device) (buf : buf_ptr),
      env.ipu3_css_buf_queue imgu buf = (0, set_buf_state imgu IPU3_CSS_BUFFER_QUEUED buf))
    (d : imgu_device) (ki ko fuel : Nat)
    (hq0 : d.queue_enabled IMGU_NODE_IN = true)
    (hq1 : d.queue_enabled IMGU_NODE_PARAMS = false)
    (hq2 : d.queue_enabled IMGU_NODE_OUT = true)
    (hq5 : d.queue_enabled IMGU_NODE_STAT_3A = true)
    (hq6 : d.queue_enabled IMGU_NODE_STAT_DVS = true)
    (hvf : (d.nodes IMGU_NODE_VF).enabled = false)
    (hpv : (d.nodes IMGU_NODE_PV).enabled = false)
    (hin : first_new_buffer (d.nodes IMGU_NODE_IN).buffers = some ki)
    (hout : first_new_buffer (d.nodes IMGU_NODE_OUT).buffers = some ko)
    (h5 : first_new_buffer (d.nodes IMGU_NODE_STAT_3A).buffers = none)
    (h6 : first_new_buffer (d.nodes IMGU_NODE_STAT_DVS).buffers = none)
    (ha4 : (d.queues IPU3_CSS_QUEUE_STAT_3A).dmap.vaddr ≠ none)
    (hb4 : ((d.queues IPU3_CSS_QUEUE_STAT_3A).dummybufs 0).state ≠ IPU3_CSS_BUFFER_QUEUED)
    (ha5 : (d.queues IPU3_CSS_QUEUE_STAT_DVS).dmap.vaddr ≠ none)
    (hb5 : ((d.queues IPU3_CSS_QUEUE_STAT_DVS).dummybufs 0).state ≠ IPU3_CSS_BUFFER_QUEUED)
    (ready : Bool) :
    ∃ rest, (imgu_queue_loop env (fuel + 7) d (IMGU_NODE_IN + 1) 0 ready).trace =
      [.css_buf_queue IMGU_NODE_OUT (.user IMGU_NODE_OUT ko) 0 ready,
       .css_buf_queue IMGU_NODE_STAT_3A (.dummy IPU3_CSS_QUEUE_STAT_3A 0) 0 ready,
       .css_buf_queue IMGU_NODE_STAT_DVS (.dummy IPU3_CSS_QUEUE_STAT_DVS 0) 0 ready,
       .css_buf_queue IMGU_NODE_IN (.user IMGU_NODE_IN ki) 0 ready] ++ rest := by
  -- node PARAMS: not enabled for dispatching
  rw [show fuel + 7 = (fuel + 6) + 1 from rfl,
    loop_skip env (fuel + 6) d (IMGU_NODE_IN + 1) 0 ready
      (Or.inr (Or.inr ⟨hq1, by decide⟩)),
    show (IMGU_NODE_IN + 1 + 1) % IMGU_NODE_NUM = IMGU_NODE_OUT from rfl]
  -- node OUT: the caller buffer
  rw [show fuel + 6 = (fuel + 5) + 1 from rfl,
    (loop_submit env hall (fuel + 5) d d IMGU_NODE_OUT 0 ready (.user IMGU_NODE_OUT ko) hq2
      (by decide) (by decide) (getbuf_user d IMGU_NODE_OUT ko hout)).1 (by decide),
    show (IMGU_NODE_OUT + 1) % IMGU_NODE_NUM = IMGU_NODE_VF from rfl]
  generalize hd2 : set_buf_state d IPU3_CSS_BUFFER_QUEUED (.user IMGU_NODE_OUT ko) = d2
  have e2 : ∀ m, (d2.nodes m).enabled = (d.nodes m).enabled := by
    intro m; rw [← hd2, set_buf_state_enabled]
  have q2 : d2.queue_enabled = d.queue_enabled := by
    rw [← hd2, set_buf_state_queue_enabled]
  have n2 : ∀ m, m ≠ IMGU_NODE_OUT → d2.nodes m = d.nodes m := by
    intro m hm; rw [← hd2, set_buf_state_user_nodes_ne _ _ _ _ _ hm]
  have u2 : d2.queues = d.queues := by
    rw [← hd2, set_buf_state_user_queues]
  -- nodes VF and PV: skipped
  rw [show fuel + 5 = (fuel + 4) + 1 from rfl,
    loop_skip env (fuel + 4) d2 IMGU_NODE_VF 0 ready (Or.inl ⟨rfl, by rw [e2]; exact hvf⟩),
    show (IMGU_NODE_VF + 1) % IMGU_NODE_NUM = IMGU_NODE_PV from rfl,
    show fuel + 4 = (fuel + 3) + 1 from rfl,
    loop_skip env (fuel + 3) d2 IMGU_NODE_PV 0 ready
      (Or.inr (Or.inl ⟨rfl, by rw [e2]; exact hpv⟩)),
    show (IMGU_NODE_PV + 1) % IMGU_NODE_NUM = IMGU_NODE_STAT_3A from rfl]
  -- node STAT_3A: a filler buffer
  have g5 := getbuf_dummy d2 IMGU_NODE_STAT_3A
    (by rw [n2 _ (by decide)]; exact h5) (by decide)
    (by rw [u2]; exact ha4) (by rw [u2]; exact hb4)
  rw [show imgu_node_to_queue IMGU_NODE_STAT_3A = IPU3_CSS_QUEUE_STAT_3A from rfl] at g5
  rw [show fuel + 3 = (fuel + 2) + 1 from rfl,
    (loop_submit env hall (fuel + 2) d2 _ IMGU_NODE_STAT_3A 0 ready _
      (by rw [q2]; exact hq5) (by decide) (by decide) g5).1 (by decide),
    show (IMGU_NODE_STAT_3A + 1) % IMGU_NODE_NUM = IMGU_NODE_STAT_DVS from rfl]
  generalize hd3 : set_buf_state (set_dummybuf d2 IPU3_CSS_QUEUE_STAT_3A 0
    (ipu3_css_buf_init IPU3_CSS_QUEUE_STAT_3A (d2.queues IPU3_CSS_QUEUE_STAT_3A).dmap.daddr))
    IPU3_CSS_BUFFER_QUEUED (.dummy IPU3_CSS_QUEUE_STAT_3A 0) = d3
  have n3 : d3.nodes = d2.nodes := by
    rw [← hd3, set_buf_state_dummy_nodes, set_dummybuf_nodes]
  have q3 : d3.queue_enabled = d2.queue_enabled := by
    rw [← hd3, set_buf_state_queue_enabled, set_dummybuf_queue_enabled]
  have u3 : d3.queues IPU3_CSS_QUEUE_STAT_DVS = d.queues IPU3_CSS_QUEUE_STAT_DVS := by
    rw [← hd3, ← u2]
    show (set_dummybuf _ _ _ _).queues _ = _
    rw [set_dummybuf_queues_ne _ _ _ _ _ (by decide),
      set_dummybuf_queues_ne _ _ _ _ _ (by decide)]
  -- node STAT_DVS: a filler buffer
  have g6 := getbuf_dummy d3 IMGU_NODE_STAT_DVS
    (by rw [n3, n2 _ (by decide)]; exact h6) (by decide)
    (by rw [show imgu_node_to_queue IMGU_NODE_STAT_DVS = IPU3_CSS_QUEUE_STAT_DVS from rfl, u3]
        exact ha5)
    (by rw [show imgu_node_to_queue IMGU_NODE_STAT_DVS = IPU3_CSS_QUEUE_STAT_DVS from rfl, u3]
        exact hb5)
  rw [show imgu_node_to_queue IMGU_NODE_STAT_DVS = IPU3_CSS_QUEUE_STAT_DVS from rfl] at g6
  rw [show fuel + 2 = (fuel + 1) + 1 from rfl,
    (loop_submit env hall (fuel + 1) d3 _ IMGU_NODE_STAT_DVS 0 ready _
      (by rw [q3, q2]; exact hq6) (by decide) (by decide) g6).1 (by decide),
    show (IMGU_NODE_STAT_DVS + 1) % IMGU_NODE_NUM = IMGU_NODE_IN from rfl]
  generalize hd4 : set_buf_state (set_dummybuf d3 IPU3_CSS_QUEUE_STAT_DVS 0
    (ipu3_css_buf_init IPU3_CSS_QUEUE_STAT_DVS (d3.queues IPU3_CSS_QUEUE_STAT_DVS).dmap.daddr))
    IPU3_CSS_BUFFER_QUEUED (.dummy IPU3_CSS_QUEUE_STAT_DVS 0) = d4
  have n4 : d4.nodes = d3.nodes := by
    rw [← hd4, set_buf_state_dummy_nodes, set_dummybuf_nodes]
  have q4 : d4.queue_enabled = d3.queue_enabled := by
    rw [← hd4, set_buf_state_queue_enabled, set_dummybuf_queue_enabled]
  -- node IN: the caller buffer
  obtain ⟨rest, hrest⟩ := (loop_submit env hall fuel d4 d4 IMGU_NODE_IN 0 ready
    (.user IMGU_NODE_IN ki) (by rw [q4, q3, q2]; exact hq0) (by decide) (by decide)
    (getbuf_user d4 IMGU_NODE_IN ki
      (by rw [n4, n3, n2 _ (by decide)]; exact hin))).2
  refine ⟨rest, ?_⟩
  simp only [queue_result.after, hrest, List.cons_append, List.nil_append]

theorem node_to_queue_vf (node : Nat) (hvf : node ≠ IMGU_NODE_VF) (hpv : node ≠ IMGU_NODE_PV) :
    imgu_node_to_queue node ≠ IPU3_CSS_QUEUE_VF := by
  unfold imgu_node_to_queue
  split_ifs <;> decide

theorem loop_no_viewfinder (env : css_env)
    (hall : ∀ (imgu : imgu_device) (buf : buf_ptr),
      env.ipu3_css_buf_queue imgu buf = (0, set_buf_state imgu IPU3_CSS_BUFFER_QUEUED buf)) :
    ∀ (fuel : Nat) (imgu : imgu_device) (node : Nat) (ready : Bool),
      (imgu.nodes IMGU_NODE_VF).enabled = false → (imgu.nodes IMGU_NODE_PV).enabled = false →
      (imgu_queue_loop env fuel imgu node 0 ready).r = 0 ∧
      ∀ e, e ∈ (imgu_queue_loop env fuel imgu node 0 ready).trace →
        ∃ n b rd, e = .css_buf_queue n b 0 rd ∧ n ≠ IMGU_NODE_VF ∧ n ≠ IMGU_NODE_PV ∧
          ∀ j, b ≠ .dummy IPU3_CSS_QUEUE_VF j := by
  intro fuel
  induction fuel with
  | zero =>
    intro imgu node ready _ _
    exact ⟨rfl, fun e he => by cases he⟩
  | succ fuel ih =>
    intro imgu node ready hvf hpv
    obtain ⟨-, hspec⟩ := iter_spec env imgu node 0 ready
    simp only [imgu_queue_loop]
    rcases hspec with ⟨hnil, hr, himgu⟩ | ⟨b, imgu1, hgb, hqen, hev, hr, himgu, -⟩
    · rw [hnil, hr, himgu]
      by_cases hc : (imgu_queue_iter env imgu node 0 ready).continues = true
      · rw [if_pos hc]
        exact ih imgu _ _ hvf hpv
      · rw [if_neg hc]
        exact ⟨rfl, fun e he => by cases he⟩
    · rw [hall] at hr himgu
      simp only at hr himgu
      have hnvf : node ≠ IMGU_NODE_VF := by
        intro hn
        rw [iter_skip env imgu node 0 ready (Or.inl ⟨hn, hvf⟩)] at hev
        cases hev
      have hnpv : node ≠ IMGU_NODE_PV := by
        intro hn
        rw [iter_skip env imgu node 0 ready (Or.inr (Or.inl ⟨hn, hpv⟩))] at hev
        cases hev
      have hb : ∀ j, b ≠ .dummy IPU3_CSS_QUEUE_VF j := by
        intro j hj
        rcases getbuf_some_forms imgu imgu1 node b hgb with ⟨k, hk, -, -⟩ | ⟨i, hi, -, -⟩
        · rw [hk] at hj
          cases hj
        · rw [hi] at hj
          simp only [buf_ptr.dummy.injEq] at hj
          exact node_to_queue_vf node hnvf hnpv hj.1
      have hen1 : ∀ m, ((set_buf_state imgu1 IPU3_CSS_BUFFER_QUEUED b).nodes m).enabled =
          (imgu.nodes m).enabled := by
        intro m
        rw [set_buf_state_enabled]
        rcases getbuf_some_forms imgu imgu1 node b hgb with ⟨k, -, h1, -⟩ | ⟨i, -, h1, -⟩
        · rw [h1]
        · rw [h1, set_dummybuf_nodes]
      rw [hev, hr, himgu]
      have hown : ∀ e, e ∈ [imgu_event.css_buf_queue node b 0 ready] →
          ∃ n b rd, e = .css_buf_queue n b 0 rd ∧ n ≠ IMGU_NODE_VF ∧ n ≠ IMGU_NODE_PV ∧
            ∀ j, b ≠ .dummy IPU3_CSS_QUEUE_VF j := by
        intro e he
        exact ⟨node, b, ready, List.mem_singleton.1 he, hnvf, hnpv, hb⟩
      by_cases hc : (imgu_queue_iter env imgu node 0 ready).continues = true
      · rw [if_pos hc]
        obtain ⟨ih1, ih2⟩ := ih (set_buf_state imgu1 IPU3_CSS_BUFFER_QUEUED b)
          ((node + 1) % IMGU_NODE_NUM) (imgu_queue_iter env imgu node 0 ready).ready
          (by rw [hen1]; exact hvf) (by rw [hen1]; exact hpv)
        refine ⟨ih1, ?_⟩
        intro e he
        simp only [queue_result.after, List.mem_append] at he
        rcases he with he | he
        · exact hown e he
        · exact ih2 e he
      · rw [if_neg hc]
        exact ⟨rfl, hown⟩

theorem initial_pass (env : css_env)
    (hall : ∀ (imgu : imgu_device) (buf : buf_ptr),
      env.ipu3_css_buf_queue imgu buf = (0, set_buf_state imgu IPU3_CSS_BUFFER_QUEUED buf))
    (d : imgu_device) (ki ko fuel : Nat)
    (hs : d.css.streaming = true)
    (hq0 : d.queue_enabled IMGU_NODE_IN = true)
    (hq1 : d.queue_enabled IMGU_NODE_PARAMS = false)
    (hq2 : d.queue_enabled IMGU_NODE_OUT = true)
    (hq5 : d.queue_enabled IMGU_NODE_STAT_3A = true)
    (hq6 : d.queue_enabled IMGU_NODE_STAT_DVS = true)
    (hvf : (d.nodes IMGU_NODE_VF).enabled = false)
    (hpv : (d.nodes IMGU_NODE_PV).enabled = false)
    (hin : first_new_buffer (d.nodes IMGU_NODE_IN).buffers = some ki)
    (hout : first_new_buffer (d.nodes IMGU_NODE_OUT).buffers = some ko)
    (h5 : first_new_buffer (d.nodes IMGU_NODE_STAT_3A).buffers = none)
    (h6 : first_new_buffer (d.nodes IMGU_NODE_STAT_DVS).buffers = none)
    (ha4 : (d.queues IPU3_CSS_QUEUE_STAT_3A).dmap.vaddr ≠ none)
    (hb4 : ((d.queues IPU3_CSS_QUEUE_STAT_3A).dummybufs 0).state ≠ IPU3_CSS_BUFFER_QUEUED)
    (ha5 : (d.queues IPU3_CSS_QUEUE_STAT_DVS).dmap.vaddr ≠ none)
    (hb5 : ((d.queues IPU3_CSS_QUEUE_STAT_DVS).dummybufs 0).state ≠ IPU3_CSS_BUFFER_QUEUED)
    (hfuel : IMGU_NODE_NUM * new_inputs d ≤ fuel) :
    (imgu_queue_buffers env fuel d true).finished = true ∧
    (imgu_queue_buffers env fuel d true).r = 0 ∧
    (∃ rest, (imgu_queue_buffers env fuel d true).trace =
      [.css_buf_queue IMGU_NODE_OUT (.user IMGU_NODE_OUT ko) 0 true,
       .css_buf_queue IMGU_NODE_STAT_3A (.dummy IPU3_CSS_QUEUE_STAT_3A 0) 0 true,
       .css_buf_queue IMGU_NODE_STAT_DVS (.dummy IPU3_CSS_QUEUE_STAT_DVS 0) 0 true,
       .css_buf_queue IMGU_NODE_IN (.user IMGU_NODE_IN ki) 0 true] ++ rest) ∧
    ∀ e, e ∈ (imgu_queue_buffers env fuel d true).trace →
      ∃ n b rd, e = .css_buf_queue n b 0 rd ∧ n ≠ IMGU_NODE_VF ∧ n ≠ IMGU_NODE_PV ∧
        ∀ j, b ≠ .dummy IPU3_CSS_QUEUE_VF j := by
  have hready : input_ready d = true := by
    by_contra hc
    have hnone := (getbuf_in_none_iff d).2 (by simpa using hc)
    rw [getbuf_user d IMGU_NODE_IN ki hin] at hnone
    cases hnone
  have hq : submission_queues env := by
    intro imgu buf _
    rw [hall]
  have hpos := new_inputs_pos d hready
  have hfin : (imgu_queue_cycles env fuel d).finished = true := by
    apply (loop_terminates env hq fuel d (IMGU_NODE_IN + 1) 0 (input_ready d)
      (by decide) hq0).2
    rw [if_neg (show ¬ (IMGU_NODE_IN + 1 = IMGU_NODE_IN) from by decide)]
    generalize new_inputs d = n0 at hfuel hpos
    rw [show IMGU_NODE_NUM = 7 from rfl] at hfuel ⊢
    rw [show IMGU_NODE_IN = 0 from rfl]
    omega
  obtain ⟨hr, hev⟩ := loop_no_viewfinder env hall fuel d (IMGU_NODE_IN + 1) (input_ready d)
    hvf hpv
  have hrun : imgu_queue_buffers env fuel d true =
      { r := 0, imgu := (imgu_queue_cycles env fuel d).imgu,
        trace := (imgu_queue_cycles env fuel d).trace, finished := true } := by
    rw [queue_buffers_running env fuel d true hs hready, if_neg (by simpa using hfin),
      if_neg (fun h => h.1 hr)]
  rw [hrun]
  refine ⟨rfl, rfl, ?_, hev⟩
  have h7 : 7 ≤ fuel := by
    generalize new_inputs d = n0 at hfuel hpos
    rw [show IMGU_NODE_NUM = 7 from rfl] at hfuel
    omega
  obtain ⟨f, rfl⟩ : ∃ f, fuel = f + 7 := ⟨fuel - 7, by omega⟩
  obtain ⟨rest, hrest⟩ := first_cycle env hall d ki ko f hq0 hq1 hq2 hq5 hq6 hvf hpv hin hout
    h5 h6 ha4 hb4 ha5 hb5 true
  refine ⟨rest, ?_⟩
  show (imgu_queue_loop env (f + 7) d (IMGU_NODE_IN + 1) 0 (input_ready d)).trace = _
  rw [hready]
  exact hrest

theorem stream_queue_enabled_values (imgu : imgu_device) :
    stream_queue_enabled imgu IMGU_NODE_IN = (imgu.nodes IMGU_NODE_IN).enabled ∧
    stream_queue_enabled imgu IMGU_NODE_PARAMS = false ∧
    stream_queue_enabled imgu IMGU_NODE_OUT = true ∧
    stream_queue_enabled imgu IMGU_NODE_PV = true ∧
    stream_queue_enabled imgu IMGU_NODE_STAT_3A = true ∧
    stream_queue_enabled imgu IMGU_NODE_STAT_DVS = true := by
  refine ⟨?_, ?_, ?_, ?_, ?_, ?_⟩ <;>
    simp [stream_queue_enabled, Function.update, IMGU_NODE_IN, IMGU_NODE_PARAMS, IMGU_NODE_OUT,
      IMGU_NODE_VF, IMGU_NODE_PV, IMGU_NODE_STAT_3A, IMGU_NODE_STAT_DVS, IPU3_CSS_QUEUE_PARAMS,
      IMGU_NODE_NUM]

/-- C12, amended. A stream start (`enable` non-zero) in which the caller has enabled only the
input and output nodes, each holding a NEW caller buffer, no other node holds caller buffers,
the 3A and DVS statistics queues have their shared dummy allocation (made at probe time) and
every external step succeeds, returns 0, and the calls it makes are exactly: format push,
runtime power request, hardware power-up with the mappings restored, pipeline start, dummy
initialisation and the initial dispatcher run. That run starts by submitting the caller's
output buffer, filler buffer 0 of the 3A statistics queue, filler buffer 0 of the DVS
statistics queue and the caller's input buffer; every submission of the run succeeds, and none
is made on the viewfinder or postview node or with a filler buffer of the viewfinder/postview
hardware queue. -/
theorem stream_start_dummies (env : stream_env) (fuel : Nat) (imgu : imgu_device) (enable : Int)
    (ki ko : Nat)
    (henable : enable ≠ 0)
    (hext : stream_steps_succeed env)
    (hnodes : ∀ n, n < IMGU_NODE_NUM →
      ((imgu.nodes n).enabled = true ↔ (n = IMGU_NODE_IN ∨ n = IMGU_NODE_OUT)))
    (hin : first_new_buffer (imgu.nodes IMGU_NODE_IN).buffers = some ki)
    (hout : first_new_buffer (imgu.nodes IMGU_NODE_OUT).buffers = some ko)
    (hempty : ∀ n, n < IMGU_NODE_NUM → n ≠ IMGU_NODE_IN → n ≠ IMGU_NODE_OUT →
      (imgu.nodes n).buffers = [])
    (h3a : (imgu.queues IPU3_CSS_QUEUE_STAT_3A).dmap.vaddr ≠ none)
    (hdvs : (imgu.queues IPU3_CSS_QUEUE_STAT_DVS).dmap.vaddr ≠ none)
    (hfuel : IMGU_NODE_NUM * new_inputs imgu ≤ fuel) :
    (imgu_s_stream env fuel imgu enable).finished = true ∧
    (imgu_s_stream env fuel imgu enable).r = 0 ∧
    ∃ fmts vf g tr rest,
      (imgu_s_stream env fuel imgu enable).trace =
        [.css_fmt_set fmts vf 0, .pm_runtime_get_sync g, .css_set_powerup 0, .mmu_resume,
         .css_start_streaming 0, .dummybufs_init 0, .queue_buffers 0 tr] ∧
      tr =
        [.css_buf_queue IMGU_NODE_OUT (.user IMGU_NODE_OUT ko) 0 true,
         .css_buf_queue IMGU_NODE_STAT_3A (.dummy IPU3_CSS_QUEUE_STAT_3A 0) 0 true,
         .css_buf_queue IMGU_NODE_STAT_DVS (.dummy IPU3_CSS_QUEUE_STAT_DVS 0) 0 true,
         .css_buf_queue IMGU_NODE_IN (.user IMGU_NODE_IN ki) 0 true] ++ rest ∧
      ∀ e, e ∈ tr →
        ∃ n b rd, e = .css_buf_queue n b 0 rd ∧ n ≠ IMGU_NODE_VF ∧ n ≠ IMGU_NODE_PV ∧
          ∀ j, b ≠ .dummy IPU3_CSS_QUEUE_VF j := by
  obtain ⟨hfmt, hpm, hpow, hstart, hreg, hall⟩ := hext
  obtain ⟨e0, e1, e2, e4, e5, e6⟩ := stream_queue_enabled_values imgu
  have hvf : (imgu.nodes IMGU_NODE_VF).enabled = false := by
    have := (hnodes IMGU_NODE_VF (by decide)).not.2 (by decide)
    simpa using this
  have hpv : (imgu.nodes IMGU_NODE_PV).enabled = false := by
    have := (hnodes IMGU_NODE_PV (by decide)).not.2 (by decide)
    simpa using this
  have hien : (imgu.nodes IMGU_NODE_IN).enabled = true := (hnodes IMGU_NODE_IN (by decide)).2 (Or.inl rfl)
  unfold imgu_s_stream
  rw [if_neg henable]
  dsimp only
  unfold imgu_powerup
  dsimp only
  obtain ⟨f1, f2, f3, f4⟩ := hfmt (set_queue_enabled imgu (stream_queue_enabled imgu))
    (stream_fmts (set_queue_enabled imgu (stream_queue_enabled imgu)))
    (stream_vf_output_en (set_queue_enabled imgu (stream_queue_enabled imgu)))
  generalize env.ipu3_css_fmt_set (set_queue_enabled imgu (stream_queue_enabled imgu))
    (stream_fmts (set_queue_enabled imgu (stream_queue_enabled imgu)))
    (stream_vf_output_en (set_queue_enabled imgu (stream_queue_enabled imgu))) = f
    at f1 f2 f3 f4 ⊢
  have hg : ¬ env.pm_runtime_get_sync f.2 < 0 := not_lt.2 (hpm f.2)
  obtain ⟨s1, s2, s3, s4, s5⟩ := hstart f.2
  generalize env.ipu3_css_start_streaming f.2 = s at s1 s2 s3 s4 s5 ⊢
  obtain ⟨d1, d2, d3, d4, -, d6, d7⟩ :=
    fill_from_ok env.dmamap_region hreg IPU3_CSS_QUEUES 0 s.2
  have hinit : imgu_dummybufs_init env.dmamap_region s.2 false =
      imgu_dummybufs_fill_from env.dmamap_region IPU3_CSS_QUEUES 0 s.2 := rfl
  rw [hinit]
  have hnd : s.2.nodes = imgu.nodes := by rw [s3, f2]; rfl
  have hqe : s.2.queue_enabled = stream_queue_enabled imgu := by rw [s4, f3]; rfl
  have hqs : s.2.queues = imgu.queues := by rw [s5, f4]; rfl
  have hm4 : imgu_map_node s.2 IPU3_CSS_QUEUE_STAT_3A = (IMGU_NODE_STAT_3A : Int) := rfl
  have hm5 : imgu_map_node s.2 IPU3_CSS_QUEUE_STAT_DVS = (IMGU_NODE_STAT_DVS : Int) := rfl
  have b4 := d7 IPU3_CSS_QUEUE_STAT_3A (by decide) (by decide)
    (by rw [hm4, hqe]; exact e5) (by decide) (by decide) 0 (by decide)
  have b5 := d7 IPU3_CSS_QUEUE_STAT_DVS (by decide) (by decide)
    (by rw [hm5, hqe]; exact e6) (by decide) (by decide) 0 (by decide)
  have a4 := d6 IPU3_CSS_QUEUE_STAT_3A (by rw [hqs]; exact h3a)
  have a5 := d6 IPU3_CSS_QUEUE_STAT_DVS (by rw [hqs]; exact hdvs)
  generalize imgu_dummybufs_fill_from env.dmamap_region IPU3_CSS_QUEUES 0 s.2 = d
    at d1 d2 d3 d4 b4 b5 a4 a5 ⊢
  have hdn : d.2.nodes = imgu.nodes := by rw [d2, hnd]
  have hdq : d.2.queue_enabled = stream_queue_enabled imgu := by rw [d3, hqe]
  obtain ⟨p1, p2, ⟨rest, p3⟩, p4⟩ := initial_pass env.css hall d.2 ki ko fuel
    (by rw [d4]; exact s2)
    (by rw [hdq, e0]; exact hien) (by rw [hdq]; exact e1) (by rw [hdq]; exact e2)
    (by rw [hdq]; exact e5) (by rw [hdq]; exact e6)
    (by rw [hdn]; exact hvf) (by rw [hdn]; exact hpv)
    (by rw [hdn]; exact hin) (by rw [hdn]; exact hout)
    (by rw [hdn, hempty _ (by decide) (by decide) (by decide)]; rfl)
    (by rw [hdn, hempty _ (by decide) (by decide) (by decide)]; rfl)
    a4 (by rw [b4]; simp [ipu3_css_buf_init]) a5 (by rw [b5]; simp [ipu3_css_buf_init])
    (by unfold new_inputs at hfuel ⊢; rw [hdn]; exact hfuel)
  generalize imgu_queue_buffers env.css fuel d.2 true = q at p1 p2 p3 p4 ⊢
  simp only [f1, hpow, s1, d1, p1, p2, hg, ne_eq, not_true_eq_false, not_false_eq_true,
    if_true, if_false]
  refine ⟨trivial, trivial, _, _, _, _, rest, rfl, p3, p4⟩

theorem sample_stream_steps :
    stream_steps_succeed (sample_stream_env (sample_env [] 0) 0 0 0 0 true) := by
  refine ⟨fun _ _ _ => ⟨rfl, rfl, rfl, rfl⟩, fun _ => le_refl _, fun _ => rfl,
    fun _ => ⟨rfl, rfl, rfl, rfl, rfl⟩, ?_, ?_⟩
  · intro i size
    simp [sample_stream_env]
  · intro imgu buf
    simp [sample_stream_env, sample_env]

/-- C12, counterexample: the sample device, with only the input and output nodes enabled and
holding one NEW caller buffer each and with the viewfinder queue's dummy allocation in place,
is started on a platform where every step succeeds. The start returns 0 and the initial
dispatcher run submits exactly four buffers: the caller's output buffer, a filler buffer to the
3A queue, a filler buffer to the DVS queue and the caller's input buffer. Nothing is submitted
on the viewfinder or postview node, and no filler buffer of the viewfinder/postview hardware
queue is submitted. -/
theorem stream_start_dummies_counterexample :
    (∀ n, (sample_start_dev.nodes n).enabled = true ↔ (n = IMGU_NODE_IN ∨ n = IMGU_NODE_OUT)) ∧
    (sample_start_dev.queues IPU3_CSS_QUEUE_VF).dmap.vaddr ≠ none ∧
    (imgu_s_stream (sample_stream_env (sample_env [] 0) 0 0 0 0 true) 20 sample_start_dev 1).r
      = 0 ∧
    (imgu_s_stream (sample_stream_env (sample_env [] 0) 0 0 0 0 true) 20
      sample_start_dev 1).trace =
      [.css_fmt_set [true, false, true, true, false, false] IPU3_NODE_VF_DISABLED 0,
       .pm_runtime_get_sync 0, .css_set_powerup 0, .mmu_resume, .css_start_streaming 0,
       .dummybufs_init 0,
       .queue_buffers 0
        [.css_buf_queue IMGU_NODE_OUT (.user IMGU_NODE_OUT 0) 0 true,
         .css_buf_queue IMGU_NODE_STAT_3A (.dummy IPU3_CSS_QUEUE_STAT_3A 0) 0 true,
         .css_buf_queue IMGU_NODE_STAT_DVS (.dummy IPU3_CSS_QUEUE_STAT_DVS 0) 0 true,
         .css_buf_queue IMGU_NODE_IN (.user IMGU_NODE_IN 0) 0 true]] ∧
    ¬ ∃ r tr n b r1 rd,
      stream_event.queue_buffers r tr ∈
        (imgu_s_stream (sample_stream_env (sample_env [] 0) 0 0 0 0 true) 20
          sample_start_dev 1).trace ∧
      imgu_event.css_buf_queue n b r1 rd ∈ tr ∧
      (n = IMGU_NODE_VF ∨ n = IMGU_NODE_PV ∨ ∃ j, b = .dummy IPU3_CSS_QUEUE_VF j) := by
  have htrace : (imgu_s_stream (sample_stream_env (sample_env [] 0) 0 0 0 0 true) 20
      sample_start_dev 1).trace =
      [.css_fmt_set [true, false, true, true, false, false] IPU3_NODE_VF_DISABLED 0,
       .pm_runtime_get_sync 0, .css_set_powerup 0, .mmu_resume, .css_start_streaming 0,
       .dummybufs_init 0,
       .queue_buffers 0
        [.css_buf_queue IMGU_NODE_OUT (.user IMGU_NODE_OUT 0) 0 true,
         .css_buf_queue IMGU_NODE_STAT_3A (.dummy IPU3_CSS_QUEUE_STAT_3A 0) 0 true,
         .css_buf_queue IMGU_NODE_STAT_DVS (.dummy IPU3_CSS_QUEUE_STAT_DVS 0) 0 true,
         .css_buf_queue IMGU_NODE_IN (.user IMGU_NODE_IN 0) 0 true]] := by decide
  refine ⟨?_, by decide, by decide, htrace, ?_⟩
  · intro n
    show decide (n ∈ [IMGU_NODE_IN, IMGU_NODE_OUT]) = true ↔ _
    simp
  · rw [htrace]
    rintro ⟨r, tr, n, b, r1, rd, hq, he, hn⟩
    simp only [List.mem_cons, List.mem_singleton, List.not_mem_nil, or_false, reduceCtorEq,
      false_or, stream_event.queue_buffers.injEq] at hq
    obtain ⟨-, rfl⟩ := hq
    simp only [List.mem_cons, List.mem_singleton, List.not_mem_nil, or_false,
      imgu_event.css_buf_queue.injEq] at he
    rcases he with ⟨rfl, rfl, -, -⟩ | ⟨rfl, rfl, -, -⟩ | ⟨rfl, rfl, -, -⟩ | ⟨rfl, rfl, -, -⟩ <;>
      (rcases hn with hn | hn | ⟨j, hn⟩
       · revert hn; decide
       · revert hn; decide
       · simp [IPU3_CSS_QUEUE_STAT_3A, IPU3_CSS_QUEUE_VF, IPU3_CSS_QUEUE_STAT_DVS] at hn)

/-- C12, witness: the sample start device on the platform where every step succeeds, with 7
loop iterations. -/
theorem stream_start_dummies_witness :
    (1 : Int) ≠ 0 ∧
    stream_steps_succeed (sample_stream_env (sample_env [] 0) 0 0 0 0 true) ∧
    first_new_buffer (sample_start_dev.nodes IMGU_NODE_IN).buffers = some 0 ∧
    first_new_buffer (sample_start_dev.nodes IMGU_NODE_OUT).buffers = some 0 ∧
    (sample_start_dev.queues IPU3_CSS_QUEUE_STAT_3A).dmap.vaddr ≠ none ∧
    (sample_start_dev.queues IPU3_CSS_QUEUE_STAT_DVS).dmap.vaddr ≠ none ∧
    IMGU_NODE_NUM * new_inputs sample_start_dev ≤ 7 ∧
    (imgu_s_stream (sample_stream_env (sample_env [] 0) 0 0 0 0 true) 7
      sample_start_dev 1).finished = true ∧
    (imgu_s_stream (sample_stream_env (sample_env [] 0) 0 0 0 0 true) 7
      sample_start_dev 1).r = 0 := by
  have h := stream_start_dummies (sample_stream_env (sample_env [] 0) 0 0 0 0 true) 7
    sample_start_dev 1 0 0 (by decide) sample_stream_steps
    (by
      intro n _
      show decide (n ∈ [IMGU_NODE_IN, IMGU_NODE_OUT]) = true ↔ _
      simp)
    (by decide) (by decide)
    (by
      intro n _ h1 h2
      show (if n = IMGU_NODE_IN then _ else if n = IMGU_NODE_OUT then _ else []) = []
      rw [if_neg h1, if_neg h2])
    (by decide) (by decide) (by decide)
  exact ⟨by decide, sample_stream_steps, by decide, by decide, by decide, by decide, by decide,
    h.1, h.2.1⟩

end Ipu3
